import Mathlib

/-! Acceptor pool of the RPC server (`src/kudu/rpc/acceptor_pool.cc`), followed by
the table actions of the command-line tool (`src/kudu/tools/tool_action_table.cc`)

A shallow embedding of `kudu::rpc::AcceptorPool`.  The pool object is a record of
its data members; every call the code makes on a collaborator (thread creation,
thread join, the listening socket, the messenger, the logger) is appended to an
event trace, in program order.  Results of those calls are not computed by the
pool, so each operation takes them as arguments.  A failed `CHECK` aborts the
process: the operation then yields `none`.
-/

namespace kudu

/-- Result of a fallible call (`kudu::Status`): OK, or an error code with its message. -/
inductive Status where
  | OK
  | Error (code : Nat) (msg : String)
  deriving DecidableEq, Repr

/-- Test `Status::ok()`. -/
def Status.ok : Status → Bool
  | .OK => true
  | .Error _ _ => false

/-- Network address (`kudu::Sockaddr`). -/
structure Sockaddr where
  host : Nat
  port : Nat
  deriving DecidableEq, Repr

/-- Socket object (`kudu::Socket`), identified by its file descriptor. -/
structure Socket where
  fd : Int
  deriving DecidableEq, Repr

/-- Transfer of the descriptor out of a socket object (`Socket::Release`): the
descriptor is returned and the object is left holding -1. -/
def Socket.Release (s : Socket) : Int × Socket :=
  (s.fd, { fd := -1 })

/-- Handle of a worker thread (`scoped_refptr<kudu::Thread>`). -/
structure Thread where
  tid : Nat
  deriving DecidableEq, Repr

namespace rpc

/-- Severity of a log statement: `VLOG(level)` or `LOG(WARNING)`. -/
inductive Severity where
  | VLOG (level : Nat)
  | WARNING
  deriving DecidableEq, Repr

/-- The log statements of the file, with the values each one prints. -/
inductive LogMsg where
  /-- Line 65: "Acceptor Pool on <addr> already shut down". -/
  | AlreadyShutDown (addr : Sockaddr)
  /-- Line 72: "Could not shut down acceptor socket on <addr>", with the status. -/
  | CouldNotShutDownSocket (addr : Sockaddr) (s : Status)
  /-- Line 94: "calling accept() on socket <fd> listening on <addr>". -/
  | CallingAccept (fd : Int) (addr : Sockaddr)
  /-- Line 101: "AcceptorPool: accept failed: <status>". -/
  | AcceptFailed (s : Status)
  /-- Line 106: "Acceptor with remote = <remote> failed to set TCP_NODELAY ...". -/
  | NoDelayFailed (remote : Sockaddr) (s : Status)
  /-- Line 114: "AcceptorPool shutting down.". -/
  | ShuttingDown
  deriving DecidableEq, Repr

/-- One call made by the pool on a collaborator, with the result the call gave. -/
inductive Event where
  | Log (sev : Severity) (m : LogMsg)
  /-- Call of `Thread::Create`; `t` is the handle written to `new_thread`. -/
  | ThreadCreate (s : Status) (t : Thread)
  /-- Call of `Acquire_CompareAndSwap(&closing_, false, true)` that returned `prev`. -/
  | CompareAndSwap (prev : Bool)
  /-- Call of `socket_.Shutdown(rd, wr)`. -/
  | SocketShutdown (rd wr : Bool) (s : Status)
  /-- Call of `ThreadJoiner(t).Join()`. -/
  | Join (t : Thread) (s : Status)
  /-- Call of `socket_.Accept(&new_sock, &remote, FLAG_NONBLOCKING)`. -/
  | Accept (s : Status) (new_sock : Socket) (remote : Sockaddr)
  /-- Call of `new_sock.SetNoDelay(flag)`. -/
  | SetNoDelay (sock : Socket) (flag : Bool) (s : Status)
  /-- Call of `messenger_->RegisterInboundSocket(&new_sock, remote)`. -/
  | RegisterInboundSocket (sock : Socket) (remote : Sockaddr)
  /-- Call of `socket_.GetSocketAddress(addr)`. -/
  | GetSocketAddress (s : Status) (addr : Sockaddr)
  deriving DecidableEq, Repr

/-- Metrics context of a messenger: the current value of the
`rpc_connections_accepted` counter it holds. -/
structure MetricContext where
  rpc_connections_accepted : Nat
  deriving DecidableEq, Repr

/-- The part of `Messenger` the pool reads at construction: `metric_context()`,
which may be null. -/
structure Messenger where
  metric_context : Option MetricContext
  deriving DecidableEq, Repr

/-- Data members of `AcceptorPool`, and the trace of the calls it has made.
`rpc_connections_accepted_` is the value of the shared counter. -/
structure AcceptorPool where
  socket_ : Socket
  bind_address_ : Sockaddr
  rpc_connections_accepted_ : Nat
  threads_ : List Thread
  closing_ : Bool
  trace : List Event
  deriving DecidableEq, Repr

/-- Constructor `AcceptorPool::AcceptorPool` (lines 35-43).  `CHECK_NOTNULL` on
the metrics context is fatal when the context is null. -/
def AcceptorPool.construct (messenger : Messenger) (socket : Socket)
    (bind_address : Sockaddr) : Option AcceptorPool :=
  match messenger.metric_context with
  | none => none
  | some ctx =>
    some { socket_ := { fd := socket.Release.1 }
           bind_address_ := bind_address
           rpc_connections_accepted_ := ctx.rpc_connections_accepted
           threads_ := []
           closing_ := false
           trace := [] }

/-- Append one event to the trace. -/
def AcceptorPool.emit (p : AcceptorPool) (e : Event) : AcceptorPool :=
  { p with trace := p.trace ++ [e] }

/-- Atomic `Acquire_CompareAndSwap(&closing_, old_value, new_value)`: stores
`new_value` when the flag equals `old_value`, and returns the value found. -/
def Acquire_CompareAndSwap (p : AcceptorPool) (old_value new_value : Bool) :
    Bool × AcceptorPool :=
  (p.closing_, { p with closing_ := if p.closing_ = old_value then new_value else p.closing_ })

/-- Results of the calls one execution of `Shutdown` makes: the status of
`socket_.Shutdown(true, true)` and the status of `Join` on each handle. -/
structure ShutdownEnv where
  socket_shutdown : Status
  join : Thread → Status

/-- Loop `BOOST_FOREACH(thread, threads_) CHECK_OK(ThreadJoiner(thread).Join())`
(lines 76-78) over the handles not yet visited.  A failed `CHECK_OK` is fatal. -/
def joinAll (join : Thread → Status) (p : AcceptorPool) : List Thread → Option AcceptorPool
  | [] => some p
  | thread :: rest =>
    let s := join thread
    let p1 := p.emit (Event.Join thread s)
    if s.ok then joinAll join p1 rest else none

/-- Lines 72-74 of `Shutdown`: `WARN_NOT_OK(socket_.Shutdown(true, true), ...)`,
where `s` is the status the socket call gave. -/
def Shutdown.socketShutdown (s : Status) (p : AcceptorPool) : AcceptorPool :=
  let p1 := p.emit (Event.SocketShutdown true true s)
  if s.ok then p1
  else p1.emit (Event.Log Severity.WARNING (LogMsg.CouldNotShutDownSocket p1.bind_address_ s))

/-- Lines 65-66 of `Shutdown`: the `VLOG(2)` of a call that found the flag set. -/
def Shutdown.alreadyShutDown (p : AcceptorPool) : AcceptorPool :=
  p.emit (Event.Log (Severity.VLOG 2) (LogMsg.AlreadyShutDown p.bind_address_))

/-- Body of `AcceptorPool::Shutdown` (lines 63-80). -/
def Shutdown (env : ShutdownEnv) (p : AcceptorPool) : Option AcceptorPool :=
  let (prev, p1) := Acquire_CompareAndSwap p false true
  let p2 := p1.emit (Event.CompareAndSwap prev)
  if prev != false then
    some (Shutdown.alreadyShutDown p2)
  else
    let p3 := Shutdown.socketShutdown env.socket_shutdown p2
    match joinAll env.join p3 p3.threads_ with
    | none => none
    | some p4 => some { p4 with threads_ := [] }

/-- Destructor `AcceptorPool::~AcceptorPool` (lines 45-47): calls `Shutdown`. -/
def AcceptorPool.destroy (env : ShutdownEnv) (p : AcceptorPool) : Option AcceptorPool :=
  Shutdown env p

/-- Result of one call of `Thread::Create`: the status, and the handle written
to the out-parameter `new_thread`. -/
structure CreateResult where
  s : Status
  new_thread : Thread
  deriving DecidableEq, Repr

/-- Results of the calls one execution of `Init` makes: creation number `i` of
the loop gives `create i`; `rollback` serves the `Shutdown` call of line 55. -/
structure InitEnv where
  create : Nat → CreateResult
  rollback : ShutdownEnv

/-- Loop of `AcceptorPool::Init` (lines 50-60) from loop variable `i`, with
`remaining` iterations left before `i < num_threads` fails. -/
def Init.loop (env : InitEnv) (p : AcceptorPool) (i : Nat) :
    (remaining : Nat) → Option (AcceptorPool × Status)
  | 0 => some (p, Status.OK)
  | remaining + 1 =>
    let r := env.create i
    let p1 := p.emit (Event.ThreadCreate r.s r.new_thread)
    if !r.s.ok then
      match Shutdown env.rollback p1 with
      | none => none
      | some p2 => some (p2, r.s)
    else
      Init.loop env { p1 with threads_ := p1.threads_ ++ [r.new_thread] } (i + 1) remaining

/-- Method `AcceptorPool::Init(int num_threads)` (lines 49-61): the loop runs for
`i = 0 .. num_threads - 1`, so not at all when `num_threads <= 0`. -/
def Init (env : InitEnv) (num_threads : Int) (p : AcceptorPool) :
    Option (AcceptorPool × Status) :=
  Init.loop env p 0 num_threads.toNat

/-- Atomic `Release_Load(&closing_)`. -/
def Release_Load (p : AcceptorPool) : Bool :=
  p.closing_

/-- Results of the calls one iteration of the accept loop makes: the status of
`Accept` with the socket and remote address it wrote, and the status of
`SetNoDelay` on that socket. -/
structure AcceptResult where
  accept : Status
  new_sock : Socket
  remote : Sockaddr
  set_no_delay : Status
  deriving DecidableEq, Repr

/-- One iteration of the `while (true)` loop of `AcceptorPool::RunThread`
(lines 92-112).  The second component is `true` when the iteration leaves the
loop through `break`, `false` when the loop goes round again.  The counter is
a natural number: `Increment` adds one. -/
def RunThread.iteration (p : AcceptorPool) (r : AcceptResult) : AcceptorPool × Bool :=
  let p1 := p.emit (Event.Log (Severity.VLOG 2) (LogMsg.CallingAccept p.socket_.fd p.bind_address_))
  let s := r.accept
  let p2 := p1.emit (Event.Accept s r.new_sock r.remote)
  if !s.ok then
    if Release_Load p2 then
      (p2, true)
    else
      (p2.emit (Event.Log Severity.WARNING (LogMsg.AcceptFailed s)), false)
  else
    let s := r.set_no_delay
    let p3 := p2.emit (Event.SetNoDelay r.new_sock true s)
    if !s.ok then
      (p3.emit (Event.Log Severity.WARNING (LogMsg.NoDelayFailed r.remote s)), false)
    else
      let p4 := { p3 with rpc_connections_accepted_ := p3.rpc_connections_accepted_ + 1 }
      (p4.emit (Event.RegisterInboundSocket r.new_sock r.remote), false)

/-- Line 114 of `RunThread`: the `VLOG(1)` after the loop. -/
def RunThread.afterLoop (p : AcceptorPool) : AcceptorPool :=
  p.emit (Event.Log (Severity.VLOG 1) LogMsg.ShuttingDown)

/-- Where a worker stands after a finite run: still in the loop, about to call
`Accept` again, or returned from `RunThread`. -/
inductive WorkerState where
  | Accepting
  | Stopped
  deriving DecidableEq, Repr

/-- Method `AcceptorPool::RunThread` (lines 90-115) run on the results of a finite
number of loop iterations.  The loop has no exit but `break`, so a worker that
has used up the results without reaching `break` is still `Accepting`. -/
def RunThread (p : AcceptorPool) : List AcceptResult → AcceptorPool × WorkerState
  | [] => (p, WorkerState.Accepting)
  | r :: rest =>
    match RunThread.iteration p r with
    | (q, true) => (RunThread.afterLoop q, WorkerState.Stopped)
    | (q, false) => RunThread q rest

/-- Method `AcceptorPool::bind_address` (lines 82-84). -/
def AcceptorPool.bind_address (p : AcceptorPool) : Sockaddr :=
  p.bind_address_

/-- Method `AcceptorPool::GetBoundAddress` (lines 86-88): returns what
`socket_.GetSocketAddress(addr)` gave, here `s` with the address `a`. -/
def GetBoundAddress (s : Status) (a : Sockaddr) (p : AcceptorPool) :
    AcceptorPool × Status × Sockaddr :=
  (p.emit (Event.GetSocketAddress s a), s, a)

/-! ## Sequences of lifecycle calls -/

/-- A lifecycle call made on the pool by its owner, with the results of the
calls it will make. -/
inductive Call where
  | init (num_threads : Int) (env : InitEnv)
  | shutdown (env : ShutdownEnv)

/-- State of the pool after one lifecycle call (`none`: the process aborted). -/
def Call.run (p : AcceptorPool) : Call → Option AcceptorPool
  | Call.init num_threads env => (Init env num_threads p).map Prod.fst
  | Call.shutdown env => Shutdown env p

/-- State of the pool after a sequence of lifecycle calls, made one after the other. -/
def runCalls (p : AcceptorPool) : List Call → Option AcceptorPool
  | [] => some p
  | c :: cs =>
    match c.run p with
    | none => none
    | some q => runCalls q cs

/-- Whether some `Init` call of the sequence returned OK. -/
def initSucceeded (p : AcceptorPool) : List Call → Bool
  | [] => false
  | Call.init num_threads env :: cs =>
    match Init env num_threads p with
    | none => false
    | some (q, s) => s.ok || initSucceeded q cs
  | Call.shutdown env :: cs =>
    match Shutdown env p with
    | none => false
    | some q => initSucceeded q cs

/-- Whether the sequence is non-empty and its last call is a `Shutdown`. -/
def lastIsShutdown : List Call → Bool
  | [] => false
  | [Call.shutdown _] => true
  | [Call.init _ _] => false
  | _ :: c :: cs => lastIsShutdown (c :: cs)

/-- Whether every call of the sequence is an `Init`. -/
def onlyInit : List Call → Bool
  | [] => true
  | Call.init _ _ :: cs => onlyInit cs
  | Call.shutdown _ :: _ => false

/-- Whether every `Init` call of the sequence finds the closing flag unset, that
is, no `Init` is made after a `Shutdown` or after an `Init` that failed. -/
def initWhileOpen (p : AcceptorPool) : List Call → Bool
  | [] => true
  | c :: cs =>
    (match c with
      | Call.init _ _ => !p.closing_
      | Call.shutdown _ => true) &&
    (match c.run p with
      | none => true
      | some q => initWhileOpen q cs)

/-! ## Observations on the trace -/

/-- Handles on which `Join` was called, in call order. -/
def joined (tr : List Event) : List Thread :=
  tr.filterMap fun e => match e with
    | Event.Join t _ => some t
    | _ => none

/-- Handles of the threads that `Thread::Create` started, in call order. -/
def started (tr : List Event) : List Thread :=
  tr.filterMap fun e => match e with
    | Event.ThreadCreate s t => if s.ok then some t else none
    | _ => none

/-- Number of calls of `Thread::Create`. -/
def creations (tr : List Event) : Nat :=
  tr.countP fun e => match e with
    | Event.ThreadCreate _ _ => true
    | _ => false

/-- Number of calls of `socket_.Shutdown`. -/
def socketShutdowns (tr : List Event) : Nat :=
  tr.countP fun e => match e with
    | Event.SocketShutdown _ _ _ => true
    | _ => false

/-- Number of executions of the compare-and-swap that found the flag unset. -/
def teardownsBegun (tr : List Event) : Nat :=
  tr.countP fun e => match e with
    | Event.CompareAndSwap false => true
    | _ => false

/-- Connections handed to the messenger, each with its remote address, in call order. -/
def registered (tr : List Event) : List (Socket × Sockaddr) :=
  tr.filterMap fun e => match e with
    | Event.RegisterInboundSocket sock remote => some (sock, remote)
    | _ => none

/-- Messages logged with `LOG(WARNING)`, in call order. -/
def warnings (tr : List Event) : List LogMsg :=
  tr.filterMap fun e => match e with
    | Event.Log Severity.WARNING m => some m
    | _ => none

/-- Number of calls of `socket_.Accept`. -/
def accepts (tr : List Event) : Nat :=
  tr.countP fun e => match e with
    | Event.Accept _ _ _ => true
    | _ => false

/-! ## Threads running side by side

Several threads act on one pool: workers running `RunThread`, and callers of
`Shutdown`.  A schedule is a list of actions; each action is one atomic step of
one thread.  A worker step is one loop iteration (it reads the shared flag once);
a caller step is one statement of `Shutdown`.  `Join` on a handle completes only
once that worker has returned from `RunThread`. -/

/-- Where a caller stands in `Shutdown`. -/
inductive ShutdownPC where
  /-- Before the compare-and-swap of line 64. -/
  | Start
  /-- After a compare-and-swap that found the flag unset, before line 72. -/
  | SocketShutdown
  /-- In the loop of lines 76-78, about to visit element `i` of `threads_`. -/
  | Joining (i : Nat)
  /-- Returned from `Shutdown`; `teardown` tells whether this call went past line 68. -/
  | Returned (teardown : Bool)
  deriving DecidableEq, Repr

/-- Whether the call is in, or has gone through, the teardown of lines 70-79. -/
def ShutdownPC.performsTeardown : ShutdownPC → Bool
  | ShutdownPC.Start => false
  | ShutdownPC.SocketShutdown => true
  | ShutdownPC.Joining _ => true
  | ShutdownPC.Returned teardown => teardown

/-- The pool together with the threads acting on it: the workers that have
returned from `RunThread`, and the position of each caller of `Shutdown`. -/
structure System where
  pool : AcceptorPool
  exited : List Thread
  callers : Nat → ShutdownPC

/-- One atomic step: worker `t` runs a loop iteration with the results `r`, or
caller `c` runs its next statement, `s` being the status of the socket or join
call that statement makes. -/
inductive Action where
  | Worker (t : Thread) (r : AcceptResult)
  | Caller (c : Nat) (s : Status)
  deriving DecidableEq, Repr

/-- Effect of one action (`none`: a `CHECK` failed and the process aborted).
An action of a thread that has returned, or that is blocked in `Join`, leaves the
system as it is. -/
def System.step (sys : System) : Action → Option System
  | Action.Worker t r =>
    if t ∈ sys.exited then some sys
    else
      match RunThread.iteration sys.pool r with
      | (q, true) => some { sys with pool := RunThread.afterLoop q, exited := t :: sys.exited }
      | (q, false) => some { sys with pool := q }
  | Action.Caller c s =>
    match sys.callers c with
    | ShutdownPC.Start =>
      let (prev, p1) := Acquire_CompareAndSwap sys.pool false true
      let p2 := p1.emit (Event.CompareAndSwap prev)
      if prev != false then
        some { sys with pool := Shutdown.alreadyShutDown p2
                        callers := Function.update sys.callers c (ShutdownPC.Returned false) }
      else
        some { sys with pool := p2
                        callers := Function.update sys.callers c ShutdownPC.SocketShutdown }
    | ShutdownPC.SocketShutdown =>
      some { sys with pool := Shutdown.socketShutdown s sys.pool
                      callers := Function.update sys.callers c (ShutdownPC.Joining 0) }
    | ShutdownPC.Joining i =>
      match sys.pool.threads_[i]? with
      | none =>
        some { sys with pool := { sys.pool with threads_ := [] }
                        callers := Function.update sys.callers c (ShutdownPC.Returned true) }
      | some thread =>
        if thread ∈ sys.exited then
          if s.ok then
            some { sys with pool := sys.pool.emit (Event.Join thread s)
                            callers := Function.update sys.callers c (ShutdownPC.Joining (i + 1)) }
          else none
        else some sys
    | ShutdownPC.Returned _ => some sys

/-- Effect of a schedule. -/
def System.run (sys : System) : List Action → Option System
  | [] => some sys
  | a :: as =>
    match sys.step a with
    | none => none
    | some next => System.run next as

/-- The connection that one action accepts and prepares, if any: the socket and
remote address of an iteration, run by a worker still in its loop, in which
`Accept` and `SetNoDelay` both gave OK. -/
def System.preparedBy (sys : System) : Action → List (Socket × Sockaddr)
  | Action.Worker t r =>
    if t ∉ sys.exited ∧ r.accept.ok = true ∧ r.set_no_delay.ok = true then
      [(r.new_sock, r.remote)]
    else []
  | Action.Caller _ _ => []

/-- Connections that the steps of a schedule accept and prepare, in schedule order. -/
def System.prepared (sys : System) : List Action → List (Socket × Sockaddr)
  | [] => []
  | a :: as =>
    match sys.step a with
    | none => []
    | some next => sys.preparedBy a ++ System.prepared next as

/-! ## Expected traces -/

/-- The `Join` events of a loop over `ts` in which every `Join` gave OK. -/
def joinEvents (ts : List Thread) : List Event :=
  ts.map fun t => Event.Join t Status.OK

/-- The events of a teardown (lines 64-79) that ran to its end on the handles
`ts`, the socket call having given `s`: the compare-and-swap, the socket
shutdown, its warning if it failed, then one `Join` per handle. -/
def teardownEvents (addr : Sockaddr) (s : Status) (ts : List Thread) : List Event :=
  [Event.CompareAndSwap false, Event.SocketShutdown true true s] ++
    (if s.ok then [] else [Event.Log Severity.WARNING (LogMsg.CouldNotShutDownSocket addr s)]) ++
    joinEvents ts

/-- The events of a `Shutdown` call that found the flag set (lines 64-67). -/
def noopEvents (addr : Sockaddr) : List Event :=
  [Event.CompareAndSwap true, Event.Log (Severity.VLOG 2) (LogMsg.AlreadyShutDown addr)]

/-- Handles written by creations `i`, ..., `i + n - 1` of an `Init` loop. -/
def createdHandles (env : InitEnv) (i n : Nat) : List Thread :=
  (List.range' i n).map fun j => (env.create j).new_thread

/-- The `Thread::Create` events of creations `i`, ..., `i + n - 1` of an `Init` loop. -/
def createEvents (env : InitEnv) (i n : Nat) : List Event :=
  (List.range' i n).map fun j => Event.ThreadCreate (env.create j).s (env.create j).new_thread

/-- The events of a loop iteration whose `Accept` and `SetNoDelay` gave OK
(lines 94-112). -/
def handoffEvents (p : AcceptorPool) (r : AcceptResult) : List Event :=
  [Event.Log (Severity.VLOG 2) (LogMsg.CallingAccept p.socket_.fd p.bind_address_),
   Event.Accept r.accept r.new_sock r.remote,
   Event.SetNoDelay r.new_sock true r.set_no_delay,
   Event.RegisterInboundSocket r.new_sock r.remote]

/-- The events of a loop iteration whose `Accept` gave OK and whose `SetNoDelay`
failed (lines 94-109). -/
def noDelayFailureEvents (p : AcceptorPool) (r : AcceptResult) : List Event :=
  [Event.Log (Severity.VLOG 2) (LogMsg.CallingAccept p.socket_.fd p.bind_address_),
   Event.Accept r.accept r.new_sock r.remote,
   Event.SetNoDelay r.new_sock true r.set_no_delay,
   Event.Log Severity.WARNING (LogMsg.NoDelayFailed r.remote r.set_no_delay)]

/-- The events of a loop iteration whose `Accept` failed with the flag unset
(lines 94-102). -/
def acceptFailureEvents (p : AcceptorPool) (r : AcceptResult) : List Event :=
  [Event.Log (Severity.VLOG 2) (LogMsg.CallingAccept p.socket_.fd p.bind_address_),
   Event.Accept r.accept r.new_sock r.remote,
   Event.Log Severity.WARNING (LogMsg.AcceptFailed r.accept)]

/-- The events of a loop iteration whose `Accept` failed with the flag set,
followed by the end of `RunThread` (lines 94-99 and 114). -/
def stopEvents (p : AcceptorPool) (r : AcceptResult) : List Event :=
  [Event.Log (Severity.VLOG 2) (LogMsg.CallingAccept p.socket_.fd p.bind_address_),
   Event.Accept r.accept r.new_sock r.remote,
   Event.Log (Severity.VLOG 1) LogMsg.ShuttingDown]

/-- The schedule in which caller `c` runs a whole `Shutdown` on its own, on a
pool holding the handles `ts`: the compare-and-swap, the socket call, one
`Join` per handle, and the clearing of the collection. -/
def callerAlone (c : Nat) (env : ShutdownEnv) (ts : List Thread) : List Action :=
  [Action.Caller c Status.OK, Action.Caller c env.socket_shutdown] ++
    (ts.map fun t => Action.Caller c (env.join t)) ++ [Action.Caller c Status.OK]

/-! ## Invariants -/

/-- Bookkeeping of a pool on which no `Init` was made with the flag set: while
the flag is unset the collection holds the handles of all started threads and
none was joined; once it is set the collection is empty and the joined handles
are the started ones. -/
def Accounted (p : AcceptorPool) : Prop :=
  (p.closing_ = false → p.threads_ = started p.trace ∧ joined p.trace = []) ∧
  (p.closing_ = true → p.threads_ = [] ∧ joined p.trace = started p.trace)

/-- How far the teardown run by caller `w` has got, relative to the pool `p0`
the callers started from: before the socket shutdown; in the join loop at
element `i`, the first `i` handles joined and their workers returned; or
returned, every handle joined and the collection cleared. -/
def TeardownAt (p0 : AcceptorPool) (sys : System) (w : Nat) : Prop :=
  (sys.callers w = ShutdownPC.SocketShutdown ∧ sys.pool.threads_ = p0.threads_ ∧
    socketShutdowns sys.pool.trace = socketShutdowns p0.trace ∧
    joined sys.pool.trace = joined p0.trace) ∨
  (∃ i, sys.callers w = ShutdownPC.Joining i ∧ i ≤ p0.threads_.length ∧
    sys.pool.threads_ = p0.threads_ ∧
    socketShutdowns sys.pool.trace = socketShutdowns p0.trace + 1 ∧
    joined sys.pool.trace = joined p0.trace ++ p0.threads_.take i ∧
    ∀ t, t ∈ p0.threads_.take i → t ∈ sys.exited) ∨
  (sys.callers w = ShutdownPC.Returned true ∧ sys.pool.threads_ = [] ∧
    socketShutdowns sys.pool.trace = socketShutdowns p0.trace + 1 ∧
    joined sys.pool.trace = joined p0.trace ++ p0.threads_ ∧
    ∀ t, t ∈ p0.threads_ → t ∈ sys.exited)

/-- State of a system whose callers all started `Shutdown` on the pool `p0`
with the flag unset: either no caller has run the compare-and-swap yet, or the
flag is set, one compare-and-swap found it unset, and one caller `w` runs the
teardown while no other caller does. -/
def SingleTeardown (p0 : AcceptorPool) (sys : System) : Prop :=
  (sys.pool.closing_ = false ∧ (∀ c, sys.callers c = ShutdownPC.Start) ∧
    sys.pool.threads_ = p0.threads_ ∧
    socketShutdowns sys.pool.trace = socketShutdowns p0.trace ∧
    joined sys.pool.trace = joined p0.trace ∧
    teardownsBegun sys.pool.trace = teardownsBegun p0.trace) ∨
  (sys.pool.closing_ = true ∧
    teardownsBegun sys.pool.trace = teardownsBegun p0.trace + 1 ∧
    ∃ w, (∀ c, c ≠ w → (sys.callers c).performsTeardown = false) ∧ TeardownAt p0 sys w)

/-! ## Sample data -/

/-- A pool listening on port 7050 with the given handles and closing flag. -/
def samplePool (ts : List Thread) (closing : Bool) : AcceptorPool :=
  { socket_ := { fd := 5 }
    bind_address_ := { host := 0, port := 7050 }
    rpc_connections_accepted_ := 0
    threads_ := ts
    closing_ := closing
    trace := [] }

/-- Results for a `Shutdown` in which the socket call and every `Join` give OK. -/
def okShutdown : ShutdownEnv :=
  { socket_shutdown := Status.OK, join := fun _ => Status.OK }

/-- Results for a `Shutdown` in which the socket call fails and every `Join` gives OK. -/
def badSocketShutdown : ShutdownEnv :=
  { socket_shutdown := Status.Error 107 "not connected", join := fun _ => Status.OK }

/-- The pool `samplePool [1, 2] false` after a `Shutdown` that met no failure. -/
def sampleShutDown : AcceptorPool :=
  { samplePool [] true with trace := teardownEvents ⟨0, 7050⟩ Status.OK [⟨1⟩, ⟨2⟩] }

/-- Results for an `Init` in which every creation gives OK, with handle `i + 1`
for creation `i`. -/
def okInit : InitEnv :=
  { create := fun i => { s := Status.OK, new_thread := ⟨i + 1⟩ }
    rollback := okShutdown }

/-- Results for an `Init` whose creation number `k` fails and whose other
creations give OK with handle `i + 1` for creation `i`; the rollback meets no failure. -/
def failingInit (k : Nat) : InitEnv :=
  { create := fun i =>
      if i = k then { s := Status.Error 11 "resource temporarily unavailable", new_thread := ⟨0⟩ }
      else { s := Status.OK, new_thread := ⟨i + 1⟩ }
    rollback := okShutdown }

/-- The freshly constructed sample pool after `Init(2)` with `okInit`. -/
def sampleRunning : AcceptorPool :=
  { samplePool [⟨1⟩, ⟨2⟩] false with trace := createEvents okInit 0 2 }

/-- The pool `sampleRunning` after its destructor has run. -/
def sampleDestroyed : AcceptorPool :=
  { samplePool [] true with
    trace := createEvents okInit 0 2 ++ teardownEvents ⟨0, 7050⟩ Status.OK [⟨1⟩, ⟨2⟩] }

/-- Calls: `Shutdown`, then `Init(1)` whose creation gives OK, then `Shutdown`. -/
def reinitAfterShutdown : List Call :=
  [Call.shutdown okShutdown, Call.init 1 okInit, Call.shutdown okShutdown]

/-- Calls: `Shutdown`, then `Init(2)` whose second creation fails. -/
def failedReinitAfterShutdown : List Call :=
  [Call.shutdown okShutdown, Call.init 2 (failingInit 1)]

/-- Calls: `Init(1)` whose creation fails, then `Init(1)` whose creation gives OK. -/
def initAfterFailedInit : List Call :=
  [Call.init 1 (failingInit 0), Call.init 1 okInit]

/-- Calls: `Init(2)` whose creations give OK, then `Shutdown`, then `Shutdown`. -/
def initThenShutdownTwice : List Call :=
  [Call.init 2 okInit, Call.shutdown okShutdown, Call.shutdown badSocketShutdown]

/-- Loop results: a connection from port 40002 that is accepted and prepared. -/
def goodConnection : AcceptResult :=
  { accept := Status.OK, new_sock := ⟨9⟩, remote := ⟨1, 40002⟩, set_no_delay := Status.OK }

/-- Loop results: a connection from port 40003 that is accepted and prepared. -/
def otherConnection : AcceptResult :=
  { accept := Status.OK, new_sock := ⟨10⟩, remote := ⟨1, 40003⟩, set_no_delay := Status.OK }

/-- Loop results: a connection from port 40001 whose `SetNoDelay` fails. -/
def noDelayFails : AcceptResult :=
  { accept := Status.OK, new_sock := ⟨8⟩, remote := ⟨1, 40001⟩,
    set_no_delay := Status.Error 22 "invalid argument" }

/-- Loop results: an `Accept` that fails. -/
def acceptFails : AcceptResult :=
  { accept := Status.Error 24 "too many open files", new_sock := ⟨-1⟩, remote := ⟨0, 0⟩,
    set_no_delay := Status.OK }

/-- A system with one worker, handle 1, in its loop, and callers that have not
yet entered `Shutdown`. -/
def sampleSystem : System :=
  { pool := samplePool [⟨1⟩] false, exited := [], callers := fun _ => ShutdownPC.Start }

/-- A schedule: the worker accepts a connection, drops one whose `SetNoDelay`
fails, meets a failed `Accept`, and accepts a second connection. -/
def sampleTraffic : List Action :=
  [Action.Worker ⟨1⟩ goodConnection, Action.Worker ⟨1⟩ noDelayFails,
   Action.Worker ⟨1⟩ acceptFails, Action.Worker ⟨1⟩ otherConnection]

/-- The system `sampleSystem` after `sampleTraffic`. -/
def sampleSystemServed : System :=
  { pool := { samplePool [⟨1⟩] false with
      rpc_connections_accepted_ := 2
      trace := handoffEvents (samplePool [⟨1⟩] false) goodConnection ++
        noDelayFailureEvents (samplePool [⟨1⟩] false) noDelayFails ++
        acceptFailureEvents (samplePool [⟨1⟩] false) acceptFails ++
        handoffEvents (samplePool [⟨1⟩] false) otherConnection }
    exited := []
    callers := fun _ => ShutdownPC.Start }

/-- An operation on the pool: a lifecycle call, a call of `GetBoundAddress`
(the socket query giving `s` and the address `a`), or one loop iteration of a
worker with the results `r`. -/
inductive Op where
  | lifecycle (c : Call)
  | getBoundAddress (s : Status) (a : Sockaddr)
  | iteration (r : AcceptResult)

/-- State of the pool after one operation (`none`: the process aborted).  An
iteration that leaves the loop is followed by the end of `RunThread`. -/
def Op.run (p : AcceptorPool) : Op → Option AcceptorPool
  | Op.lifecycle c => c.run p
  | Op.getBoundAddress s a => some (GetBoundAddress s a p).1
  | Op.iteration r =>
    match RunThread.iteration p r with
    | (q, true) => some (RunThread.afterLoop q)
    | (q, false) => some q

/-- State of the pool after a sequence of operations, made one after the other. -/
def runOps (p : AcceptorPool) : List Op → Option AcceptorPool
  | [] => some p
  | op :: ops =>
    match op.run p with
    | none => none
    | some q => runOps q ops

/-- Operations: `Init(2)`, a `GetBoundAddress` that reports port 45123, an
accepted connection, `Shutdown`, a failed `Accept`, a `GetBoundAddress` that
fails, and a second `Shutdown`. -/
def sampleOps : List Op :=
  [Op.lifecycle (Call.init 2 okInit),
   Op.getBoundAddress Status.OK ⟨0, 45123⟩,
   Op.iteration goodConnection,
   Op.lifecycle (Call.shutdown okShutdown),
   Op.iteration acceptFails,
   Op.getBoundAddress (Status.Error 9 "bad file descriptor") ⟨0, 0⟩,
   Op.lifecycle (Call.shutdown okShutdown)]

/-- The freshly constructed sample pool after `sampleOps`. -/
def sampleAfterOps : AcceptorPool :=
  { samplePool [] true with
    rpc_connections_accepted_ := 1
    trace := createEvents okInit 0 2 ++ [Event.GetSocketAddress Status.OK ⟨0, 45123⟩] ++
      handoffEvents (samplePool [] false) goodConnection ++
      teardownEvents ⟨0, 7050⟩ Status.OK [⟨1⟩, ⟨2⟩] ++
      stopEvents (samplePool [] false) acceptFails ++
      [Event.GetSocketAddress (Status.Error 9 "bad file descriptor") ⟨0, 0⟩] ++
      noopEvents ⟨0, 7050⟩ }
/-- The pool `samplePool [1, 2] false` after a `Shutdown` whose socket call failed. -/
def sampleShutDownBadSocket : AcceptorPool :=
  { samplePool [] true with
    trace := [Event.CompareAndSwap false,
      Event.SocketShutdown true true (Status.Error 107 "not connected"),
      Event.Log Severity.WARNING
        (LogMsg.CouldNotShutDownSocket ⟨0, 7050⟩ (Status.Error 107 "not connected")),
      Event.Join ⟨1⟩ Status.OK, Event.Join ⟨2⟩ Status.OK] }

end rpc

/-! ## Table actions of the command-line tool (`src/kudu/tools/tool_action_table.cc`)

The actions call into the client library, the JSON reader and string helpers,
none of which is part of this file; what those calls return is taken from a
record of functions, `External`.  An action yields the status it returns and
the calls it made on clusters, in order (`none`: a `FindOrDie` found no entry
and the process aborted). -/

/-- Status made by `Status::NotSupported(msg)`; the numbering of the codes is
that of `Status::Code`, and only their being distinct matters here. -/
def Status.NotSupported (msg : String) : Status := Status.Error 3 msg

/-- Status made by `Status::InvalidArgument(msg)`. -/
def Status.InvalidArgument (msg : String) : Status := Status.Error 4 msg

/-- Test `Status::IsInvalidArgument()`. -/
def Status.IsInvalidArgument : Status → Bool
  | Status.Error 4 _ => true
  | _ => false

namespace tools

/-- Column types, `KuduColumnSchema::DataType`; `Other` stands for any value of the
enumeration that `ParseValueOfType` does not name. -/
inductive DataType where
  | INT8
  | INT16
  | INT32
  | INT64
  | STRING
  | BOOL
  | FLOAT
  | DOUBLE
  | BINARY
  | UNIXTIME_MICROS
  | DECIMAL
  | Other (code : Nat)
  deriving DecidableEq, Repr

/-- Compression types, `KuduColumnStorageAttributes::CompressionType`. -/
inductive CompressionType where
  | DEFAULT_COMPRESSION
  | NO_COMPRESSION
  | SNAPPY
  | LZ4
  | ZLIB
  deriving DecidableEq, Repr

/-- Value of type `rapidjson::Value` inside a parsed document, named by a number. -/
structure JsonValue where
  id : Nat
  deriving DecidableEq, Repr

/-- Value of type `float` or `double`, named by its bit pattern. -/
structure Floating where
  bits : Nat
  deriving DecidableEq, Repr

/-- Default value built for a column (`KuduValue`), by the factory that made it. -/
inductive KuduValue where
  | FromInt (v : Int)
  | CopyString (v : String)
  | FromBool (v : Bool)
  | FromFloat (v : Floating)
  | FromDouble (v : Floating)
  deriving DecidableEq, Repr

/-- Client connected to a cluster (`shared_ptr<KuduClient>`), named by a number. -/
structure Client where
  id : Nat
  deriving DecidableEq, Repr

/-- Change recorded on a column by a `KuduTableAlterer`. -/
inductive ColumnAlteration where
  | Default (v : KuduValue)
  | Compression (t : CompressionType)
  | BlockSize (block_size : Int)
  deriving DecidableEq, Repr

/-- Step recorded by `alterer->AlterColumn(column_name)->...`. -/
structure AlterStep where
  column_name : String
  change : ColumnAlteration
  deriving DecidableEq, Repr

/-- Call made by an action on a cluster, with the status the call gave. -/
inductive ToolEvent where
  /-- Call of `CreateKuduClient(context, &client)` (`none`) or of
  `CreateKuduClient(context, master_addresses_arg, &client)`. -/
  | CreateKuduClient (master_addresses_arg : Option String) (s : Status) (client : Client)
  /-- Call of `alterer->Alter()` on the alterer of `table_name` holding `steps`. -/
  | Alter (client : Client) (table_name : String) (steps : List AlterStep) (s : Status)
  /-- Call of `StartCopy()` on a `TableScanner(src_client, src_table_name, dst_client,
  dst_table_name)`. -/
  | StartCopy (src_client : Client) (src_table_name : String) (dst_client : Client)
      (dst_table_name : String) (s : Status)
  deriving DecidableEq, Repr

/-- Arguments of an action (`RunnerContext`): the map `required_args`. -/
structure RunnerContext where
  required_args : List (String × String)
  deriving DecidableEq, Repr

/-- Command-line flags read by the actions modelled here. -/
structure Flags where
  dst_table : String
  deriving DecidableEq, Repr

/-- Lookup `FindOrDie(map, key)`: the value stored under `key`; a missing key is
fatal (`none`). -/
def FindOrDie (m : List (String × String)) (key : String) : Option String :=
  m.lookup key

/-- Lookup `FindOrNull(map, key)`: the value stored under `key`, or null. -/
def FindOrNull {β : Type} (m : List (String × β)) (key : String) : Option β :=
  m.lookup key

/-- What the code outside this file gives back: argument names declared in
`tool_action_common.h`, the client library, the JSON reader and the string
helpers.  `CreateKuduClient context none` is what the two-argument
`CreateKuduClient(context, &client)` gives, `JsonReaderInit s` is the status of
`reader.Init()` on the text `s`,
and `ExtractObjectArray s` what `reader.ExtractObjectArray(reader.root(),
nullptr, &values)` gives on it. -/
structure External where
  kMasterAddressesArg : String
  kDestMasterAddressesArg : String
  kTableNameArg : String
  CreateKuduClient : RunnerContext → Option String → Status × Client
  Alter : Client → String → List AlterStep → Status
  StartCopy : Client → String → Client → String → Status
  JsonReaderInit : String → Status
  ExtractObjectArray : String → Status × List JsonValue
  ExtractInt64 : JsonValue → Status × Int
  ExtractString : JsonValue → Status × String
  ExtractBool : JsonValue → Status × Bool
  ExtractFloat : JsonValue → Status × Floating
  ExtractDouble : JsonValue → Status × Floating
  DataTypeToString : DataType → String
  CloneAndPrepend : Status → String → Status
  safe_strto32 : String → Option Int
  ToUpperCase : String → String
  JoinKeysIterator : List (String × CompressionType) → String → String

/-- Argument name `kColumnNameArg` (line 143). -/
def kColumnNameArg : String := "column_name"

/-- Argument name `kDefaultValueArg` (line 146). -/
def kDefaultValueArg : String := "default_value"

/-- Argument name `kCompressionTypeArg` (line 147). -/
def kCompressionTypeArg : String := "compression_type"

/-- Argument name `kBlockSizeArg` (line 149). -/
def kBlockSizeArg : String := "block_size"

/-- Line 423 of `CopyTable`:
`FLAGS_dst_table.empty() ? src_table_name : FLAGS_dst_table`. -/
def CopyTable.dst_table_name (flags : Flags) (src_table_name : String) : String :=
  if flags.dst_table.isEmpty then src_table_name else flags.dst_table

/-- Action `CopyTable` (lines 410-428). -/
def CopyTable (ext : External) (flags : Flags) (context : RunnerContext) :
    Option (Status × List ToolEvent) :=
  let (s, src_client) := ext.CreateKuduClient context none
  let ev1 := [ToolEvent.CreateKuduClient none s src_client]
  if !s.ok then some (s, ev1)
  else
    match FindOrDie context.required_args ext.kTableNameArg,
          FindOrDie context.required_args ext.kMasterAddressesArg,
          FindOrDie context.required_args ext.kDestMasterAddressesArg with
    | some src_table_name, some master_addresses, some dest_master_addresses =>
      let dst_table_name := CopyTable.dst_table_name flags src_table_name
      if master_addresses == dest_master_addresses then
        let r := ext.StartCopy src_client src_table_name src_client dst_table_name
        some (r, ev1 ++
          [ToolEvent.StartCopy src_client src_table_name src_client dst_table_name r])
      else
        let (s2, dst_client) := ext.CreateKuduClient context (some ext.kDestMasterAddressesArg)
        let ev2 := ev1 ++
          [ToolEvent.CreateKuduClient (some ext.kDestMasterAddressesArg) s2 dst_client]
        if !s2.ok then some (s2, ev2)
        else
          let r := ext.StartCopy src_client src_table_name dst_client dst_table_name
          some (r, ev2 ++
            [ToolEvent.StartCopy src_client src_table_name dst_client dst_table_name r])
    | _, _, _ => none

/-- Macro `RETURN_NOT_OK_PREPEND(s, msg)` followed by the building of the value:
a failed extraction returns its status with `msg` prepended and leaves `*value`
alone. -/
def prependOrValue (ext : External) (msg : String) (s : Status) (v : KuduValue) :
    Status × Option KuduValue :=
  if !s.ok then (ext.CloneAndPrepend s msg, none) else (Status.OK, some v)

/-- Function `ParseValueOfType` (lines 430-496): the status returned, and the
value stored in `*value` if one was stored.  The switch is reached only with
`values.size() == 1`, and reads `values[0]`. -/
def ParseValueOfType (ext : External) (default_value : String) (type : DataType) :
    Status × Option KuduValue :=
  let s := ext.JsonReaderInit default_value
  if !s.ok then (s, none)
  else
    let (s, values) := ext.ExtractObjectArray default_value
    if !s.ok then (s, none)
    else
      match values with
      | [value0] =>
        let msg := "unable to parse value for column type " ++ ext.DataTypeToString type
        match type with
        | DataType.INT8 | DataType.INT16 | DataType.INT32 | DataType.INT64
        | DataType.UNIXTIME_MICROS =>
          let (s, int_value) := ext.ExtractInt64 value0
          prependOrValue ext msg s (KuduValue.FromInt int_value)
        | DataType.BINARY | DataType.STRING =>
          let (s, str_value) := ext.ExtractString value0
          prependOrValue ext msg s (KuduValue.CopyString str_value)
        | DataType.BOOL =>
          let (s, bool_value) := ext.ExtractBool value0
          prependOrValue ext msg s (KuduValue.FromBool bool_value)
        | DataType.FLOAT =>
          let (s, float_value) := ext.ExtractFloat value0
          prependOrValue ext msg s (KuduValue.FromFloat float_value)
        | DataType.DOUBLE =>
          let (s, double_value) := ext.ExtractDouble value0
          prependOrValue ext msg s (KuduValue.FromDouble double_value)
        | DataType.DECIMAL | DataType.Other _ =>
          (Status.NotSupported (ext.DataTypeToString type ++
            " columns are not supported for setting default value by this tool," ++
            "is this tool out of date?"), none)
      | _ =>
        (Status.InvalidArgument ("We got " ++ toString values.length ++
          " value(s), you should provide one default value."), none)

/-- The table `compression_type_map` of `ColumnSetCompression` (lines 540-545). -/
def compression_type_map : List (String × CompressionType) :=
  [("DEFAULT_COMPRESSION", CompressionType.DEFAULT_COMPRESSION),
   ("NO_COMPRESSION", CompressionType.NO_COMPRESSION),
   ("SNAPPY", CompressionType.SNAPPY),
   ("LZ4", CompressionType.LZ4),
   ("ZLIB", CompressionType.ZLIB)]

/-- Lines 556-560 and 609-613: create the client, then alter one column of
`table_name` with `change`. -/
def alterColumn (ext : External) (context : RunnerContext) (table_name column_name : String)
    (change : ColumnAlteration) : Status × List ToolEvent :=
  let (s, client) := ext.CreateKuduClient context none
  let ev1 := [ToolEvent.CreateKuduClient none s client]
  if !s.ok then (s, ev1)
  else
    let steps := [{ column_name := column_name, change := change : AlterStep }]
    let r := ext.Alter client table_name steps
    (r, ev1 ++ [ToolEvent.Alter client table_name steps r])

/-- Action `ColumnSetCompression` (lines 533-561). -/
def ColumnSetCompression (ext : External) (context : RunnerContext) :
    Option (Status × List ToolEvent) :=
  match FindOrDie context.required_args ext.kTableNameArg,
        FindOrDie context.required_args kColumnNameArg,
        FindOrDie context.required_args kCompressionTypeArg with
  | some table_name, some column_name, some compression_type_arg =>
    let compression_type_uc := ext.ToUpperCase compression_type_arg
    match FindOrNull compression_type_map compression_type_uc with
    | none =>
      some (Status.InvalidArgument ("Failed to parse compression type from " ++
        compression_type_arg ++ ", supported compression types are: " ++
        ext.JoinKeysIterator compression_type_map ", " ++ "."), [])
    | some compression_type =>
      some (alterColumn ext context table_name column_name
        (ColumnAlteration.Compression compression_type))
  | _, _, _ => none

/-- Action `ColumnSetBlockSize` (lines 594-614).  The parsed value is an
`int32_t`, here an integer. -/
def ColumnSetBlockSize (ext : External) (context : RunnerContext) :
    Option (Status × List ToolEvent) :=
  match FindOrDie context.required_args ext.kTableNameArg,
        FindOrDie context.required_args kColumnNameArg,
        FindOrDie context.required_args kBlockSizeArg with
  | some table_name, some column_name, some str_block_size =>
    match ext.safe_strto32 str_block_size with
    | none =>
      some (Status.InvalidArgument ("Unable to parse block_size value: " ++
        str_block_size ++ "."), [])
    | some block_size =>
      if block_size ≤ 0 then
        some (Status.InvalidArgument ("Invalid block size: " ++ str_block_size ++
          ", it should be set higher than 0."), [])
      else
        some (alterColumn ext context table_name column_name
          (ColumnAlteration.BlockSize block_size))
  | _, _, _ => none


/-! ## Sample data for the tool -/

/-- Code outside the file, for the examples: clients are created for both
clusters, the JSON reader finds in `"[]"` no value, in `"[1]"` one and in
`"[1, 2]"` two, `"4096"` and `"0"` parse as numbers, and upper-casing works on
ASCII letters. -/
def sampleExternal : External :=
  { kMasterAddressesArg := "master_addresses"
    kDestMasterAddressesArg := "dest_master_addresses"
    kTableNameArg := "table_name"
    CreateKuduClient := fun _ arg => (Status.OK, if arg = none then ⟨1⟩ else ⟨2⟩)
    Alter := fun _ _ _ => Status.OK
    StartCopy := fun _ _ _ _ => Status.OK
    JsonReaderInit := fun _ => Status.OK
    ExtractObjectArray := fun s =>
      if s = "[1]" then (Status.OK, [⟨0⟩])
      else if s = "[1, 2]" then (Status.OK, [⟨0⟩, ⟨1⟩])
      else if s = "[]" then (Status.OK, [])
      else (Status.InvalidArgument "not an array", [])
    ExtractInt64 := fun v => (Status.OK, (v.id : Int) + 1)
    ExtractString := fun _ => (Status.InvalidArgument "not a string", "")
    ExtractBool := fun _ => (Status.InvalidArgument "not a bool", false)
    ExtractFloat := fun _ => (Status.InvalidArgument "not a float", ⟨0⟩)
    ExtractDouble := fun _ => (Status.InvalidArgument "not a double", ⟨0⟩)
    DataTypeToString := fun _ => "TYPE"
    CloneAndPrepend := fun s _ => s
    safe_strto32 := fun s =>
      if s = "4096" then some 4096 else if s = "0" then some 0
      else if s = "-8" then some (-8) else none
    ToUpperCase := fun s => String.mk (s.data.map Char.toUpper)
    JoinKeysIterator := fun _ _ => "SNAPPY, LZ4, ZLIB, NO_COMPRESSION, DEFAULT_COMPRESSION" }

/-- Arguments of a table action on table `t1`, column `c1`, of one cluster. -/
def sampleContext (extra : List (String × String)) : RunnerContext :=
  { required_args := [("master_addresses", "m1:7051"), ("table_name", "t1"),
      ("column_name", "c1"), ("dest_master_addresses", "m2:7051")] ++ extra }

/-- Name of a compression type: the identifier of the enumeration value. -/
def CompressionType.name : CompressionType → String
  | CompressionType.DEFAULT_COMPRESSION => "DEFAULT_COMPRESSION"
  | CompressionType.NO_COMPRESSION => "NO_COMPRESSION"
  | CompressionType.SNAPPY => "SNAPPY"
  | CompressionType.LZ4 => "LZ4"
  | CompressionType.ZLIB => "ZLIB"

end tools

namespace rpc

/-! ## The accept loop, split at its read of the flag

Between the call of `Accept` (line 96) and the read of the flag (line 98)
another thread may run the compare-and-swap of `Shutdown`.  Here a worker
takes two steps through an iteration whose `Accept` failed: the call, then the
read with what follows it. -/

/-- Lines 94-96 of `RunThread`: the `VLOG(2)` and the call of `Accept`. -/
def RunThread.callAccept (p : AcceptorPool) (r : AcceptResult) : AcceptorPool :=
  (p.emit (Event.Log (Severity.VLOG 2)
    (LogMsg.CallingAccept p.socket_.fd p.bind_address_))).emit
    (Event.Accept r.accept r.new_sock r.remote)

/-- Lines 98-102 of `RunThread`, reached when `Accept` gave the failure `s`: the
read of the flag, then `break` (`true`) or the warning and `continue`. -/
def RunThread.afterFailedAccept (p : AcceptorPool) (s : Status) : AcceptorPool × Bool :=
  if Release_Load p then
    (p, true)
  else
    (p.emit (Event.Log Severity.WARNING (LogMsg.AcceptFailed s)), false)

/-- Lines 104-112 of `RunThread`, reached when `Accept` gave OK. -/
def RunThread.afterAccept (p : AcceptorPool) (r : AcceptResult) : AcceptorPool :=
  let s := r.set_no_delay
  let p3 := p.emit (Event.SetNoDelay r.new_sock true s)
  if !s.ok then
    p3.emit (Event.Log Severity.WARNING (LogMsg.NoDelayFailed r.remote s))
  else
    let p4 := { p3 with rpc_connections_accepted_ := p3.rpc_connections_accepted_ + 1 }
    p4.emit (Event.RegisterInboundSocket r.new_sock r.remote)

/-- The system, with for each worker the status of a failed `Accept` after
which it has not yet read the flag. -/
structure FineSystem where
  sys : System
  pending : Thread → Option Status

/-- One atomic step: worker `t` calls `Accept` with the results `r` (and goes
through lines 104-112 when it gave OK); worker `t` reads the flag after its
failed `Accept`; or caller `c` runs its next statement of `Shutdown`. -/
inductive FineAction where
  | Accept (t : Thread) (r : AcceptResult)
  | Load (t : Thread)
  | Caller (c : Nat) (s : Status)
  deriving DecidableEq, Repr

/-- Effect of one action (`none`: a `CHECK` failed and the process aborted).  A
worker that has returned or is about to read the flag calls no `Accept`, and a
worker that has no failed `Accept` behind it reads no flag: such actions leave
the system as it is. -/
def FineSystem.step (fs : FineSystem) : FineAction → Option FineSystem
  | FineAction.Accept t r =>
    if t ∈ fs.sys.exited ∨ (fs.pending t).isSome then some fs
    else if r.accept.ok then
      some { fs with sys := { fs.sys with
        pool := RunThread.afterAccept (RunThread.callAccept fs.sys.pool r) r } }
    else
      some { sys := { fs.sys with pool := RunThread.callAccept fs.sys.pool r }
             pending := Function.update fs.pending t (some r.accept) }
  | FineAction.Load t =>
    match fs.pending t with
    | none => some fs
    | some s =>
      match RunThread.afterFailedAccept fs.sys.pool s with
      | (q, true) =>
        some { sys := { fs.sys with pool := RunThread.afterLoop q, exited := t :: fs.sys.exited }
               pending := Function.update fs.pending t none }
      | (q, false) =>
        some { sys := { fs.sys with pool := q }
               pending := Function.update fs.pending t none }
  | FineAction.Caller c s =>
    match fs.sys.step (Action.Caller c s) with
    | none => none
    | some next => some { fs with sys := next }

/-- Effect of a schedule. -/
def FineSystem.run (fs : FineSystem) : List FineAction → Option FineSystem
  | [] => some fs
  | a :: as =>
    match fs.step a with
    | none => none
    | some next => FineSystem.run next as

/-- The sample system, every worker about to call `Accept`. -/
def sampleFineSystem : FineSystem :=
  { sys := sampleSystem, pending := fun _ => none }

/-- A schedule: the worker's `Accept` fails, a caller of `Shutdown` wins the
compare-and-swap, then the worker reads the flag. -/
def lateFlagSchedule : List FineAction :=
  [FineAction.Accept ⟨1⟩ acceptFails, FineAction.Caller 0 Status.OK, FineAction.Load ⟨1⟩]

/-- The system `sampleFineSystem` after `lateFlagSchedule`. -/
def sampleFineSystemAfter : FineSystem :=
  { sys :=
      { pool := { samplePool [⟨1⟩] true with
          trace := [Event.Log (Severity.VLOG 2) (LogMsg.CallingAccept 5 ⟨0, 7050⟩),
            Event.Accept acceptFails.accept acceptFails.new_sock acceptFails.remote,
            Event.CompareAndSwap false,
            Event.Log (Severity.VLOG 1) LogMsg.ShuttingDown] }
        exited := [⟨1⟩]
        callers := Function.update (fun _ => ShutdownPC.Start) 0 ShutdownPC.SocketShutdown }
    pending := Function.update (Function.update (fun _ => none) ⟨1⟩
      (some acceptFails.accept)) ⟨1⟩ none }

/-- The freshly constructed sample pool after `Shutdown` and then `Init(1)`:
the flag is set and the collection holds the handle of the new worker. -/
def sampleReinitialised : AcceptorPool :=
  { samplePool [⟨1⟩] true with
    trace := teardownEvents ⟨0, 7050⟩ Status.OK [] ++ createEvents okInit 0 1 }

/-! ## Helper lemmas -/

theorem Status.ok_iff (s : Status) : s.ok = true ↔ s = Status.OK := by
  cases s <;> simp [Status.ok]

@[simp] theorem emit_socket (p : AcceptorPool) (e : Event) : (p.emit e).socket_ = p.socket_ := rfl
@[simp] theorem emit_bind_address (p : AcceptorPool) (e : Event) :
    (p.emit e).bind_address_ = p.bind_address_ := rfl
@[simp] theorem emit_counter (p : AcceptorPool) (e : Event) :
    (p.emit e).rpc_connections_accepted_ = p.rpc_connections_accepted_ := rfl
@[simp] theorem emit_threads (p : AcceptorPool) (e : Event) : (p.emit e).threads_ = p.threads_ := rfl
@[simp] theorem emit_closing (p : AcceptorPool) (e : Event) : (p.emit e).closing_ = p.closing_ := rfl
@[simp] theorem emit_trace (p : AcceptorPool) (e : Event) : (p.emit e).trace = p.trace ++ [e] := rfl

theorem joinAll_some (join : Thread → Status) (ts : List Thread) (p q : AcceptorPool)
    (h : joinAll join p ts = some q) :
    q = { p with trace := p.trace ++ joinEvents ts } ∧ ∀ t ∈ ts, (join t).ok = true := by
  induction ts generalizing p with
  | nil =>
    simp [joinAll] at h
    subst h
    simp [joinEvents]
  | cons t rest ih =>
    simp only [joinAll] at h
    by_cases hok : (join t).ok = true
    · rw [if_pos hok] at h
      obtain ⟨hq, hall⟩ := ih _ h
      refine ⟨?_, ?_⟩
      · rw [hq, (Status.ok_iff _).1 hok]
        simp [joinEvents, AcceptorPool.emit]
      · intro u hu
        rcases List.mem_cons.1 hu with rfl | hu
        · exact hok
        · exact hall u hu
    · rw [if_neg hok] at h
      cases h

theorem joinAll_of_ok (join : Thread → Status) (ts : List Thread) (p : AcceptorPool)
    (h : ∀ t ∈ ts, (join t).ok = true) :
    joinAll join p ts = some { p with trace := p.trace ++ joinEvents ts } := by
  induction ts generalizing p with
  | nil => simp [joinAll, joinEvents]
  | cons t rest ih =>
    have hok : (join t).ok = true := h t (List.mem_cons_self _ _)
    simp only [joinAll, if_pos hok]
    rw [ih _ (fun u hu => h u (List.mem_cons_of_mem _ hu)), (Status.ok_iff _).1 hok]
    simp [joinEvents, AcceptorPool.emit]

theorem Shutdown_closing (env : ShutdownEnv) (p : AcceptorPool) (h : p.closing_ = true) :
    Shutdown env p = some { p with trace := p.trace ++ noopEvents p.bind_address_ } := by
  simp [Shutdown, Acquire_CompareAndSwap, h, Shutdown.alreadyShutDown, AcceptorPool.emit,
    noopEvents]

theorem socketShutdown_eq (s : Status) (p : AcceptorPool) :
    Shutdown.socketShutdown s p = { p with trace := p.trace ++
      ([Event.SocketShutdown true true s] ++ (if s.ok then [] else
        [Event.Log Severity.WARNING (LogMsg.CouldNotShutDownSocket p.bind_address_ s)])) } := by
  unfold Shutdown.socketShutdown
  by_cases hs : s.ok = true <;> simp [hs, AcceptorPool.emit]

theorem Shutdown_open_some (env : ShutdownEnv) (p q : AcceptorPool) (h : p.closing_ = false)
    (hq : Shutdown env p = some q) :
    q = { p with closing_ := true, threads_ := [],
                 trace := p.trace ++ teardownEvents p.bind_address_ env.socket_shutdown p.threads_ }
    ∧ ∀ t ∈ p.threads_, (env.join t).ok = true := by
  simp only [Shutdown, Acquire_CompareAndSwap, h] at hq
  simp only [bne_self_eq_false, Bool.false_eq_true, ↓reduceIte] at hq
  split at hq
  · cases hq
  · rename_i p4 hj
    obtain ⟨h4, hall⟩ := joinAll_some _ _ _ _ hj
    injection hq with hq
    subst hq
    rw [h4, socketShutdown_eq]
    refine ⟨?_, ?_⟩
    · simp [teardownEvents, AcceptorPool.emit, socketShutdown_eq]
    · simpa [socketShutdown_eq] using hall

theorem Shutdown_open_of_ok (env : ShutdownEnv) (p : AcceptorPool) (h : p.closing_ = false)
    (hj : ∀ t ∈ p.threads_, (env.join t).ok = true) :
    Shutdown env p = some
      { p with closing_ := true, threads_ := [],
               trace := p.trace ++ teardownEvents p.bind_address_ env.socket_shutdown p.threads_ } := by
  simp only [Shutdown, Acquire_CompareAndSwap, h]
  simp only [bne_self_eq_false, Bool.false_eq_true, ↓reduceIte]
  rw [joinAll_of_ok]
  · simp [teardownEvents, AcceptorPool.emit, socketShutdown_eq]
  · simpa [socketShutdown_eq] using hj

theorem Shutdown_some_closing (env : ShutdownEnv) (p q : AcceptorPool)
    (hq : Shutdown env p = some q) : q.closing_ = true := by
  cases h : p.closing_ with
  | true =>
    rw [Shutdown_closing env p h] at hq
    injection hq with hq
    subst hq
    exact h
  | false =>
    rw [(Shutdown_open_some env p q h hq).1]

/-! ## C1: a second `Shutdown` changes nothing -/

/-- C1, as stated, fails: on the pool reached from a freshly constructed one by
`Shutdown` and then `Init(1)`, the flag is set and the collection holds one
handle; a first `Shutdown` returns, a second one too, and the collection holds
that handle after each of them: it does not end empty. -/
theorem second_Shutdown_leaves_handle_counterexample :
    AcceptorPool.construct ⟨some ⟨0⟩⟩ ⟨5⟩ ⟨0, 7050⟩ = some (samplePool [] false) ∧
    runCalls (samplePool [] false) [Call.shutdown okShutdown, Call.init 1 okInit] =
      some sampleReinitialised ∧
    (Shutdown okShutdown sampleReinitialised).map (fun p1 => p1.threads_) = some [⟨1⟩] ∧
    ((Shutdown okShutdown sampleReinitialised).bind (Shutdown okShutdown)).map
      (fun p2 => p2.threads_) = some [⟨1⟩] := by
  decide

/-- C1, amended: for every pool state, when a first `Shutdown` has returned, a
second `Shutdown` returns too and changes no data member: it only adds to the
trace the compare-and-swap that found the flag set and the `VLOG(2)` "already
shut down".  The closing flag is set after the first call and stays set, the
socket is not shut down again, `Join` is not called again, and the handle
collection is left as the first call left it; it is empty after both calls
whenever the first call found the flag unset. -/
theorem Shutdown_second_call_noop (env1 env2 : ShutdownEnv) (p p1 : AcceptorPool)
    (h : Shutdown env1 p = some p1) :
    ∃ p2, Shutdown env2 p1 = some p2 ∧
      p2 = { p1 with trace := p1.trace ++ noopEvents p1.bind_address_ } ∧
      p1.closing_ = true ∧ p2.closing_ = true ∧
      socketShutdowns p2.trace = socketShutdowns p1.trace ∧
      joined p2.trace = joined p1.trace ∧
      p2.threads_ = p1.threads_ ∧
      (p.closing_ = false → p1.threads_ = [] ∧ p2.threads_ = []) := by
  have hc : p1.closing_ = true := Shutdown_some_closing env1 p p1 h
  refine ⟨_, Shutdown_closing env2 p1 hc, rfl, hc, hc, ?_, ?_, rfl, ?_⟩
  · simp [socketShutdowns, noopEvents, List.countP_append, List.countP_cons]
  · simp [joined, noopEvents, List.filterMap_append]
  · intro hp
    have := (Shutdown_open_some env1 p p1 hp h).1
    constructor <;> rw [this]

/-- Instance of the amended C1: a pool with two handles, shut down twice. -/
theorem Shutdown_second_call_noop_witness :
    Shutdown okShutdown (samplePool [⟨1⟩, ⟨2⟩] false) = some sampleShutDown ∧
    ∃ p2, Shutdown badSocketShutdown sampleShutDown = some p2 ∧
      p2 = { sampleShutDown with
              trace := sampleShutDown.trace ++ noopEvents sampleShutDown.bind_address_ } ∧
      sampleShutDown.closing_ = true ∧ p2.closing_ = true ∧
      socketShutdowns p2.trace = socketShutdowns sampleShutDown.trace ∧
      joined p2.trace = joined sampleShutDown.trace ∧
      p2.threads_ = sampleShutDown.threads_ ∧
      ((samplePool [⟨1⟩, ⟨2⟩] false).closing_ = false →
        sampleShutDown.threads_ = [] ∧ p2.threads_ = []) :=
  ⟨by decide,
    Shutdown_second_call_noop okShutdown badSocketShutdown (samplePool [⟨1⟩, ⟨2⟩] false)
      sampleShutDown (by decide)⟩

theorem createdHandles_succ (env : InitEnv) (i n : Nat) :
    createdHandles env i (n + 1) = (env.create i).new_thread :: createdHandles env (i + 1) n := by
  simp [createdHandles, List.range'_succ]

theorem createEvents_succ (env : InitEnv) (i n : Nat) :
    createEvents env i (n + 1) =
      Event.ThreadCreate (env.create i).s (env.create i).new_thread ::
        createEvents env (i + 1) n := by
  simp [createEvents, List.range'_succ]

theorem createdHandles_length (env : InitEnv) (i n : Nat) :
    (createdHandles env i n).length = n := by
  simp [createdHandles]

theorem Init_loop_ok (env : InitEnv) (remaining : Nat) (p : AcceptorPool) (i : Nat)
    (h : ∀ j, j < remaining → (env.create (i + j)).s.ok = true) :
    Init.loop env p i remaining = some
      ({ p with threads_ := p.threads_ ++ createdHandles env i remaining,
                trace := p.trace ++ createEvents env i remaining }, Status.OK) := by
  induction remaining generalizing p i with
  | zero => simp [Init.loop, createdHandles, createEvents]
  | succ n ih =>
    have h0 : (env.create i).s.ok = true := by simpa using h 0 (Nat.succ_pos n)
    have hrest : ∀ j, j < n → (env.create (i + 1 + j)).s.ok = true := by
      intro j hj
      have := h (j + 1) (Nat.succ_lt_succ hj)
      rwa [show i + (j + 1) = i + 1 + j by omega] at this
    simp only [Init.loop, h0, Bool.not_true, Bool.false_eq_true, ↓reduceIte]
    rw [ih _ _ hrest, createdHandles_succ, createEvents_succ]
    simp [AcceptorPool.emit]

theorem Init_loop_fail (env : InitEnv) (k : Nat) (remaining : Nat) (p : AcceptorPool) (i : Nat)
    (hk : k < remaining)
    (hok : ∀ j, j < k → (env.create (i + j)).s.ok = true)
    (hfail : (env.create (i + k)).s.ok = false) :
    Init.loop env p i remaining =
      match Shutdown env.rollback
          { p with threads_ := p.threads_ ++ createdHandles env i k,
                   trace := p.trace ++ createEvents env i (k + 1) } with
      | none => none
      | some p2 => some (p2, (env.create (i + k)).s) := by
  induction k generalizing p i remaining with
  | zero =>
    obtain ⟨n, rfl⟩ : ∃ n, remaining = n + 1 := ⟨remaining - 1, by omega⟩
    have h0 : (env.create i).s.ok = false := by simpa using hfail
    simp [Init.loop, h0, createdHandles, createEvents, AcceptorPool.emit]
  | succ k ih =>
    obtain ⟨n, rfl⟩ : ∃ n, remaining = n + 1 := ⟨remaining - 1, by omega⟩
    have h0 : (env.create i).s.ok = true := by simpa using hok 0 (Nat.succ_pos k)
    have hrest : ∀ j, j < k → (env.create (i + 1 + j)).s.ok = true := by
      intro j hj
      have := hok (j + 1) (Nat.succ_lt_succ hj)
      rwa [show i + (j + 1) = i + 1 + j by omega] at this
    have hfail1 : (env.create (i + 1 + k)).s.ok = false := by
      rwa [show i + (k + 1) = i + 1 + k by omega] at hfail
    simp only [Init.loop, h0, Bool.not_true, Bool.false_eq_true, ↓reduceIte]
    rw [ih n _ (i + 1) (by omega) hrest hfail1, createdHandles_succ env i k,
      createEvents_succ env i (k + 1), show i + (k + 1) = i + 1 + k by omega]
    simp [AcceptorPool.emit]

/-! ### Observations on the expected traces -/

@[simp] theorem joined_append (a b : List Event) : joined (a ++ b) = joined a ++ joined b := by
  simp [joined]

@[simp] theorem started_append (a b : List Event) : started (a ++ b) = started a ++ started b := by
  simp [started]

@[simp] theorem creations_append (a b : List Event) :
    creations (a ++ b) = creations a + creations b := by
  simp [creations]

@[simp] theorem socketShutdowns_append (a b : List Event) :
    socketShutdowns (a ++ b) = socketShutdowns a + socketShutdowns b := by
  simp [socketShutdowns]

@[simp] theorem teardownsBegun_append (a b : List Event) :
    teardownsBegun (a ++ b) = teardownsBegun a + teardownsBegun b := by
  simp [teardownsBegun]

@[simp] theorem registered_append (a b : List Event) :
    registered (a ++ b) = registered a ++ registered b := by
  simp [registered]

@[simp] theorem warnings_append (a b : List Event) :
    warnings (a ++ b) = warnings a ++ warnings b := by
  simp [warnings]

@[simp] theorem accepts_append (a b : List Event) : accepts (a ++ b) = accepts a + accepts b := by
  simp [accepts]

@[simp] theorem joined_joinEvents (ts : List Thread) : joined (joinEvents ts) = ts := by
  induction ts with
  | nil => rfl
  | cons t rest ih =>
    have : joined (joinEvents (t :: rest)) = t :: joined (joinEvents rest) := rfl
    rw [this, ih]

@[simp] theorem started_joinEvents (ts : List Thread) : started (joinEvents ts) = [] := by
  simp [started, joinEvents]

@[simp] theorem creations_joinEvents (ts : List Thread) : creations (joinEvents ts) = 0 := by
  simp [creations, joinEvents]

@[simp] theorem socketShutdowns_joinEvents (ts : List Thread) :
    socketShutdowns (joinEvents ts) = 0 := by
  simp [socketShutdowns, joinEvents]

@[simp] theorem teardownsBegun_joinEvents (ts : List Thread) :
    teardownsBegun (joinEvents ts) = 0 := by
  simp [teardownsBegun, joinEvents]

@[simp] theorem joined_teardownEvents (a : Sockaddr) (s : Status) (ts : List Thread) :
    joined (teardownEvents a s ts) = ts := by
  unfold teardownEvents
  by_cases h : s.ok = true <;>
    simp only [h, joined_append, joined_joinEvents, ↓reduceIte, Bool.false_eq_true] <;> rfl

@[simp] theorem started_teardownEvents (a : Sockaddr) (s : Status) (ts : List Thread) :
    started (teardownEvents a s ts) = [] := by
  unfold teardownEvents
  by_cases h : s.ok = true <;>
    simp only [h, started_append, started_joinEvents, ↓reduceIte, Bool.false_eq_true] <;> rfl

@[simp] theorem creations_teardownEvents (a : Sockaddr) (s : Status) (ts : List Thread) :
    creations (teardownEvents a s ts) = 0 := by
  unfold teardownEvents
  by_cases h : s.ok = true <;>
    simp only [h, creations_append, creations_joinEvents, ↓reduceIte, Bool.false_eq_true] <;> rfl

@[simp] theorem socketShutdowns_teardownEvents (a : Sockaddr) (s : Status) (ts : List Thread) :
    socketShutdowns (teardownEvents a s ts) = 1 := by
  unfold teardownEvents
  by_cases h : s.ok = true <;>
    simp only [h, socketShutdowns_append, socketShutdowns_joinEvents, ↓reduceIte, Bool.false_eq_true] <;> rfl

@[simp] theorem teardownsBegun_teardownEvents (a : Sockaddr) (s : Status) (ts : List Thread) :
    teardownsBegun (teardownEvents a s ts) = 1 := by
  unfold teardownEvents
  by_cases h : s.ok = true <;>
    simp only [h, teardownsBegun_append, teardownsBegun_joinEvents, ↓reduceIte, Bool.false_eq_true] <;> rfl

@[simp] theorem joined_noopEvents (a : Sockaddr) : joined (noopEvents a) = [] := rfl
@[simp] theorem started_noopEvents (a : Sockaddr) : started (noopEvents a) = [] := rfl
@[simp] theorem creations_noopEvents (a : Sockaddr) : creations (noopEvents a) = 0 := rfl
@[simp] theorem socketShutdowns_noopEvents (a : Sockaddr) :
    socketShutdowns (noopEvents a) = 0 := rfl
@[simp] theorem teardownsBegun_noopEvents (a : Sockaddr) :
    teardownsBegun (noopEvents a) = 0 := rfl

@[simp] theorem joined_createEvents (env : InitEnv) (i n : Nat) :
    joined (createEvents env i n) = [] := by
  simp [joined, createEvents]

@[simp] theorem creations_createEvents (env : InitEnv) (i n : Nat) :
    creations (createEvents env i n) = n := by
  induction n generalizing i with
  | zero => rfl
  | succ n ih =>
    rw [createEvents_succ]
    have : ∀ (e : Event) (l : List Event), creations (e :: l) = creations [e] + creations l :=
      fun e l => creations_append [e] l
    rw [this, ih]
    simp [creations, Nat.add_comm]

@[simp] theorem socketShutdowns_createEvents (env : InitEnv) (i n : Nat) :
    socketShutdowns (createEvents env i n) = 0 := by
  simp [socketShutdowns, createEvents]

@[simp] theorem teardownsBegun_createEvents (env : InitEnv) (i n : Nat) :
    teardownsBegun (createEvents env i n) = 0 := by
  simp [teardownsBegun, createEvents]

theorem started_createEvents_ok (env : InitEnv) (i n : Nat)
    (h : ∀ j, j < n → (env.create (i + j)).s.ok = true) :
    started (createEvents env i n) = createdHandles env i n := by
  induction n generalizing i with
  | zero => rfl
  | succ n ih =>
    have h0 : (env.create i).s.ok = true := by simpa using h 0 (Nat.succ_pos n)
    have hrest : ∀ j, j < n → (env.create (i + 1 + j)).s.ok = true := by
      intro j hj
      have := h (j + 1) (Nat.succ_lt_succ hj)
      rwa [show i + (j + 1) = i + 1 + j by omega] at this
    rw [createEvents_succ, createdHandles_succ, ← ih (i + 1) hrest]
    simp [started, h0]

theorem started_createEvents_fail (env : InitEnv) (i k : Nat)
    (h : ∀ j, j < k → (env.create (i + j)).s.ok = true)
    (hfail : (env.create (i + k)).s.ok = false) :
    started (createEvents env i (k + 1)) = createdHandles env i k := by
  have : createEvents env i (k + 1) = createEvents env i k ++
      [Event.ThreadCreate (env.create (i + k)).s (env.create (i + k)).new_thread] := by
    simp [createEvents, List.range'_1_concat]
  rw [this, started_append, started_createEvents_ok env i k h]
  simp [started, hfail]

theorem construct_some (messenger : Messenger) (socket : Socket) (bind_address : Sockaddr)
    (p : AcceptorPool) (h : AcceptorPool.construct messenger socket bind_address = some p) :
    p.closing_ = false ∧ p.threads_ = [] ∧ p.trace = [] ∧ p.bind_address_ = bind_address := by
  unfold AcceptorPool.construct at h
  split at h
  · cases h
  · injection h with h
    subst h
    exact ⟨rfl, rfl, rfl, rfl⟩

/-! ## C2: a failed creation rolls `Init` back -/

/-- C2: on a freshly constructed pool, when creations `0 .. k-1` of `Init(n)`
give OK and creation `k < n` fails (the `Join` calls of the rollback giving OK),
`Init` returns exactly the status of creation `k`.  It has called
`Thread::Create` `k + 1` times and no more, then run the teardown of `Shutdown`
once: the flag is set, the socket was shut down once, the `k` started workers
were joined, one `Join` each, and the handle collection is empty. -/
theorem Init_rolls_back_on_failed_creation (messenger : Messenger) (socket : Socket)
    (bind_address : Sockaddr) (p : AcceptorPool) (env : InitEnv) (n k : Nat)
    (hp : AcceptorPool.construct messenger socket bind_address = some p)
    (hk : k < n)
    (hok : ∀ j, j < k → (env.create j).s.ok = true)
    (hfail : (env.create k).s.ok = false)
    (hjoin : ∀ j, j < k → (env.rollback.join (env.create j).new_thread).ok = true) :
    ∃ q, Init env (n : Int) p = some (q, (env.create k).s) ∧
      q = { p with closing_ := true, threads_ := [],
                   trace := createEvents env 0 (k + 1) ++
                     teardownEvents bind_address env.rollback.socket_shutdown
                       (createdHandles env 0 k) } ∧
      creations q.trace = k + 1 ∧
      teardownsBegun q.trace = 1 ∧
      socketShutdowns q.trace = 1 ∧
      started q.trace = createdHandles env 0 k ∧
      joined q.trace = createdHandles env 0 k ∧
      (createdHandles env 0 k).length = k ∧
      q.threads_ = [] ∧ q.closing_ = true := by
  obtain ⟨hc, ht, htr, hb⟩ := construct_some messenger socket bind_address p hp
  have hok0 : ∀ j, j < k → (env.create (0 + j)).s.ok = true := by simpa using hok
  have hfail0 : (env.create (0 + k)).s.ok = false := by simpa using hfail
  have hloop := Init_loop_fail env k n p 0 hk hok0 hfail0
  have hsd := Shutdown_open_of_ok env.rollback
    { p with threads_ := p.threads_ ++ createdHandles env 0 k,
             trace := p.trace ++ createEvents env 0 (k + 1) } hc
    (by
      intro t hmem
      simp only [ht, List.nil_append, createdHandles, List.mem_map, List.mem_range'_1] at hmem
      obtain ⟨j, ⟨_, hj⟩, rfl⟩ := hmem
      exact hjoin j (by omega))
  rw [hsd] at hloop
  simp only [Nat.zero_add] at hloop
  refine ⟨_, by simpa [Init] using hloop, ?_, ?_, ?_, ?_, ?_, ?_, createdHandles_length env 0 k,
    rfl, rfl⟩
  · simp [ht, htr, hb]
  · simp [htr]
  · simp [htr]
  · simp [htr]
  · simp [htr, ht, started_createEvents_fail env 0 k hok0 hfail0]
  · simp [htr, ht]

/-- Instance of C2: `Init(3)` whose third creation fails. -/
theorem Init_rolls_back_on_failed_creation_witness :
    (AcceptorPool.construct ⟨some ⟨0⟩⟩ ⟨5⟩ ⟨0, 7050⟩ = some (samplePool [] false) ∧
      2 < 3 ∧
      (∀ j, j < 2 → ((failingInit 2).create j).s.ok = true) ∧
      ((failingInit 2).create 2).s.ok = false ∧
      (∀ j, j < 2 →
        ((failingInit 2).rollback.join ((failingInit 2).create j).new_thread).ok = true)) ∧
    ∃ q, Init (failingInit 2) ((3 : Nat) : Int) (samplePool [] false) =
        some (q, ((failingInit 2).create 2).s) ∧
      q = { samplePool [] false with
              closing_ := true, threads_ := [],
              trace := createEvents (failingInit 2) 0 (2 + 1) ++
                teardownEvents ⟨0, 7050⟩ (failingInit 2).rollback.socket_shutdown
                  (createdHandles (failingInit 2) 0 2) } ∧
      creations q.trace = 2 + 1 ∧
      teardownsBegun q.trace = 1 ∧
      socketShutdowns q.trace = 1 ∧
      started q.trace = createdHandles (failingInit 2) 0 2 ∧
      joined q.trace = createdHandles (failingInit 2) 0 2 ∧
      (createdHandles (failingInit 2) 0 2).length = 2 ∧
      q.threads_ = [] ∧ q.closing_ = true :=
  ⟨⟨by decide, by decide, by decide, by decide, by decide⟩,
    Init_rolls_back_on_failed_creation ⟨some ⟨0⟩⟩ ⟨5⟩ ⟨0, 7050⟩ (samplePool [] false)
      (failingInit 2) 3 2 (by decide) (by decide) (by decide) (by decide) (by decide)⟩

/-! ### The four ways through a loop iteration -/

theorem iteration_accept_failed_closing (p : AcceptorPool) (r : AcceptResult)
    (ha : r.accept.ok = false) (hc : p.closing_ = true) :
    RunThread.iteration p r =
      ({ p with trace := p.trace ++ [Event.Log (Severity.VLOG 2)
          (LogMsg.CallingAccept p.socket_.fd p.bind_address_),
          Event.Accept r.accept r.new_sock r.remote] }, true) := by
  simp [RunThread.iteration, ha, hc, Release_Load, AcceptorPool.emit]

theorem iteration_accept_failed_open (p : AcceptorPool) (r : AcceptResult)
    (ha : r.accept.ok = false) (hc : p.closing_ = false) :
    RunThread.iteration p r =
      ({ p with trace := p.trace ++ acceptFailureEvents p r }, false) := by
  simp [RunThread.iteration, ha, hc, Release_Load, AcceptorPool.emit, acceptFailureEvents]

theorem iteration_nodelay_failed (p : AcceptorPool) (r : AcceptResult)
    (ha : r.accept.ok = true) (hn : r.set_no_delay.ok = false) :
    RunThread.iteration p r =
      ({ p with trace := p.trace ++ noDelayFailureEvents p r }, false) := by
  simp [RunThread.iteration, ha, hn, AcceptorPool.emit, noDelayFailureEvents]

theorem iteration_handoff (p : AcceptorPool) (r : AcceptResult)
    (ha : r.accept.ok = true) (hn : r.set_no_delay.ok = true) :
    RunThread.iteration p r =
      ({ p with rpc_connections_accepted_ := p.rpc_connections_accepted_ + 1,
                trace := p.trace ++ handoffEvents p r }, false) := by
  simp [RunThread.iteration, ha, hn, AcceptorPool.emit, handoffEvents]

/-! ## C3: a connection whose `SetNoDelay` fails is dropped -/

/-- C3: in a loop iteration whose `Accept` gave OK and whose `SetNoDelay` failed,
`RegisterInboundSocket` is not called and the counter is not incremented: the
iteration only logs (the `VLOG` before `Accept`, then the warning); the worker
does not stop, it goes on with the next iteration on the results that follow. -/
theorem RunThread_drops_connection_when_nodelay_fails (p : AcceptorPool) (r : AcceptResult)
    (rest : List AcceptResult)
    (ha : r.accept.ok = true) (hn : r.set_no_delay.ok = false) :
    ∃ q, RunThread.iteration p r = (q, false) ∧
      q = { p with trace := p.trace ++ noDelayFailureEvents p r } ∧
      registered q.trace = registered p.trace ∧
      q.rpc_connections_accepted_ = p.rpc_connections_accepted_ ∧
      warnings q.trace = warnings p.trace ++ [LogMsg.NoDelayFailed r.remote r.set_no_delay] ∧
      RunThread p [r] = (q, WorkerState.Accepting) ∧
      RunThread p (r :: rest) = RunThread q rest := by
  have h := iteration_nodelay_failed p r ha hn
  refine ⟨_, h, rfl, ?_, rfl, ?_, ?_, ?_⟩
  · simp [noDelayFailureEvents, registered]
  · simp [noDelayFailureEvents, warnings]
  · simp [RunThread, h]
  · simp [RunThread, h]

/-- Instance of C3: a dropped connection followed by a good one. -/
theorem RunThread_drops_connection_when_nodelay_fails_witness :
    (noDelayFails.accept.ok = true ∧ noDelayFails.set_no_delay.ok = false) ∧
    ∃ q, RunThread.iteration (samplePool [⟨1⟩] false) noDelayFails = (q, false) ∧
      q = { samplePool [⟨1⟩] false with
            trace := (samplePool [⟨1⟩] false).trace ++
              noDelayFailureEvents (samplePool [⟨1⟩] false) noDelayFails } ∧
      registered q.trace = registered (samplePool [⟨1⟩] false).trace ∧
      q.rpc_connections_accepted_ = (samplePool [⟨1⟩] false).rpc_connections_accepted_ ∧
      warnings q.trace = warnings (samplePool [⟨1⟩] false).trace ++
        [LogMsg.NoDelayFailed noDelayFails.remote noDelayFails.set_no_delay] ∧
      RunThread (samplePool [⟨1⟩] false) [noDelayFails] = (q, WorkerState.Accepting) ∧
      RunThread (samplePool [⟨1⟩] false) (noDelayFails :: [goodConnection]) =
        RunThread q [goodConnection] :=
  ⟨⟨by decide, by decide⟩,
    RunThread_drops_connection_when_nodelay_fails (samplePool [⟨1⟩] false) noDelayFails
      [goodConnection] (by decide) (by decide)⟩

/-! ### Steps of the system -/

theorem step_worker_exited (sys : System) (t : Thread) (r : AcceptResult)
    (h : t ∈ sys.exited) : sys.step (Action.Worker t r) = some sys := by
  simp [System.step, h]

theorem step_worker_running (sys : System) (t : Thread) (r : AcceptResult)
    (h : t ∉ sys.exited) :
    sys.step (Action.Worker t r) = some
      (if (RunThread.iteration sys.pool r).2 = true then
        { sys with pool := RunThread.afterLoop (RunThread.iteration sys.pool r).1,
                   exited := t :: sys.exited }
      else { sys with pool := (RunThread.iteration sys.pool r).1 }) := by
  simp only [System.step, h, ↓reduceIte]
  rcases hit : RunThread.iteration sys.pool r with ⟨q, b⟩
  cases b <;> simp

theorem iteration_break_iff (p : AcceptorPool) (r : AcceptResult) :
    (RunThread.iteration p r).2 = true ↔ (r.accept.ok = false ∧ p.closing_ = true) := by
  cases ha : r.accept.ok <;> cases hc : p.closing_ <;> cases hn : r.set_no_delay.ok <;>
    simp [RunThread.iteration, ha, hc, hn, Release_Load]

/-- What a caller step leaves alone: the counter, the socket, the bind address,
the set of exited workers; and it only ever sets the flag. -/
theorem step_caller_frame (sys next : System) (c : Nat) (s : Status)
    (h : sys.step (Action.Caller c s) = some next) :
    next.exited = sys.exited ∧
    next.pool.rpc_connections_accepted_ = sys.pool.rpc_connections_accepted_ ∧
    registered next.pool.trace = registered sys.pool.trace ∧
    accepts next.pool.trace = accepts sys.pool.trace ∧
    (sys.pool.closing_ = true → next.pool.closing_ = true) := by
  simp only [System.step] at h
  split at h
  · cases hc : sys.pool.closing_ <;>
      simp [Acquire_CompareAndSwap, hc, Shutdown.alreadyShutDown] at h <;> subst h <;>
      simp [registered, accepts]
  · injection h with h
    subst h
    simp [socketShutdown_eq]
    by_cases hs : s.ok = true <;> simp [hs, registered, accepts]
  · split at h
    · injection h with h
      subst h
      simp
    · split at h
      · split at h
        · injection h with h
          subst h
          simp [registered, accepts]
        · cases h
      · injection h with h
        subst h
        simp
  · injection h with h
    subst h
    simp

theorem run_cons (sys : System) (a : Action) (as : List Action) :
    sys.run (a :: as) = (sys.step a).bind fun next => next.run as := by
  simp only [System.run]
  cases sys.step a <;> rfl

theorem run_append (sys : System) (pre post : List Action) :
    sys.run (pre ++ post) = (sys.run pre).bind fun mid => mid.run post := by
  induction pre generalizing sys with
  | nil => rfl
  | cons a as ih =>
    rw [List.cons_append, run_cons, run_cons]
    cases sys.step a with
    | none => rfl
    | some next => simpa using ih next

theorem RunThread_open (p : AcceptorPool) (rs : List AcceptResult) (hc : p.closing_ = false) :
    (RunThread p rs).2 = WorkerState.Accepting ∧
    accepts (RunThread p rs).1.trace = accepts p.trace + rs.length ∧
    (RunThread p rs).1.closing_ = false := by
  induction rs generalizing p with
  | nil => simp [RunThread, hc]
  | cons r rest ih =>
    have hb : (RunThread.iteration p r).2 = false := by
      cases hx : (RunThread.iteration p r).2
      · rfl
      · rw [((iteration_break_iff p r).1 hx).2] at hc
        cases hc
    have hq : (RunThread.iteration p r).1.closing_ = false ∧
        accepts (RunThread.iteration p r).1.trace = accepts p.trace + 1 := by
      cases ha : r.accept.ok <;> cases hn : r.set_no_delay.ok <;>
        simp [RunThread.iteration, ha, hc, hn, Release_Load, accepts]
    have hstep : RunThread p (r :: rest) = RunThread (RunThread.iteration p r).1 rest := by
      rcases hit : RunThread.iteration p r with ⟨q, b⟩
      rw [hit] at hb
      simp only at hb
      subst hb
      simp [RunThread, hit]
    rw [hstep]
    obtain ⟨h1, h2, h3⟩ := ih _ hq.1
    refine ⟨h1, ?_, h3⟩
    rw [h2, hq.2, List.length_cons]
    omega

/-! ### The loop iteration in two steps -/

/-- A loop iteration is the call of `Accept` followed by lines 104-112 when the
call gave OK, and by the read of the flag when it failed. -/
theorem iteration_split (p : AcceptorPool) (r : AcceptResult) :
    RunThread.iteration p r =
      if r.accept.ok then (RunThread.afterAccept (RunThread.callAccept p r) r, false)
      else RunThread.afterFailedAccept (RunThread.callAccept p r) r.accept := by
  cases ha : r.accept.ok <;> cases hc : p.closing_ <;> cases hn : r.set_no_delay.ok <;>
    simp [RunThread.iteration, RunThread.afterAccept, RunThread.callAccept,
      RunThread.afterFailedAccept, ha, hc, hn, Release_Load]

theorem fine_run_cons (fs : FineSystem) (a : FineAction) (as : List FineAction) :
    fs.run (a :: as) = (fs.step a).bind fun next => next.run as := by
  simp only [FineSystem.run]
  cases fs.step a <;> rfl

/-- A worker about to call `Accept` that calls it and then reads the flag with
no step of another thread in between does what one step of the system does. -/
theorem fine_accept_then_load (fs : FineSystem) (t : Thread) (r : AcceptResult)
    (hrun : t ∉ fs.sys.exited) (hidle : fs.pending t = none) :
    (fs.run [FineAction.Accept t r, FineAction.Load t]).map (fun next => next.sys) =
      fs.sys.step (Action.Worker t r) := by
  rw [step_worker_running fs.sys t r hrun, iteration_split]
  cases ha : r.accept.ok
  · cases hc : fs.sys.pool.closing_ <;>
      simp [FineSystem.run, FineSystem.step, hrun, hidle, ha, hc, RunThread.afterFailedAccept,
        RunThread.callAccept, Release_Load]
  · simp [FineSystem.run, FineSystem.step, hrun, hidle, ha]

/-- A worker joins the exited ones only through its own read of the flag, made
after a failed `Accept`, that finds the flag set. -/
theorem fine_step_exited (fs next : FineSystem) (a : FineAction) (t : Thread)
    (h : fs.step a = some next) (h0 : t ∉ fs.sys.exited) (h1 : t ∈ next.sys.exited) :
    a = FineAction.Load t ∧ (∃ s, fs.pending t = some s) ∧
      Release_Load fs.sys.pool = true := by
  cases a with
  | Accept u r =>
    simp only [FineSystem.step] at h
    split at h
    · injection h with h
      subst h
      exact absurd h1 h0
    · split at h <;> injection h with h <;> subst h <;> exact absurd h1 h0
  | Caller c s =>
    simp only [FineSystem.step] at h
    split at h
    · cases h
    · rename_i nsys hs
      injection h with h
      subst h
      rw [(step_caller_frame fs.sys nsys c s hs).1] at h1
      exact absurd h1 h0
  | Load u =>
    simp only [FineSystem.step] at h
    split at h
    · injection h with h
      subst h
      exact absurd h1 h0
    · rename_i s hp
      cases hc : fs.sys.pool.closing_ with
      | false =>
        simp [RunThread.afterFailedAccept, Release_Load, hc] at h
        subst h
        exact absurd h1 h0
      | true =>
        simp [RunThread.afterFailedAccept, Release_Load, hc] at h
        subst h
        rcases List.mem_cons.1 h1 with rfl | h1
        · exact ⟨rfl, ⟨s, hp⟩, hc⟩
        · exact absurd h1 h0

/-- Every status that awaits the read of the flag is that of a failed `Accept`. -/
theorem fine_step_pending (fs next : FineSystem) (a : FineAction)
    (h : fs.step a = some next)
    (hp : ∀ u s, fs.pending u = some s → s.ok = false) :
    ∀ u s, next.pending u = some s → s.ok = false := by
  cases a with
  | Accept t r =>
    simp only [FineSystem.step] at h
    split at h
    · injection h with h
      subst h
      exact hp
    · split at h
      · injection h with h
        subst h
        exact hp
      · rename_i hfail
        injection h with h
        subst h
        intro u s hu
        dsimp only at hu
        by_cases hut : u = t
        · subst hut
          simp only [Function.update_same, Option.some.injEq] at hu
          subst hu
          simpa using hfail
        · rw [Function.update_noteq hut] at hu
          exact hp u s hu
  | Caller c s =>
    simp only [FineSystem.step] at h
    split at h
    · cases h
    · injection h with h
      subst h
      exact hp
  | Load t =>
    have hupd : ∀ u s, Function.update fs.pending t none u = some s → s.ok = false := by
      intro u s hu
      by_cases hut : u = t
      · subst hut
        simp at hu
      · rw [Function.update_noteq hut] at hu
        exact hp u s hu
    simp only [FineSystem.step] at h
    split at h
    · injection h with h
      subst h
      exact hp
    · split at h <;> injection h with h <;> subst h <;> exact hupd

theorem fine_run_exited (fs fs' : FineSystem) (acts : List FineAction) (t : Thread)
    (hrun : fs.run acts = some fs') (h0 : t ∉ fs.sys.exited)
    (hp : ∀ u s, fs.pending u = some s → s.ok = false) (h1 : t ∈ fs'.sys.exited) :
    ∃ pre post mid s, acts = pre ++ FineAction.Load t :: post ∧ fs.run pre = some mid ∧
      t ∉ mid.sys.exited ∧ mid.pending t = some s ∧ s.ok = false ∧
      Release_Load mid.sys.pool = true := by
  induction acts generalizing fs with
  | nil =>
    simp only [FineSystem.run] at hrun
    injection hrun with hrun
    subst hrun
    exact absurd h1 h0
  | cons a as ih =>
    rw [fine_run_cons] at hrun
    cases hs : fs.step a with
    | none => simp [hs] at hrun
    | some next =>
      rw [hs] at hrun
      by_cases hn : t ∈ next.sys.exited
      · obtain ⟨rfl, ⟨s, hpend⟩, hc⟩ := fine_step_exited fs next a t hs h0 hn
        exact ⟨[], as, fs, s, rfl, rfl, h0, hpend, hp t s hpend, hc⟩
      · obtain ⟨pre, post, mid, s, hsplit, hpre, hmid, hpend, hfail, hc⟩ :=
          ih next hrun hn (fine_step_pending fs next a hs hp)
        refine ⟨a :: pre, post, mid, s, by rw [hsplit]; rfl, ?_, hmid, hpend, hfail, hc⟩
        rw [fine_run_cons, hs]
        exact hpre

/-- A worker about to call `Accept` calls it once, whatever the result; after a
failure it is left before its read of the flag, the flag as it was. -/
theorem fine_step_accept (fs : FineSystem) (t : Thread) (r : AcceptResult)
    (hrun : t ∉ fs.sys.exited) (hidle : fs.pending t = none) :
    ∃ next, fs.step (FineAction.Accept t r) = some next ∧
      accepts next.sys.pool.trace = accepts fs.sys.pool.trace + 1 ∧
      (r.accept.ok = false → next.pending t = some r.accept ∧
        next.sys.pool.closing_ = fs.sys.pool.closing_) := by
  cases ha : r.accept.ok
  · refine ⟨{ sys := { fs.sys with pool := RunThread.callAccept fs.sys.pool r }
              pending := Function.update fs.pending t (some r.accept) }, ?_, ?_,
      fun _ => ⟨by simp, rfl⟩⟩
    · simp [FineSystem.step, hrun, hidle, ha]
    · simp [RunThread.callAccept, accepts]
  · refine ⟨{ fs with sys := { fs.sys with
        pool := RunThread.afterAccept (RunThread.callAccept fs.sys.pool r) r } }, ?_, ?_,
      fun hf => by cases hf⟩
    · simp [FineSystem.step, hrun, hidle, ha]
    · cases hn : r.set_no_delay.ok <;>
        simp [RunThread.afterAccept, RunThread.callAccept, hn, accepts]

/-- Run with no other thread, `RunThread` returns only when the flag is set,
and at the first result whose `Accept` failed. -/
theorem RunThread_stopped (p : AcceptorPool) (rs : List AcceptResult)
    (h : (RunThread p rs).2 = WorkerState.Stopped) :
    Release_Load p = true ∧
    ∃ pre r post, rs = pre ++ r :: post ∧ r.accept.ok = false ∧
      ∀ x ∈ pre, x.accept.ok = true := by
  have hc : p.closing_ = true := by
    cases hc : p.closing_
    · rw [(RunThread_open p rs hc).1] at h
      cases h
    · rfl
  refine ⟨hc, ?_⟩
  induction rs generalizing p with
  | nil => simp [RunThread] at h
  | cons r rest ih =>
    cases hx : (RunThread.iteration p r).2 with
    | true => exact ⟨[], r, rest, rfl, ((iteration_break_iff p r).1 hx).1, by simp⟩
    | false =>
      have hok : r.accept.ok = true := by
        cases ha : r.accept.ok
        · rw [(iteration_break_iff p r).2 ⟨ha, hc⟩] at hx
          cases hx
        · rfl
      have hq : (RunThread.iteration p r).1.closing_ = true := by
        cases hn : r.set_no_delay.ok <;>
          simp [RunThread.iteration, hok, hc, hn]
      have hstep : RunThread p (r :: rest) = RunThread (RunThread.iteration p r).1 rest := by
        rcases hit : RunThread.iteration p r with ⟨q, b⟩
        rw [hit] at hx
        simp only at hx
        subst hx
        simp [RunThread, hit]
      rw [hstep] at h
      obtain ⟨pre, x, post, hsplit, hfail, hpre⟩ := ih _ h hq
      refine ⟨r :: pre, x, post, by rw [hsplit]; rfl, hfail, ?_⟩
      intro y hy
      rcases List.mem_cons.1 hy with rfl | hy
      · exact hok
      · exact hpre y hy

/-! ## C4: a worker leaves its loop only when it reads the flag as set -/

/-- C4, as stated, fails: the worker's `Accept` fails while the flag is unset; a
caller of `Shutdown` then wins the compare-and-swap; the worker reads the flag
as set and returns from `RunThread`.  That failed `Accept` was not logged as a
warning and no other `Accept` followed it. -/
theorem failed_accept_before_flag_set_counterexample :
    (sampleFineSystem.run [FineAction.Accept ⟨1⟩ acceptFails]).map
        (fun fs => (fs.sys.pool.closing_, accepts fs.sys.pool.trace, fs.pending ⟨1⟩)) =
      some (false, 1, some acceptFails.accept) ∧
    acceptFails.accept.ok = false ∧
    (sampleFineSystem.run lateFlagSchedule).map
        (fun fs => (fs.sys.exited, warnings fs.sys.pool.trace, accepts fs.sys.pool.trace)) =
      some ([⟨1⟩], [], 1) :=
  ⟨rfl, rfl, rfl⟩

/-- C4, amended: in every schedule of the workers and the callers of `Shutdown`,
the compare-and-swap of `Shutdown` free to fall between a worker's `Accept` and
its read of the flag, a worker that was in its loop and has returned from
`RunThread` did so at a read of the flag of its own, made after a failed
`Accept`, that gave true.  Whenever the read after a failed `Accept` gives
false, that failure is logged as a warning and the worker is back at the top
of its loop, where its next step calls `Accept` once more; when the read gives
true the worker returns and logs no warning.  Run with no other thread,
`RunThread` stays in its loop over every finite sequence of results when the
flag is unset, with one `Accept` call per result, and returns only when the
flag is set, at the first result whose `Accept` failed. -/
theorem worker_stops_only_at_flag_read_as_set (fs fs' : FineSystem)
    (acts : List FineAction) (t : Thread)
    (hrun : fs.run acts = some fs') (h0 : t ∉ fs.sys.exited)
    (hp : ∀ u s, fs.pending u = some s → s.ok = false) :
    (t ∈ fs'.sys.exited →
      ∃ pre post mid s, acts = pre ++ FineAction.Load t :: post ∧ fs.run pre = some mid ∧
        t ∉ mid.sys.exited ∧ mid.pending t = some s ∧ s.ok = false ∧
        Release_Load mid.sys.pool = true) ∧
    (∀ (mid : FineSystem) (s : Status) (r : AcceptResult), t ∉ mid.sys.exited →
      mid.pending t = some s → Release_Load mid.sys.pool = false →
      ∃ next after, mid.step (FineAction.Load t) = some next ∧
        next = { sys := { mid.sys with pool := { mid.sys.pool with
                   trace := mid.sys.pool.trace ++
                     [Event.Log Severity.WARNING (LogMsg.AcceptFailed s)] } }
                 pending := Function.update mid.pending t none } ∧
        warnings next.sys.pool.trace = warnings mid.sys.pool.trace ++ [LogMsg.AcceptFailed s] ∧
        t ∉ next.sys.exited ∧ next.pending t = none ∧
        next.step (FineAction.Accept t r) = some after ∧
        accepts after.sys.pool.trace = accepts next.sys.pool.trace + 1) ∧
    (∀ (mid : FineSystem) (s : Status), mid.pending t = some s →
      Release_Load mid.sys.pool = true →
      mid.step (FineAction.Load t) = some
        { sys := { mid.sys with pool := RunThread.afterLoop mid.sys.pool,
                                exited := t :: mid.sys.exited }
          pending := Function.update mid.pending t none } ∧
      warnings (RunThread.afterLoop mid.sys.pool).trace = warnings mid.sys.pool.trace) ∧
    (∀ (mid : FineSystem) (r : AcceptResult), t ∉ mid.sys.exited → mid.pending t = none →
      ∃ next, mid.step (FineAction.Accept t r) = some next ∧
        accepts next.sys.pool.trace = accepts mid.sys.pool.trace + 1 ∧
        (r.accept.ok = false → next.pending t = some r.accept ∧
          next.sys.pool.closing_ = mid.sys.pool.closing_)) ∧
    (∀ (p : AcceptorPool) (rs : List AcceptResult), Release_Load p = false →
      (RunThread p rs).2 = WorkerState.Accepting ∧
      accepts (RunThread p rs).1.trace = accepts p.trace + rs.length) ∧
    (∀ (p : AcceptorPool) (rs : List AcceptResult),
      (RunThread p rs).2 = WorkerState.Stopped →
      Release_Load p = true ∧
      ∃ pre r post, rs = pre ++ r :: post ∧ r.accept.ok = false ∧
        ∀ x ∈ pre, x.accept.ok = true) := by
  refine ⟨fine_run_exited fs fs' acts t hrun h0 hp, ?_, ?_,
    fun mid r hmid hidle => fine_step_accept mid t r hmid hidle, ?_, RunThread_stopped⟩
  · intro mid s r hmid hpend hc
    have hstep : mid.step (FineAction.Load t) = some
        { sys := { mid.sys with pool := { mid.sys.pool with
                     trace := mid.sys.pool.trace ++
                       [Event.Log Severity.WARNING (LogMsg.AcceptFailed s)] } }
          pending := Function.update mid.pending t none } := by
      simp [FineSystem.step, hpend, RunThread.afterFailedAccept, hc, AcceptorPool.emit]
    obtain ⟨after, hafter, hacc, _⟩ := fine_step_accept
      { sys := { mid.sys with pool := { mid.sys.pool with
                   trace := mid.sys.pool.trace ++
                     [Event.Log Severity.WARNING (LogMsg.AcceptFailed s)] } }
        pending := Function.update mid.pending t none } t r hmid (by simp)
    exact ⟨_, after, hstep, rfl, by simp [warnings], hmid, by simp, hafter, hacc⟩
  · intro mid s hpend hc
    refine ⟨?_, by simp [RunThread.afterLoop, warnings]⟩
    simp [FineSystem.step, hpend, RunThread.afterFailedAccept, hc]
  · intro p rs hc
    exact ⟨(RunThread_open p rs hc).1, (RunThread_open p rs hc).2.1⟩

/-- Instance of the amended C4: the worker's `Accept` fails, a caller sets the
flag, the worker reads it as set and returns. -/
theorem worker_stops_only_at_flag_read_as_set_witness :
    (sampleFineSystem.run lateFlagSchedule = some sampleFineSystemAfter ∧
      (⟨1⟩ : Thread) ∉ sampleFineSystem.sys.exited ∧
      ∀ u s, sampleFineSystem.pending u = some s → s.ok = false) ∧
    ((⟨1⟩ : Thread) ∈ sampleFineSystemAfter.sys.exited →
      ∃ pre post mid s, lateFlagSchedule = pre ++ FineAction.Load ⟨1⟩ :: post ∧
        sampleFineSystem.run pre = some mid ∧
        (⟨1⟩ : Thread) ∉ mid.sys.exited ∧ mid.pending ⟨1⟩ = some s ∧ s.ok = false ∧
        Release_Load mid.sys.pool = true) :=
  ⟨⟨rfl, by decide, fun _ _ h => by cases h⟩,
    (worker_stops_only_at_flag_read_as_set sampleFineSystem sampleFineSystemAfter
      lateFlagSchedule ⟨1⟩ rfl (by decide) (fun _ _ h => by cases h)).1⟩

/-- One step hands to the messenger exactly the connection it prepared, and
increments the counter once for it. -/
theorem step_prepared (sys next : System) (a : Action) (h : sys.step a = some next) :
    registered next.pool.trace = registered sys.pool.trace ++ sys.preparedBy a ∧
    next.pool.rpc_connections_accepted_ =
      sys.pool.rpc_connections_accepted_ + (sys.preparedBy a).length := by
  cases a with
  | Caller c s =>
    obtain ⟨_, hcnt, hreg, _, _⟩ := step_caller_frame sys next c s h
    simp [System.preparedBy, hcnt, hreg]
  | Worker t r =>
    by_cases ht : t ∈ sys.exited
    · rw [step_worker_exited sys t r ht] at h
      injection h with h
      subst h
      simp [System.preparedBy, ht]
    · rw [step_worker_running sys t r ht] at h
      injection h with h
      subst h
      cases ha : r.accept.ok <;> cases hc : sys.pool.closing_ <;> cases hn : r.set_no_delay.ok <;>
        simp [System.preparedBy, RunThread.iteration, RunThread.afterLoop, ht, ha, hc, hn,
          Release_Load, registered]

theorem run_prepared (sys sys' : System) (acts : List Action)
    (hrun : sys.run acts = some sys') :
    registered sys'.pool.trace = registered sys.pool.trace ++ sys.prepared acts ∧
    sys'.pool.rpc_connections_accepted_ =
      sys.pool.rpc_connections_accepted_ + (sys.prepared acts).length := by
  induction acts generalizing sys with
  | nil =>
    simp only [System.run] at hrun
    injection hrun with hrun
    subst hrun
    simp [System.prepared]
  | cons a as ih =>
    rw [run_cons] at hrun
    cases hs : sys.step a with
    | none => simp [hs] at hrun
    | some next =>
      rw [hs] at hrun
      obtain ⟨h1, h2⟩ := step_prepared sys next a hs
      obtain ⟨h3, h4⟩ := ih next hrun
      simp only [System.prepared, hs]
      refine ⟨?_, ?_⟩
      · rw [h3, h1, List.append_assoc]
      · rw [h4, h2, List.length_append]
        omega

/-! ## C5: the counter counts the connections handed to the messenger -/

/-- C5: in every schedule, the connections handed to the messenger are, in
order and one call each, the socket and remote address of every iteration in
which `Accept` and `SetNoDelay` both gave OK, and the counter grows by their
number; so a counter that started equal to the number of handoffs ends equal to
it.  The counter never decreases: its value after any part of the schedule lies
between the initial and the final value. -/
theorem counter_counts_handoffs (sys sys' : System) (acts : List Action)
    (hrun : sys.run acts = some sys') :
    registered sys'.pool.trace = registered sys.pool.trace ++ sys.prepared acts ∧
    sys'.pool.rpc_connections_accepted_ =
      sys.pool.rpc_connections_accepted_ + (sys.prepared acts).length ∧
    (sys.pool.rpc_connections_accepted_ = (registered sys.pool.trace).length →
      sys'.pool.rpc_connections_accepted_ = (registered sys'.pool.trace).length) ∧
    (∀ pre post mid, acts = pre ++ post → sys.run pre = some mid →
      sys.pool.rpc_connections_accepted_ ≤ mid.pool.rpc_connections_accepted_ ∧
      mid.pool.rpc_connections_accepted_ ≤ sys'.pool.rpc_connections_accepted_) := by
  obtain ⟨h1, h2⟩ := run_prepared sys sys' acts hrun
  refine ⟨h1, h2, ?_, ?_⟩
  · intro h0
    rw [h2, h1, List.length_append, h0]
  · intro pre post mid hsplit hpre
    subst hsplit
    rw [run_append, hpre] at hrun
    have h3 := (run_prepared sys mid pre hpre).2
    have h4 := (run_prepared mid sys' post hrun).2
    omega

/-- Instance of C5: two connections handed off out of four iterations. -/
theorem counter_counts_handoffs_witness :
    sampleSystem.run sampleTraffic = some sampleSystemServed ∧
    (registered sampleSystemServed.pool.trace =
      registered sampleSystem.pool.trace ++ sampleSystem.prepared sampleTraffic ∧
    sampleSystemServed.pool.rpc_connections_accepted_ =
      sampleSystem.pool.rpc_connections_accepted_ + (sampleSystem.prepared sampleTraffic).length ∧
    (sampleSystem.pool.rpc_connections_accepted_ = (registered sampleSystem.pool.trace).length →
      sampleSystemServed.pool.rpc_connections_accepted_ =
        (registered sampleSystemServed.pool.trace).length) ∧
    (∀ pre post mid, sampleTraffic = pre ++ post → sampleSystem.run pre = some mid →
      sampleSystem.pool.rpc_connections_accepted_ ≤ mid.pool.rpc_connections_accepted_ ∧
      mid.pool.rpc_connections_accepted_ ≤ sampleSystemServed.pool.rpc_connections_accepted_)) :=
  ⟨rfl, counter_counts_handoffs sampleSystem sampleSystemServed sampleTraffic rfl⟩

/-! ## C6: with the flag set, a failed `Accept` ends the worker -/

/-- C6: with the closing flag set, an iteration whose `Accept` fails leaves the
loop at once: `RunThread` returns in that iteration, whatever results would
follow, having logged no warning, left the counter alone and handed nothing to
the messenger; its only events are the `VLOG` before `Accept`, the `Accept`
call and the `VLOG` after the loop.  In the system, the step puts the worker
among those that have returned. -/
theorem RunThread_stops_at_failed_accept_when_closing (p : AcceptorPool) (r : AcceptResult)
    (rest : List AcceptResult) (hc : p.closing_ = true) (ha : r.accept.ok = false) :
    RunThread p (r :: rest) =
      ({ p with trace := p.trace ++ stopEvents p r }, WorkerState.Stopped) ∧
    warnings (RunThread p (r :: rest)).1.trace = warnings p.trace ∧
    (RunThread p (r :: rest)).1.rpc_connections_accepted_ = p.rpc_connections_accepted_ ∧
    registered (RunThread p (r :: rest)).1.trace = registered p.trace ∧
    accepts (RunThread p (r :: rest)).1.trace = accepts p.trace + 1 ∧
    (∀ (sys : System) (t : Thread), sys.pool = p → t ∉ sys.exited →
      sys.step (Action.Worker t r) = some
        { sys with pool := { p with trace := p.trace ++ stopEvents p r },
                   exited := t :: sys.exited }) := by
  have hit := iteration_accept_failed_closing p r ha hc
  have hrun : RunThread p (r :: rest) =
      ({ p with trace := p.trace ++ stopEvents p r }, WorkerState.Stopped) := by
    simp [RunThread, hit, RunThread.afterLoop, AcceptorPool.emit, stopEvents]
  refine ⟨hrun, ?_, ?_, ?_, ?_, ?_⟩
  · rw [hrun]
    simp [stopEvents, warnings]
  · rw [hrun]
  · rw [hrun]
    simp [stopEvents, registered]
  · rw [hrun]
    simp [stopEvents, accepts]
  · intro sys t hp ht
    subst hp
    rw [step_worker_running sys t r ht, hit]
    simp [RunThread.afterLoop, AcceptorPool.emit, stopEvents]

/-- Instance of C6: a worker of a pool that was shut down, at a failed `Accept`. -/
theorem RunThread_stops_at_failed_accept_when_closing_witness :
    (sampleShutDown.closing_ = true ∧ acceptFails.accept.ok = false) ∧
    (RunThread sampleShutDown (acceptFails :: [goodConnection]) =
      ({ sampleShutDown with trace := sampleShutDown.trace ++ stopEvents sampleShutDown acceptFails },
        WorkerState.Stopped) ∧
    warnings (RunThread sampleShutDown (acceptFails :: [goodConnection])).1.trace =
      warnings sampleShutDown.trace ∧
    (RunThread sampleShutDown (acceptFails :: [goodConnection])).1.rpc_connections_accepted_ =
      sampleShutDown.rpc_connections_accepted_ ∧
    registered (RunThread sampleShutDown (acceptFails :: [goodConnection])).1.trace =
      registered sampleShutDown.trace ∧
    accepts (RunThread sampleShutDown (acceptFails :: [goodConnection])).1.trace =
      accepts sampleShutDown.trace + 1 ∧
    (∀ (sys : System) (t : Thread), sys.pool = sampleShutDown → t ∉ sys.exited →
      sys.step (Action.Worker t acceptFails) = some
        { sys with pool := { sampleShutDown with
                     trace := sampleShutDown.trace ++ stopEvents sampleShutDown acceptFails },
                   exited := t :: sys.exited })) :=
  ⟨⟨by decide, by decide⟩,
    RunThread_stops_at_failed_accept_when_closing sampleShutDown acceptFails [goodConnection]
      (by decide) (by decide)⟩

/-! ### What `Init` can return -/

theorem Init_cases (env : InitEnv) (num_threads : Int) (p q : AcceptorPool) (s : Status)
    (h : Init env num_threads p = some (q, s)) :
    (s = Status.OK ∧
      (∀ j, j < num_threads.toNat → (env.create (0 + j)).s.ok = true) ∧
      q = { p with threads_ := p.threads_ ++ createdHandles env 0 num_threads.toNat,
                   trace := p.trace ++ createEvents env 0 num_threads.toNat }) ∨
    (∃ k, k < num_threads.toNat ∧
      (∀ j, j < k → (env.create (0 + j)).s.ok = true) ∧
      (env.create (0 + k)).s.ok = false ∧ s = (env.create k).s ∧
      Shutdown env.rollback
        { p with threads_ := p.threads_ ++ createdHandles env 0 k,
                 trace := p.trace ++ createEvents env 0 (k + 1) } = some q) := by
  unfold Init at h
  by_cases hall : ∀ j, j < num_threads.toNat → (env.create (0 + j)).s.ok = true
  · left
    rw [Init_loop_ok env _ p 0 hall] at h
    injection h with h
    injection h with h1 h2
    exact ⟨h2.symm, hall, h1.symm⟩
  · right
    have hex : ∃ k, k < num_threads.toNat ∧ (env.create (0 + k)).s.ok = false := by
      by_contra hne
      apply hall
      intro j hj
      cases hjo : (env.create (0 + j)).s.ok
      · exact absurd ⟨j, hj, hjo⟩ hne
      · rfl
    classical
    let k := Nat.find hex
    have hk : k < num_threads.toNat ∧ (env.create (0 + k)).s.ok = false := Nat.find_spec hex
    have hmin : ∀ j, j < k → (env.create (0 + j)).s.ok = true := by
      intro j hj
      cases hjo : (env.create (0 + j)).s.ok
      · exact absurd ⟨Nat.lt_trans hj hk.1, hjo⟩ (Nat.find_min hex hj)
      · rfl
    refine ⟨k, hk.1, hmin, hk.2, ?_⟩
    rw [Init_loop_fail env k _ p 0 hk.1 hmin hk.2] at h
    split at h
    · cases h
    · rename_i p2 hsd
      injection h with h
      injection h with h1 h2
      subst h1
      exact ⟨by simpa using h2.symm, hsd⟩

/-! ### Bookkeeping of handles along lifecycle calls -/

theorem Accounted_of_fresh (p : AcceptorPool) (hc : p.closing_ = false) (ht : p.threads_ = [])
    (htr : p.trace = []) : Accounted p := by
  refine ⟨fun _ => ?_, fun h => ?_⟩
  · simp [ht, htr, started, joined]
  · rw [hc] at h
    cases h

theorem Accounted_Shutdown (env : ShutdownEnv) (p q : AcceptorPool) (hp : Accounted p)
    (h : Shutdown env p = some q) : Accounted q ∧ q.closing_ = true := by
  have hq := Shutdown_some_closing env p q h
  refine ⟨⟨fun hf => ?_, fun _ => ?_⟩, hq⟩
  · rw [hq] at hf
    cases hf
  · cases hc : p.closing_ with
    | true =>
      rw [Shutdown_closing env p hc] at h
      injection h with h
      subst h
      obtain ⟨h1, h2⟩ := hp.2 hc
      simp [h1, h2]
    | false =>
      obtain ⟨h1, h2⟩ := hp.1 hc
      rw [(Shutdown_open_some env p q hc h).1]
      simp [h1, h2]

theorem Accounted_Init (env : InitEnv) (num_threads : Int) (p q : AcceptorPool) (s : Status)
    (hp : Accounted p) (hc : p.closing_ = false) (h : Init env num_threads p = some (q, s)) :
    Accounted q ∧ (s.ok = false → q.closing_ = true) := by
  obtain ⟨h1, h2⟩ := hp.1 hc
  rcases Init_cases env num_threads p q s h with ⟨hs, hall, hq⟩ | ⟨k, _, hmin, hfail, hs, hsd⟩
  · subst hs
    subst hq
    refine ⟨⟨fun _ => ?_, fun hf => ?_⟩, fun hf => ?_⟩
    · simp [h1, h2, started_createEvents_ok env 0 _ hall]
    · simp only [hc] at hf
      cases hf
    · simp [Status.ok] at hf
  · have hc2 : ({ p with threads_ := p.threads_ ++ createdHandles env 0 k,
                         trace := p.trace ++ createEvents env 0 (k + 1) } :
        AcceptorPool).closing_ = false := hc
    have hq := (Shutdown_open_some env.rollback _ q hc2 hsd).1
    subst hq
    refine ⟨⟨fun hf => ?_, fun _ => ?_⟩, fun _ => rfl⟩
    · cases hf
    · simp [h1, h2, started_createEvents_fail env 0 k hmin hfail]

theorem Accounted_run (p q : AcceptorPool) (c : Call) (hp : Accounted p)
    (hopen : initWhileOpen p [c] = true) (h : c.run p = some q) : Accounted q := by
  cases c with
  | shutdown env => exact (Accounted_Shutdown env p q hp h).1
  | init num_threads env =>
    have hc : p.closing_ = false := by
      simp only [initWhileOpen, Bool.and_eq_true, Bool.not_eq_true'] at hopen
      exact hopen.1
    simp only [Call.run, Option.map_eq_some'] at h
    obtain ⟨⟨q1, s⟩, h, rfl⟩ := h
    exact (Accounted_Init env num_threads p q1 s hp hc h).1

theorem initWhileOpen_cons (p q : AcceptorPool) (c : Call) (cs : List Call)
    (hopen : initWhileOpen p (c :: cs) = true) (h : c.run p = some q) :
    initWhileOpen p [c] = true ∧ initWhileOpen q cs = true := by
  simp only [initWhileOpen, h, Bool.and_eq_true, Bool.and_true] at hopen ⊢
  exact hopen

theorem Accounted_runCalls (p q : AcceptorPool) (calls : List Call) (hp : Accounted p)
    (hopen : initWhileOpen p calls = true) (h : runCalls p calls = some q) :
    Accounted q ∧ (lastIsShutdown calls = true → q.closing_ = true) := by
  induction calls generalizing p with
  | nil =>
    simp only [runCalls] at h
    injection h with h
    subst h
    exact ⟨hp, fun hl => by simp [lastIsShutdown] at hl⟩
  | cons c cs ih =>
    simp only [runCalls] at h
    cases hc : c.run p with
    | none => simp [hc] at h
    | some p1 =>
      rw [hc] at h
      obtain ⟨ho1, ho2⟩ := initWhileOpen_cons p p1 c cs hopen hc
      have hp1 := Accounted_run p p1 c hp ho1 hc
      obtain ⟨hq, hlast⟩ := ih p1 hp1 ho2 h
      refine ⟨hq, fun hl => ?_⟩
      cases cs with
      | nil =>
        simp only [runCalls] at h
        injection h with h
        subst h
        cases c with
        | init n env => simp [lastIsShutdown] at hl
        | shutdown env => exact Shutdown_some_closing env p p1 hc
      | cons c2 cs2 =>
        exact hlast (by simpa [lastIsShutdown] using hl)

theorem no_handles_without_successful_Init (p q : AcceptorPool) (calls : List Call)
    (hp : Accounted p) (ht : p.threads_ = [])
    (hopen : initWhileOpen p calls = true) (h : runCalls p calls = some q)
    (hnone : initSucceeded p calls = false) : q.threads_ = [] := by
  induction calls generalizing p with
  | nil =>
    simp only [runCalls] at h
    injection h with h
    subst h
    exact ht
  | cons c cs ih =>
    simp only [runCalls] at h
    cases hc : c.run p with
    | none => simp [hc] at h
    | some p1 =>
      rw [hc] at h
      obtain ⟨ho1, ho2⟩ := initWhileOpen_cons p p1 c cs hopen hc
      have hp1 := Accounted_run p p1 c hp ho1 hc
      cases c with
      | shutdown env =>
        simp only [Call.run] at hc
        simp only [initSucceeded, hc] at hnone
        have hcl := Shutdown_some_closing env p p1 hc
        exact ih p1 hp1 (hp1.2 hcl).1 ho2 h hnone
      | init n env =>
        have hpc : p.closing_ = false := by
          simp only [initWhileOpen, Bool.and_eq_true, Bool.not_eq_true'] at ho1
          exact ho1.1
        simp only [Call.run, Option.map_eq_some'] at hc
        obtain ⟨⟨q1, s⟩, hi, rfl⟩ := hc
        simp only [initSucceeded, hi, Bool.or_eq_false_iff] at hnone
        have hcl := (Accounted_Init env n p q1 s hp hpc hi).2 hnone.1
        exact ih q1 hp1 (hp1.2 hcl).1 ho2 h hnone.2

/-! ## C7: when the handle collection is empty -/

/-- C7, as stated, fails: on a freshly constructed pool, `Shutdown`, `Init(1)`,
`Shutdown` ends with a `Shutdown` and leaves one handle in the collection; and
`Shutdown` followed by an `Init(2)` whose second creation fails leaves one
handle although no `Init` has succeeded. -/
theorem handles_left_after_reinit_counterexample :
    AcceptorPool.construct ⟨some ⟨0⟩⟩ ⟨5⟩ ⟨0, 7050⟩ = some (samplePool [] false) ∧
    lastIsShutdown reinitAfterShutdown = true ∧
    (runCalls (samplePool [] false) reinitAfterShutdown).map (fun q => q.threads_) =
      some [⟨1⟩] ∧
    initSucceeded (samplePool [] false) failedReinitAfterShutdown = false ∧
    (runCalls (samplePool [] false) failedReinitAfterShutdown).map (fun q => q.threads_) =
      some [⟨1⟩] := by
  decide

/-- C7, amended: for every sequence of `Init` and `Shutdown` calls on a freshly
constructed pool in which every `Init` finds the closing flag unset (no `Init`
after a `Shutdown` or after a failed `Init`), the handle collection is empty
whenever the last call is a `Shutdown` or no `Init` has returned OK. -/
theorem handles_empty_outside_running_window (messenger : Messenger) (socket : Socket)
    (bind_address : Sockaddr) (p q : AcceptorPool) (calls : List Call)
    (hp : AcceptorPool.construct messenger socket bind_address = some p)
    (hopen : initWhileOpen p calls = true)
    (hrun : runCalls p calls = some q)
    (h : lastIsShutdown calls = true ∨ initSucceeded p calls = false) :
    q.threads_ = [] := by
  obtain ⟨hc, ht, htr, _⟩ := construct_some messenger socket bind_address p hp
  have hacc := Accounted_of_fresh p hc ht htr
  rcases h with h | h
  · obtain ⟨hq, hlast⟩ := Accounted_runCalls p q calls hacc hopen hrun
    exact (hq.2 (hlast h)).1
  · exact no_handles_without_successful_Init p q calls hacc ht hopen hrun h

/-- Instance of the amended C7: `Init(2)`, `Shutdown`, `Shutdown`. -/
theorem handles_empty_outside_running_window_witness :
    (AcceptorPool.construct ⟨some ⟨0⟩⟩ ⟨5⟩ ⟨0, 7050⟩ = some (samplePool [] false) ∧
      initWhileOpen (samplePool [] false) initThenShutdownTwice = true ∧
      runCalls (samplePool [] false) initThenShutdownTwice = some
        { sampleDestroyed with trace := sampleDestroyed.trace ++ noopEvents ⟨0, 7050⟩ } ∧
      (lastIsShutdown initThenShutdownTwice = true ∨
        initSucceeded (samplePool [] false) initThenShutdownTwice = false)) ∧
    ({ sampleDestroyed with trace := sampleDestroyed.trace ++ noopEvents ⟨0, 7050⟩ } :
      AcceptorPool).threads_ = [] :=
  ⟨⟨by decide, by decide, by decide, Or.inl (by decide)⟩,
    handles_empty_outside_running_window ⟨some ⟨0⟩⟩ ⟨5⟩ ⟨0, 7050⟩ (samplePool [] false) _
      initThenShutdownTwice (by decide) (by decide) (by decide) (Or.inl (by decide))⟩

/-! ## C8: what the destructor joins -/

/-- C8, as stated, fails: on a freshly constructed pool, an `Init(1)` whose
creation fails followed by an `Init(1)` whose creation gives OK starts worker 1;
the destructor then finds the flag set and returns without joining it. -/
theorem destroy_leaves_worker_unjoined_counterexample :
    AcceptorPool.construct ⟨some ⟨0⟩⟩ ⟨5⟩ ⟨0, 7050⟩ = some (samplePool [] false) ∧
    onlyInit initAfterFailedInit = true ∧
    ((runCalls (samplePool [] false) initAfterFailedInit).bind
        (AcceptorPool.destroy okShutdown)).map
      (fun r => (started r.trace, joined r.trace, r.threads_)) =
      some ([⟨1⟩], [], [⟨1⟩]) := by
  decide

/-- C8, amended: for every sequence of `Init` calls on a freshly constructed
pool in which no `Init` follows a failed `Init` (every `Init` finds the closing
flag unset), when the destructor returns, `Join` has been called on the handle
of every started worker, one call each in creation order, and the handle
collection is empty. -/
theorem destroy_joins_started_workers (messenger : Messenger) (socket : Socket)
    (bind_address : Sockaddr) (p q r : AcceptorPool) (calls : List Call) (env : ShutdownEnv)
    (hp : AcceptorPool.construct messenger socket bind_address = some p)
    (_honly : onlyInit calls = true)
    (hopen : initWhileOpen p calls = true)
    (hrun : runCalls p calls = some q)
    (hd : AcceptorPool.destroy env q = some r) :
    joined r.trace = started r.trace ∧ (∀ t, t ∈ started r.trace → t ∈ joined r.trace) ∧
    r.threads_ = [] := by
  obtain ⟨hc, ht, htr, _⟩ := construct_some messenger socket bind_address p hp
  have hacc := Accounted_of_fresh p hc ht htr
  have hq := (Accounted_runCalls p q calls hacc hopen hrun).1
  obtain ⟨hr, hcl⟩ := Accounted_Shutdown env q r hq hd
  obtain ⟨h1, h2⟩ := hr.2 hcl
  exact ⟨h2, fun t ht => h2 ▸ ht, h1⟩

/-- Instance of the amended C8: `Init(2)`, then destruction. -/
theorem destroy_joins_started_workers_witness :
    (AcceptorPool.construct ⟨some ⟨0⟩⟩ ⟨5⟩ ⟨0, 7050⟩ = some (samplePool [] false) ∧
      onlyInit [Call.init 2 okInit] = true ∧
      initWhileOpen (samplePool [] false) [Call.init 2 okInit] = true ∧
      runCalls (samplePool [] false) [Call.init 2 okInit] = some sampleRunning ∧
      AcceptorPool.destroy okShutdown sampleRunning = some sampleDestroyed) ∧
    (joined sampleDestroyed.trace = started sampleDestroyed.trace ∧
      (∀ t, t ∈ started sampleDestroyed.trace → t ∈ joined sampleDestroyed.trace) ∧
      sampleDestroyed.threads_ = []) :=
  ⟨⟨by decide, by decide, by decide, by decide, by decide⟩,
    destroy_joins_started_workers ⟨some ⟨0⟩⟩ ⟨5⟩ ⟨0, 7050⟩ (samplePool [] false) sampleRunning
      sampleDestroyed [Call.init 2 okInit] okShutdown (by decide) (by decide) (by decide)
      (by decide) (by decide)⟩

/-! ### One teardown among concurrent callers -/

theorem step_worker_frame (sys next : System) (t : Thread) (r : AcceptResult)
    (h : sys.step (Action.Worker t r) = some next) :
    next.callers = sys.callers ∧ next.pool.closing_ = sys.pool.closing_ ∧
    next.pool.threads_ = sys.pool.threads_ ∧
    socketShutdowns next.pool.trace = socketShutdowns sys.pool.trace ∧
    joined next.pool.trace = joined sys.pool.trace ∧
    teardownsBegun next.pool.trace = teardownsBegun sys.pool.trace ∧
    (∀ u, u ∈ sys.exited → u ∈ next.exited) := by
  by_cases ht : t ∈ sys.exited
  · rw [step_worker_exited sys t r ht] at h
    injection h with h
    subst h
    exact ⟨rfl, rfl, rfl, rfl, rfl, rfl, fun _ hu => hu⟩
  · rw [step_worker_running sys t r ht] at h
    injection h with h
    subst h
    cases ha : r.accept.ok <;> cases hc : sys.pool.closing_ <;> cases hn : r.set_no_delay.ok <;>
      simp [RunThread.iteration, RunThread.afterLoop, ha, hc, hn, Release_Load,
        socketShutdowns, joined, teardownsBegun] <;>
      intro u hu <;> exact Or.inr hu

theorem TeardownAt_congr (p0 : AcceptorPool) (sys next : System) (w : Nat)
    (hw : next.callers w = sys.callers w)
    (hthreads : next.pool.threads_ = sys.pool.threads_)
    (hss : socketShutdowns next.pool.trace = socketShutdowns sys.pool.trace)
    (hj : joined next.pool.trace = joined sys.pool.trace)
    (hex : ∀ u, u ∈ sys.exited → u ∈ next.exited)
    (h : TeardownAt p0 sys w) : TeardownAt p0 next w := by
  unfold TeardownAt at h ⊢
  rw [hw, hthreads, hss, hj]
  rcases h with h | ⟨i, h1, h2, h3, h4, h5, h6⟩ | ⟨h1, h2, h3, h4, h5⟩
  · exact Or.inl h
  · exact Or.inr (Or.inl ⟨i, h1, h2, h3, h4, h5, fun t ht => hex t (h6 t ht)⟩)
  · exact Or.inr (Or.inr ⟨h1, h2, h3, h4, fun t ht => hex t (h5 t ht)⟩)

theorem SingleTeardown_step_worker (p0 : AcceptorPool) (sys next : System) (t : Thread)
    (r : AcceptResult) (hinv : SingleTeardown p0 sys)
    (h : sys.step (Action.Worker t r) = some next) : SingleTeardown p0 next := by
  obtain ⟨hcallers, hclosing, hthreads, hss, hj, htb, hex⟩ := step_worker_frame sys next t r h
  unfold SingleTeardown at hinv ⊢
  rw [hcallers, hclosing, hthreads, hss, hj, htb]
  rcases hinv with hA | ⟨h1, h2, w, h3, h4⟩
  · exact Or.inl hA
  · exact Or.inr ⟨h1, h2, w, h3,
      TeardownAt_congr p0 sys next w (by rw [hcallers]) hthreads hss hj hex h4⟩

theorem TeardownAt_performs (p0 : AcceptorPool) (sys : System) (w : Nat)
    (h : TeardownAt p0 sys w) : (sys.callers w).performsTeardown = true := by
  rcases h with ⟨h, _⟩ | ⟨i, h, _⟩ | ⟨h, _⟩ <;> rw [h] <;> rfl

theorem SingleTeardown_step_caller (p0 : AcceptorPool) (sys next : System) (c : Nat)
    (s : Status) (hinv : SingleTeardown p0 sys)
    (h : sys.step (Action.Caller c s) = some next) : SingleTeardown p0 next := by
  simp only [System.step] at h
  cases hpc : sys.callers c with
  | Start =>
    rw [hpc] at h
    rcases hinv with ⟨hc, hall, hth, hss, hj, htb⟩ | ⟨hc, htb, w, hothers, hT⟩
    · -- this caller wins the compare-and-swap
      simp [Acquire_CompareAndSwap, hc] at h
      subst h
      refine Or.inr ⟨rfl, by rw [← htb]; simp [teardownsBegun], c, ?_, Or.inl ⟨?_, hth, ?_, ?_⟩⟩
      · intro d hd
        simp [Function.update_noteq hd, hall d, ShutdownPC.performsTeardown]
      · simp
      · rw [← hss]
        simp [socketShutdowns]
      · rw [← hj]
        simp [joined]
    · -- this caller loses it
      have hcw : c ≠ w := by
        intro hcw
        have := TeardownAt_performs p0 sys w hT
        rw [← hcw, hpc] at this
        cases this
      simp [Acquire_CompareAndSwap, hc, Shutdown.alreadyShutDown] at h
      subst h
      refine Or.inr ⟨by simp [hc], by rw [← htb]; simp [teardownsBegun], w, ?_, ?_⟩
      · intro d hd
        by_cases hdc : d = c
        · subst hdc
          simp [ShutdownPC.performsTeardown]
        · simpa [Function.update_noteq hdc] using hothers d hd
      · refine TeardownAt_congr p0 sys _ w ?_ ?_ ?_ ?_ (fun _ hu => hu) hT
        · simp [Function.update_noteq (Ne.symm hcw)]
        · simp
        · simp [socketShutdowns]
        · simp [joined]
  | SocketShutdown =>
    rw [hpc] at h
    injection h with h
    subst h
    rcases hinv with ⟨_, hall, _⟩ | ⟨hc, htb, w, hothers, hT⟩
    · rw [hall c] at hpc
      cases hpc
    · have hcw : c = w := by
        by_contra hne
        have := hothers c hne
        rw [hpc] at this
        cases this
      subst hcw
      rcases hT with ⟨_, hth, hss, hj⟩ | ⟨i, hi, _⟩ | ⟨hr, _⟩
      · refine Or.inr ⟨by simpa [socketShutdown_eq] using hc, ?_, c, ?_, Or.inr (Or.inl ⟨0, ?_⟩)⟩
        · rw [socketShutdown_eq, ← htb]
          by_cases hs : s.ok = true <;> simp [hs, teardownsBegun]
        · intro d hd
          simpa [Function.update_noteq hd] using hothers d hd
        · refine ⟨by simp, Nat.zero_le _, by simpa [socketShutdown_eq] using hth, ?_, ?_, ?_⟩
          · rw [socketShutdown_eq, ← hss]
            by_cases hs : s.ok = true <;> simp [hs, socketShutdowns]
          · rw [socketShutdown_eq, ← hj]
            by_cases hs : s.ok = true <;> simp [hs, joined]
          · intro t ht
            simp at ht
      · rw [hpc] at hi
        cases hi
      · rw [hpc] at hr
        cases hr
  | Joining i =>
    rw [hpc] at h
    dsimp only at h
    rcases hinv with ⟨_, hall, _⟩ | ⟨hc, htb, w, hothers, hT⟩
    · rw [hall c] at hpc
      cases hpc
    · have hcw : c = w := by
        by_contra hne
        have := hothers c hne
        rw [hpc] at this
        cases this
      subst hcw
      rcases hT with ⟨hr, _⟩ | ⟨i2, hi, hle, hth, hss, hj, hex⟩ | ⟨hr, _⟩
      · rw [hpc] at hr
        cases hr
      · rw [hpc] at hi
        injection hi with hi
        subst hi
        cases hget : sys.pool.threads_[i]? with
        | none =>
          rw [hget] at h
          injection h with h
          subst h
          have hlen : i = p0.threads_.length := by
            have := List.getElem?_eq_none_iff.1 hget
            rw [hth] at this
            omega
          refine Or.inr ⟨hc, htb, c, ?_, Or.inr (Or.inr ⟨by simp, rfl, hss, ?_, ?_⟩)⟩
          · intro d hd
            simpa [Function.update_noteq hd] using hothers d hd
          · simpa [hlen] using hj
          · simpa [hlen] using hex
        | some thread =>
          rw [hget] at h
          by_cases hexited : thread ∈ sys.exited
          · by_cases hs : s.ok = true
            · simp only [hexited, hs, ↓reduceIte] at h
              injection h with h
              subst h
              have hlt : i < p0.threads_.length := by
                have := (List.getElem?_eq_some_iff.1 hget).1
                rwa [hth] at this
              have htake : p0.threads_.take (i + 1) = p0.threads_.take i ++ [thread] := by
                rw [List.take_succ, ← hth, hget]
                rfl
              refine Or.inr ⟨hc, by rw [← htb]; simp [teardownsBegun], c, ?_,
                Or.inr (Or.inl ⟨i + 1, by simp, hlt, hth, ?_, ?_, ?_⟩)⟩
              · intro d hd
                simpa [Function.update_noteq hd] using hothers d hd
              · rw [← hss]
                simp [socketShutdowns]
              · rw [htake, ← List.append_assoc, ← hj]
                simp [joined]
              · intro t ht
                rw [htake] at ht
                rcases List.mem_append.1 ht with ht | ht
                · exact hex t ht
                · simp at ht
                  subst ht
                  exact hexited
            · simp [hexited, hs] at h
          · simp only [hexited, ↓reduceIte] at h
            injection h with h
            subst h
            exact Or.inr ⟨hc, htb, c, hothers, Or.inr (Or.inl ⟨i, hpc, hle, hth, hss, hj, hex⟩)⟩
      · rw [hpc] at hr
        cases hr
  | Returned b =>
    rw [hpc] at h
    injection h with h
    subst h
    exact hinv

theorem SingleTeardown_run (p0 : AcceptorPool) (sys sys' : System) (acts : List Action)
    (hinv : SingleTeardown p0 sys) (hrun : sys.run acts = some sys') :
    SingleTeardown p0 sys' := by
  induction acts generalizing sys with
  | nil =>
    simp only [System.run] at hrun
    injection hrun with hrun
    subst hrun
    exact hinv
  | cons a as ih =>
    rw [run_cons] at hrun
    cases hs : sys.step a with
    | none => simp [hs] at hrun
    | some next =>
      rw [hs] at hrun
      cases a with
      | Worker t r => exact ih next (SingleTeardown_step_worker p0 sys next t r hinv hs) hrun
      | Caller c s => exact ih next (SingleTeardown_step_caller p0 sys next c s hinv hs) hrun

/-! ### The steps of one caller make up `Shutdown` -/

theorem run_join_loop (sys : System) (c : Nat) (join : Thread → Status) (s0 : Status)
    (pre rest : List Thread)
    (hth : sys.pool.threads_ = pre ++ rest)
    (hpc : sys.callers c = ShutdownPC.Joining pre.length)
    (hex : ∀ t, t ∈ rest → t ∈ sys.exited) :
    (sys.run ((rest.map fun t => Action.Caller c (join t)) ++ [Action.Caller c s0])).map
        (fun next => next.pool) =
      (joinAll join sys.pool rest).map fun p => { p with threads_ := [] } := by
  induction rest generalizing sys pre with
  | nil =>
    have hget : sys.pool.threads_[pre.length]? = none := by
      rw [hth]
      simp
    simp [System.run, System.step, hpc, hget, joinAll]
  | cons t rest ih =>
    have hget : sys.pool.threads_[pre.length]? = some t := by
      rw [hth, List.getElem?_append_right (Nat.le_refl _)]
      simp
    have ht : t ∈ sys.exited := hex t (List.mem_cons_self _ _)
    rw [List.map_cons, List.cons_append, run_cons]
    by_cases hok : (join t).ok = true
    · have hstep : sys.step (Action.Caller c (join t)) = some
          { sys with pool := sys.pool.emit (Event.Join t (join t)),
                     callers := Function.update sys.callers c
                       (ShutdownPC.Joining (pre.length + 1)) } := by
        simp [System.step, hpc, hget, ht, hok]
      rw [hstep]
      simp only [Option.some_bind, joinAll, hok, ↓reduceIte]
      refine ih _ (pre ++ [t]) ?_ ?_ ?_
      · simp [hth]
      · simp
      · intro u hu
        exact hex u (List.mem_cons_of_mem _ hu)
    · have hstep : sys.step (Action.Caller c (join t)) = none := by
        simp [System.step, hpc, hget, ht, hok]
      rw [hstep]
      simp [joinAll, hok]

/-- A caller that runs `Shutdown` on its own, the workers having all returned,
leaves the pool as the method `Shutdown` does, and aborts when it does. -/
theorem run_callerAlone (sys : System) (c : Nat) (env : ShutdownEnv)
    (hstart : sys.callers c = ShutdownPC.Start) (hopen : sys.pool.closing_ = false)
    (hex : ∀ t, t ∈ sys.pool.threads_ → t ∈ sys.exited) :
    (sys.run (callerAlone c env sys.pool.threads_)).map (fun next => next.pool) =
      Shutdown env sys.pool := by
  unfold callerAlone
  rw [List.append_assoc, List.cons_append, List.cons_append, List.nil_append, run_cons]
  have h1 : sys.step (Action.Caller c Status.OK) = some
      { sys with pool := ({ sys.pool with closing_ := true }).emit (Event.CompareAndSwap false),
                 callers := Function.update sys.callers c ShutdownPC.SocketShutdown } := by
    simp [System.step, hstart, Acquire_CompareAndSwap, hopen]
  rw [h1, Option.some_bind, run_cons]
  have h2 : System.step
      { sys with pool := ({ sys.pool with closing_ := true }).emit (Event.CompareAndSwap false),
                 callers := Function.update sys.callers c ShutdownPC.SocketShutdown }
      (Action.Caller c env.socket_shutdown) = some
      { sys with pool := Shutdown.socketShutdown env.socket_shutdown
                   (({ sys.pool with closing_ := true }).emit (Event.CompareAndSwap false)),
                 callers := Function.update sys.callers c (ShutdownPC.Joining 0) } := by
    simp [System.step]
  rw [h2, Option.some_bind]
  have h3 := run_join_loop
    { sys with pool := Shutdown.socketShutdown env.socket_shutdown
                 (({ sys.pool with closing_ := true }).emit (Event.CompareAndSwap false)),
               callers := Function.update sys.callers c (ShutdownPC.Joining 0) }
    c env.join Status.OK [] sys.pool.threads_ (by simp [socketShutdown_eq]) (by simp) hex
  rw [h3]
  simp only [Shutdown, Acquire_CompareAndSwap, hopen]
  simp only [bne_self_eq_false, Bool.false_eq_true, ↓reduceIte]
  have hthreads : (Shutdown.socketShutdown env.socket_shutdown
      (({ sys.pool with closing_ := true }).emit (Event.CompareAndSwap false))).threads_ =
      sys.pool.threads_ := by simp [socketShutdown_eq]
  rw [hthreads]
  cases joinAll env.join (Shutdown.socketShutdown env.socket_shutdown
      (({ sys.pool with closing_ := true }).emit (Event.CompareAndSwap false))) sys.pool.threads_ <;>
    rfl

/-! ## C9: `Shutdown` called from several threads -/

/-- C10: for every worker count `num_threads >= 0`, on a freshly constructed
pool where every creation gives OK, `Init(num_threads)` returns OK having
called `Thread::Create` `num_threads` times and holding the `num_threads`
handles, with `Init(0)` returning OK and leaving the pool as it was; a
`Shutdown` that follows (its `Join` calls giving OK) returns, has called `Join`
on those handles, one call each, and leaves no handle. -/
theorem Init_then_Shutdown_joins_all (messenger : Messenger) (socket : Socket)
    (bind_address : Sockaddr) (p : AcceptorPool) (env : InitEnv) (senv : ShutdownEnv)
    (num_threads : Int)
    (hp : AcceptorPool.construct messenger socket bind_address = some p)
    (hn : 0 ≤ num_threads)
    (hok : ∀ j, j < num_threads.toNat → (env.create j).s.ok = true)
    (hjoin : ∀ j, j < num_threads.toNat → (senv.join (env.create j).new_thread).ok = true) :
    ∃ q r, Init env num_threads p = some (q, Status.OK) ∧
      q.threads_ = createdHandles env 0 num_threads.toNat ∧
      ((q.threads_.length : Int) = num_threads) ∧
      creations q.trace = num_threads.toNat ∧
      started q.trace = q.threads_ ∧
      joined q.trace = [] ∧
      q.closing_ = false ∧
      (num_threads = 0 → q = p) ∧
      Shutdown senv q = some r ∧
      joined r.trace = createdHandles env 0 num_threads.toNat ∧
      joined r.trace = started r.trace ∧
      r.threads_ = [] ∧ r.closing_ = true := by
  obtain ⟨hc, ht, htr, hb⟩ := construct_some messenger socket bind_address p hp
  have hok0 : ∀ j, j < num_threads.toNat → (env.create (0 + j)).s.ok = true := by simpa using hok
  have hloop := Init_loop_ok env num_threads.toNat p 0 hok0
  have hsd := Shutdown_open_of_ok senv
    { p with threads_ := p.threads_ ++ createdHandles env 0 num_threads.toNat,
             trace := p.trace ++ createEvents env 0 num_threads.toNat } hc
    (by
      intro t hmem
      simp only [ht, List.nil_append, createdHandles, List.mem_map, List.mem_range'_1] at hmem
      obtain ⟨j, ⟨_, hj⟩, rfl⟩ := hmem
      exact hjoin j (by omega))
  refine ⟨_, _, hloop, ?_, ?_, ?_, ?_, ?_, hc, ?_, hsd, ?_, ?_, rfl, rfl⟩
  · simp [ht]
  · simp [ht, createdHandles_length, Int.toNat_of_nonneg hn]
  · simp [htr]
  · simp [htr, ht, started_createEvents_ok env 0 _ hok0]
  · simp [htr]
  · intro h0
    subst h0
    cases p
    simp [createdHandles, createEvents]
  · simp [htr, ht]
  · simp [htr, ht, started_createEvents_ok env 0 _ hok0]

/-- Instance of C10: `Init(3)` then `Shutdown`. -/
theorem Init_then_Shutdown_joins_all_witness :
    (AcceptorPool.construct ⟨some ⟨0⟩⟩ ⟨5⟩ ⟨0, 7050⟩ = some (samplePool [] false) ∧
      (0 : Int) ≤ 3 ∧
      (∀ j, j < (3 : Int).toNat → (okInit.create j).s.ok = true) ∧
      (∀ j, j < (3 : Int).toNat → (okShutdown.join (okInit.create j).new_thread).ok = true)) ∧
    ∃ q r, Init okInit 3 (samplePool [] false) = some (q, Status.OK) ∧
      q.threads_ = createdHandles okInit 0 (3 : Int).toNat ∧
      ((q.threads_.length : Int) = 3) ∧
      creations q.trace = (3 : Int).toNat ∧
      started q.trace = q.threads_ ∧
      joined q.trace = [] ∧
      q.closing_ = false ∧
      ((3 : Int) = 0 → q = samplePool [] false) ∧
      Shutdown okShutdown q = some r ∧
      joined r.trace = createdHandles okInit 0 (3 : Int).toNat ∧
      joined r.trace = started r.trace ∧
      r.threads_ = [] ∧ r.closing_ = true :=
  ⟨⟨by decide, by decide, by decide, by decide⟩,
    Init_then_Shutdown_joins_all ⟨some ⟨0⟩⟩ ⟨5⟩ ⟨0, 7050⟩ (samplePool [] false) okInit okShutdown 3
      (by decide) (by decide) (by decide) (by decide)⟩

/-! ### What the operations leave alone -/

theorem iteration_frame (p : AcceptorPool) (r : AcceptResult) :
    (RunThread.iteration p r).1.bind_address_ = p.bind_address_ ∧
    (RunThread.iteration p r).1.closing_ = p.closing_ ∧
    (RunThread.iteration p r).1.threads_ = p.threads_ ∧
    (RunThread.iteration p r).1.socket_ = p.socket_ ∧
    teardownsBegun (RunThread.iteration p r).1.trace = teardownsBegun p.trace := by
  cases ha : r.accept.ok <;> cases hc : p.closing_ <;> cases hn : r.set_no_delay.ok <;>
    simp [RunThread.iteration, ha, hc, hn, Release_Load, teardownsBegun]

theorem Shutdown_frame (env : ShutdownEnv) (p q : AcceptorPool) (h : Shutdown env p = some q) :
    q.bind_address_ = p.bind_address_ ∧ q.socket_ = p.socket_ ∧
    q.rpc_connections_accepted_ = p.rpc_connections_accepted_ ∧
    teardownsBegun q.trace = teardownsBegun p.trace + (if p.closing_ then 0 else 1) := by
  cases hc : p.closing_ with
  | true =>
    rw [Shutdown_closing env p hc] at h
    injection h with h
    subst h
    simp
  | false =>
    rw [(Shutdown_open_some env p q hc h).1]
    simp

theorem Init_frame (env : InitEnv) (num_threads : Int) (p q : AcceptorPool) (s : Status)
    (h : Init env num_threads p = some (q, s)) :
    q.bind_address_ = p.bind_address_ ∧ q.socket_ = p.socket_ ∧
    q.rpc_connections_accepted_ = p.rpc_connections_accepted_ ∧
    (s.ok = true → q.closing_ = p.closing_ ∧ teardownsBegun q.trace = teardownsBegun p.trace) ∧
    (s.ok = false → q.closing_ = true ∧
      teardownsBegun q.trace = teardownsBegun p.trace + (if p.closing_ then 0 else 1)) := by
  rcases Init_cases env num_threads p q s h with ⟨hs, _, hq⟩ | ⟨k, _, _, hfail, hs, hsd⟩
  · subst hs
    subst hq
    refine ⟨rfl, rfl, rfl, fun _ => ⟨rfl, by simp⟩, fun hf => ?_⟩
    simp [Status.ok] at hf
  · obtain ⟨h1, h2, h3, h4⟩ := Shutdown_frame env.rollback _ q hsd
    have hcl := Shutdown_some_closing env.rollback _ q hsd
    have hnot : s.ok = false := by
      rw [hs]
      simpa using hfail
    refine ⟨h1, h2, h3, fun ht => ?_, fun _ => ⟨hcl, ?_⟩⟩
    · rw [hnot] at ht
      cases ht
    · rw [h4]
      simp

theorem Op_run_frame (p q : AcceptorPool) (op : Op) (h : op.run p = some q) :
    q.bind_address_ = p.bind_address_ ∧ q.socket_ = p.socket_ := by
  cases op with
  | lifecycle c =>
    cases c with
    | shutdown env =>
      obtain ⟨h1, h2, _⟩ := Shutdown_frame env p q h
      exact ⟨h1, h2⟩
    | init n env =>
      simp only [Op.run, Call.run, Option.map_eq_some'] at h
      obtain ⟨⟨q1, s⟩, h, rfl⟩ := h
      obtain ⟨h1, h2, _⟩ := Init_frame env n p q1 s h
      exact ⟨h1, h2⟩
  | getBoundAddress s a =>
    simp only [Op.run, GetBoundAddress, Option.some.injEq] at h
    subst h
    exact ⟨rfl, rfl⟩
  | iteration r =>
    obtain ⟨h1, _, _, h4, _⟩ := iteration_frame p r
    simp only [Op.run] at h
    rcases hit : RunThread.iteration p r with ⟨q1, b⟩
    rw [hit] at h h1 h4
    cases b <;> simp only [Option.some.injEq] at h <;> subst h
    · exact ⟨h1, h4⟩
    · exact ⟨h1, h4⟩

theorem runOps_frame (p q : AcceptorPool) (ops : List Op) (h : runOps p ops = some q) :
    q.bind_address_ = p.bind_address_ ∧ q.socket_ = p.socket_ := by
  induction ops generalizing p with
  | nil =>
    simp only [runOps, Option.some.injEq] at h
    subst h
    exact ⟨rfl, rfl⟩
  | cons op ops ih =>
    simp only [runOps] at h
    cases hop : op.run p with
    | none => simp [hop] at h
    | some p1 =>
      rw [hop] at h
      obtain ⟨h1, h2⟩ := Op_run_frame p p1 op hop
      obtain ⟨h3, h4⟩ := ih p1 h
      exact ⟨h3.trans h1, h4.trans h2⟩

theorem step_bind_address (sys next : System) (a : Action) (h : sys.step a = some next) :
    next.pool.bind_address_ = sys.pool.bind_address_ := by
  cases a with
  | Worker t r =>
    by_cases ht : t ∈ sys.exited
    · rw [step_worker_exited sys t r ht] at h
      injection h with h
      subst h
      rfl
    · rw [step_worker_running sys t r ht] at h
      injection h with h
      subst h
      have := (iteration_frame sys.pool r).1
      by_cases hb : (RunThread.iteration sys.pool r).2 = true
      · simpa [hb, RunThread.afterLoop] using this
      · simpa [hb] using this
  | Caller c s =>
    simp only [System.step] at h
    split at h
    · cases hc : sys.pool.closing_ <;>
        simp [Acquire_CompareAndSwap, hc, Shutdown.alreadyShutDown] at h <;> subst h <;> rfl
    · injection h with h
      subst h
      simp [socketShutdown_eq]
    · split at h
      · injection h with h
        subst h
        rfl
      · split at h
        · split at h
          · injection h with h
            subst h
            rfl
          · cases h
        · injection h with h
          subst h
          rfl
    · injection h with h
      subst h
      rfl

theorem run_bind_address (sys sys' : System) (acts : List Action)
    (h : sys.run acts = some sys') : sys'.pool.bind_address_ = sys.pool.bind_address_ := by
  induction acts generalizing sys with
  | nil =>
    simp only [System.run, Option.some.injEq] at h
    subst h
    rfl
  | cons a as ih =>
    rw [run_cons] at h
    cases hs : sys.step a with
    | none => simp [hs] at h
    | some next =>
      rw [hs] at h
      exact (ih next h).trans (step_bind_address sys next a hs)

/-! ## C11: `bind_address()` returns the constructor's argument -/

/-- C11: after every sequence of `Init`, `Shutdown`, `GetBoundAddress` calls and
worker iterations on a constructed pool, `bind_address()` returns the address
given to the constructor, whatever addresses the socket queries reported; the
same holds along every schedule of worker iterations and `Shutdown` steps
running side by side. -/
theorem bind_address_is_constructor_argument (messenger : Messenger) (socket : Socket)
    (bind_address : Sockaddr) (p q : AcceptorPool) (ops : List Op)
    (hp : AcceptorPool.construct messenger socket bind_address = some p)
    (hrun : runOps p ops = some q) :
    p.bind_address = bind_address ∧ q.bind_address = bind_address ∧
    (∀ (s : Status) (a : Sockaddr),
      (GetBoundAddress s a q).2.2 = a ∧ (GetBoundAddress s a q).1.bind_address = bind_address) ∧
    (∀ (sys sys' : System) (acts : List Action), sys.pool = q → sys.run acts = some sys' →
      sys'.pool.bind_address = bind_address) := by
  obtain ⟨_, _, _, hb⟩ := construct_some messenger socket bind_address p hp
  have hq : q.bind_address_ = bind_address := (runOps_frame p q ops hrun).1.trans hb
  refine ⟨hb, hq, fun s a => ⟨rfl, hq⟩, ?_⟩
  intro sys sys' acts hsys hacts
  subst hsys
  exact (run_bind_address sys sys' acts hacts).trans hq

/-- Instance of C11: the sample operations on the freshly constructed sample pool. -/
theorem bind_address_is_constructor_argument_witness :
    (AcceptorPool.construct ⟨some ⟨0⟩⟩ ⟨5⟩ ⟨0, 7050⟩ = some (samplePool [] false) ∧
      runOps (samplePool [] false) sampleOps = some sampleAfterOps) ∧
    ((samplePool [] false).bind_address = ⟨0, 7050⟩ ∧
      sampleAfterOps.bind_address = ⟨0, 7050⟩ ∧
      (∀ (s : Status) (a : Sockaddr),
        (GetBoundAddress s a sampleAfterOps).2.2 = a ∧
        (GetBoundAddress s a sampleAfterOps).1.bind_address = ⟨0, 7050⟩) ∧
      (∀ (sys sys' : System) (acts : List Action), sys.pool = sampleAfterOps →
        sys.run acts = some sys' → sys'.pool.bind_address = ⟨0, 7050⟩)) :=
  ⟨⟨by decide, by decide⟩,
    bind_address_is_constructor_argument ⟨some ⟨0⟩⟩ ⟨5⟩ ⟨0, 7050⟩ (samplePool [] false)
      sampleAfterOps sampleOps (by decide) (by decide)⟩

/-! ### The closing flag along the operations -/

theorem Op_run_closing (a b : AcceptorPool) (op : Op) (h : op.run a = some b) :
    (a.closing_ = true → b.closing_ = true ∧ teardownsBegun b.trace = teardownsBegun a.trace) ∧
    (a.closing_ = false →
      (b.closing_ = false ∧ teardownsBegun b.trace = teardownsBegun a.trace) ∨
      (b.closing_ = true ∧ teardownsBegun b.trace = teardownsBegun a.trace + 1 ∧
        ∃ c, op = Op.lifecycle c)) := by
  cases op with
  | lifecycle c =>
    cases c with
    | shutdown env =>
      obtain ⟨_, _, _, htb⟩ := Shutdown_frame env a b h
      have hcl := Shutdown_some_closing env a b h
      refine ⟨fun ha => ⟨hcl, by simpa [ha] using htb⟩, fun ha => Or.inr ⟨hcl, ?_, _, rfl⟩⟩
      simpa [ha] using htb
    | init n env =>
      simp only [Op.run, Call.run, Option.map_eq_some'] at h
      obtain ⟨⟨q1, s⟩, h, rfl⟩ := h
      obtain ⟨_, _, _, hok, hfail⟩ := Init_frame env n a q1 s h
      cases hs : s.ok with
      | true =>
        obtain ⟨h1, h2⟩ := hok hs
        exact ⟨fun ha => ⟨h1.trans ha, h2⟩, fun ha => Or.inl ⟨h1.trans ha, h2⟩⟩
      | false =>
        obtain ⟨h1, h2⟩ := hfail hs
        refine ⟨fun ha => ⟨h1, by simpa [ha] using h2⟩, fun ha => Or.inr ⟨h1, ?_, _, rfl⟩⟩
        simpa [ha] using h2
  | getBoundAddress s x =>
    simp only [Op.run, GetBoundAddress, Option.some.injEq] at h
    subst h
    have htb : teardownsBegun (a.emit (Event.GetSocketAddress s x)).trace =
        teardownsBegun a.trace := by simp [teardownsBegun]
    exact ⟨fun ha => ⟨ha, htb⟩, fun ha => Or.inl ⟨ha, htb⟩⟩
  | iteration r =>
    obtain ⟨_, h2, _, _, h5⟩ := iteration_frame a r
    simp only [Op.run] at h
    rcases hit : RunThread.iteration a r with ⟨q1, x⟩
    rw [hit] at h h2 h5
    have hb : b.closing_ = a.closing_ ∧ teardownsBegun b.trace = teardownsBegun a.trace := by
      cases x <;> simp only [Option.some.injEq] at h <;> subst h
      · exact ⟨h2, h5⟩
      · exact ⟨h2, by simpa [RunThread.afterLoop, teardownsBegun] using h5⟩
    exact ⟨fun ha => ⟨hb.1.trans ha, hb.2⟩, fun ha => Or.inl ⟨hb.1.trans ha, hb.2⟩⟩

theorem runOps_append (p : AcceptorPool) (pre post : List Op) :
    runOps p (pre ++ post) = (runOps p pre).bind fun mid => runOps mid post := by
  induction pre generalizing p with
  | nil => rfl
  | cons op ops ih =>
    simp only [List.cons_append, runOps]
    cases op.run p with
    | none => rfl
    | some q => exact ih q

theorem runOps_closing (p q : AcceptorPool) (ops : List Op) (h : runOps p ops = some q) :
    (p.closing_ = true → q.closing_ = true) ∧
    (teardownsBegun p.trace = (if p.closing_ then 1 else 0) →
      teardownsBegun q.trace = (if q.closing_ then 1 else 0)) := by
  induction ops generalizing p with
  | nil =>
    simp only [runOps, Option.some.injEq] at h
    subst h
    exact ⟨id, id⟩
  | cons op ops ih =>
    simp only [runOps] at h
    cases hop : op.run p with
    | none => simp [hop] at h
    | some p1 =>
      rw [hop] at h
      obtain ⟨hset, hunset⟩ := Op_run_closing p p1 op hop
      obtain ⟨h1, h2⟩ := ih p1 h
      refine ⟨fun hp => h1 (hset hp).1, fun hk => h2 ?_⟩
      cases hc : p.closing_ with
      | true =>
        obtain ⟨h3, h4⟩ := hset hc
        rw [h4, hk, hc, h3]
      | false =>
        rcases hunset hc with ⟨h3, h4⟩ | ⟨h3, h4, _⟩
        · rw [h4, hk, hc, h3]
        · rw [h4, hk, hc, h3]
          rfl

theorem step_closing (sys next : System) (a : Action) (h : sys.step a = some next)
    (hc : sys.pool.closing_ = true) : next.pool.closing_ = true := by
  cases a with
  | Worker t r => rw [(step_worker_frame sys next t r h).2.1, hc]
  | Caller c s => exact (step_caller_frame sys next c s h).2.2.2.2 hc

theorem run_closing (sys sys' : System) (acts : List Action) (h : sys.run acts = some sys')
    (hc : sys.pool.closing_ = true) : sys'.pool.closing_ = true := by
  induction acts generalizing sys with
  | nil =>
    simp only [System.run, Option.some.injEq] at h
    subst h
    exact hc
  | cons a as ih =>
    rw [run_cons] at h
    cases hs : sys.step a with
    | none => simp [hs] at h
    | some next =>
      rw [hs] at h
      exact ih next h (step_closing sys next a hs hc)

/-! ## C12: the closing flag is set once and never reset -/

/-- C12: the closing flag is false after construction.  Along every sequence of
`Init`, `Shutdown`, `GetBoundAddress` calls and worker iterations, the
compare-and-swap of `Shutdown` has found the flag unset once if the flag is set
and never if it is not; once set the flag stays set, also along every schedule
of threads running side by side; an operation that changes it is a lifecycle
call whose `Shutdown` (called directly, or by `Init` on a failed creation)
found it unset; every `Shutdown` that returns leaves it set; and after the
destructor the flag is set and was found unset exactly once. -/
theorem closing_flag_set_once (messenger : Messenger) (socket : Socket)
    (bind_address : Sockaddr) (p q : AcceptorPool) (ops : List Op)
    (hp : AcceptorPool.construct messenger socket bind_address = some p)
    (hrun : runOps p ops = some q) :
    p.closing_ = false ∧
    teardownsBegun q.trace = (if q.closing_ then 1 else 0) ∧
    (∀ pre post mid, ops = pre ++ post → runOps p pre = some mid →
      mid.closing_ = true → q.closing_ = true) ∧
    (∀ (sys sys' : System) (acts : List Action), sys.run acts = some sys' →
      sys.pool.closing_ = true → sys'.pool.closing_ = true) ∧
    (∀ (a b : AcceptorPool) (op : Op), op.run a = some b →
      (a.closing_ = true → b.closing_ = true) ∧
      (a.closing_ = false → b.closing_ = true →
        (∃ c, op = Op.lifecycle c) ∧
        teardownsBegun b.trace = teardownsBegun a.trace + 1)) ∧
    (∀ (env : ShutdownEnv) (a b : AcceptorPool), Shutdown env a = some b → b.closing_ = true) ∧
    (∀ (env : ShutdownEnv) (r : AcceptorPool), AcceptorPool.destroy env q = some r →
      r.closing_ = true ∧ teardownsBegun r.trace = 1) := by
  obtain ⟨hc, _, htr, _⟩ := construct_some messenger socket bind_address p hp
  have hk0 : teardownsBegun p.trace = (if p.closing_ then 1 else 0) := by
    rw [htr, hc]
    rfl
  have hk := (runOps_closing p q ops hrun).2 hk0
  refine ⟨hc, hk, ?_, ?_, ?_, ?_, ?_⟩
  · intro pre post mid hsplit hpre hmid
    subst hsplit
    rw [runOps_append, hpre] at hrun
    exact (runOps_closing mid q post hrun).1 hmid
  · intro sys sys' acts h hcl
    exact run_closing sys sys' acts h hcl
  · intro a b op h
    obtain ⟨hset, hunset⟩ := Op_run_closing a b op h
    refine ⟨fun ha => (hset ha).1, fun ha hb => ?_⟩
    rcases hunset ha with ⟨h1, _⟩ | ⟨_, h2, h3⟩
    · rw [h1] at hb
      cases hb
    · exact ⟨h3, h2⟩
  · intro env a b h
    exact Shutdown_some_closing env a b h
  · intro env r h
    have hcl := Shutdown_some_closing env q r h
    obtain ⟨_, _, _, htb⟩ := Shutdown_frame env q r h
    refine ⟨hcl, ?_⟩
    rw [htb, hk]
    cases q.closing_ <;> rfl

/-- Instance of C12: the sample operations on the freshly constructed sample pool. -/
theorem closing_flag_set_once_witness :
    (AcceptorPool.construct ⟨some ⟨0⟩⟩ ⟨5⟩ ⟨0, 7050⟩ = some (samplePool [] false) ∧
      runOps (samplePool [] false) sampleOps = some sampleAfterOps) ∧
    ((samplePool [] false).closing_ = false ∧
      teardownsBegun sampleAfterOps.trace = (if sampleAfterOps.closing_ then 1 else 0) ∧
      (∀ pre post mid, sampleOps = pre ++ post → runOps (samplePool [] false) pre = some mid →
        mid.closing_ = true → sampleAfterOps.closing_ = true) ∧
      (∀ (sys sys' : System) (acts : List Action), sys.run acts = some sys' →
        sys.pool.closing_ = true → sys'.pool.closing_ = true) ∧
      (∀ (a b : AcceptorPool) (op : Op), op.run a = some b →
        (a.closing_ = true → b.closing_ = true) ∧
        (a.closing_ = false → b.closing_ = true →
          (∃ c, op = Op.lifecycle c) ∧
          teardownsBegun b.trace = teardownsBegun a.trace + 1)) ∧
      (∀ (env : ShutdownEnv) (a b : AcceptorPool), Shutdown env a = some b →
        b.closing_ = true) ∧
      (∀ (env : ShutdownEnv) (r : AcceptorPool),
        AcceptorPool.destroy env sampleAfterOps = some r →
        r.closing_ = true ∧ teardownsBegun r.trace = 1)) :=
  ⟨⟨by decide, by decide⟩,
    closing_flag_set_once ⟨some ⟨0⟩⟩ ⟨5⟩ ⟨0, 7050⟩ (samplePool [] false) sampleAfterOps sampleOps
      (by decide) (by decide)⟩

/-! ## C13: `GetBoundAddress` returns what the socket query gave -/

/-- C13: `GetBoundAddress` returns the status of `socket_.GetSocketAddress` and
the address it wrote, whether the query gave OK or failed; the call makes that
one query and changes no data member: closing flag, thread handles, stored bind
address, socket and counter are as before, and `bind_address()` still returns
the stored address. -/
theorem GetBoundAddress_returns_socket_query (s : Status) (a : Sockaddr) (p : AcceptorPool) :
    (GetBoundAddress s a p).2.1 = s ∧
    (GetBoundAddress s a p).2.2 = a ∧
    (GetBoundAddress s a p).2.1.ok = s.ok ∧
    (GetBoundAddress s a p).1 = { p with trace := p.trace ++ [Event.GetSocketAddress s a] } ∧
    (GetBoundAddress s a p).1.closing_ = p.closing_ ∧
    (GetBoundAddress s a p).1.threads_ = p.threads_ ∧
    (GetBoundAddress s a p).1.bind_address_ = p.bind_address_ ∧
    (GetBoundAddress s a p).1.socket_ = p.socket_ ∧
    (GetBoundAddress s a p).1.rpc_connections_accepted_ = p.rpc_connections_accepted_ ∧
    (GetBoundAddress s a p).1.bind_address = p.bind_address :=
  ⟨rfl, rfl, rfl, rfl, rfl, rfl, rfl, rfl, rfl, rfl⟩

/-! ## C14: construction fails exactly when the metrics context is null -/

/-- C14: the constructor hits its fatal `CHECK_NOTNULL` if and only if the
messenger's metrics context is null.  When the context is there, construction
yields a pool holding the descriptor released by the socket argument, the given
bind address and the context's counter, with no thread handle, no call made yet
and the closing flag false. -/
theorem construct_fails_iff_no_metric_context (messenger : Messenger) (socket : Socket)
    (bind_address : Sockaddr) :
    (AcceptorPool.construct messenger socket bind_address = none ↔
      messenger.metric_context = none) ∧
    (∀ ctx, messenger.metric_context = some ctx →
      AcceptorPool.construct messenger socket bind_address = some
        { socket_ := ⟨socket.fd⟩
          bind_address_ := bind_address
          rpc_connections_accepted_ := ctx.rpc_connections_accepted
          threads_ := []
          closing_ := false
          trace := [] }) ∧
    (∀ p, AcceptorPool.construct messenger socket bind_address = some p →
      p.threads_ = [] ∧ p.closing_ = false ∧ started p.trace = [] ∧
      p.bind_address = bind_address) := by
  refine ⟨?_, ?_, ?_⟩
  · cases h : messenger.metric_context <;> simp [AcceptorPool.construct, h]
  · intro ctx h
    simp [AcceptorPool.construct, h, Socket.Release]
  · intro p h
    obtain ⟨h1, h2, h3, h4⟩ := construct_some messenger socket bind_address p h
    exact ⟨h2, h1, by rw [h3]; rfl, h4⟩

/-- Instance of C14: a messenger without metrics context, and one with a context
whose counter reads 7. -/
theorem construct_fails_iff_no_metric_context_witness :
    ((AcceptorPool.construct ⟨none⟩ ⟨5⟩ ⟨0, 7050⟩ = none ↔
      (⟨none⟩ : Messenger).metric_context = none) ∧
    (∀ p, AcceptorPool.construct ⟨some ⟨7⟩⟩ ⟨5⟩ ⟨0, 7050⟩ = some p →
      p.threads_ = [] ∧ p.closing_ = false ∧ started p.trace = [] ∧
      p.bind_address = ⟨0, 7050⟩)) ∧
    AcceptorPool.construct ⟨none⟩ ⟨5⟩ ⟨0, 7050⟩ = none ∧
    AcceptorPool.construct ⟨some ⟨7⟩⟩ ⟨5⟩ ⟨0, 7050⟩ =
      some { samplePool [] false with rpc_connections_accepted_ := 7 } :=
  ⟨⟨(construct_fails_iff_no_metric_context ⟨none⟩ ⟨5⟩ ⟨0, 7050⟩).1,
    (construct_fails_iff_no_metric_context ⟨some ⟨7⟩⟩ ⟨5⟩ ⟨0, 7050⟩).2.2⟩,
    by decide, by decide⟩

/-! ## C17: the order of the teardown -/

/-- C17: a `Shutdown` that finds the flag unset (its `Join` calls giving OK)
returns with the flag set and the collection empty, having made, in this order,
the compare-and-swap, one `socket_.Shutdown(true, true)`, the warning if that
call failed, and one `Join` per handle in collection order.  Step by step, in
every schedule: a caller about to shut the socket down sees the flag already
set, the socket not yet shut down and no handle joined; a caller in the join
loop at element `i` has shut the socket down once and joined the first `i`
handles, the collection still whole; a caller that returned from the teardown
has joined them all and cleared the collection; and whenever the socket has
been shut down the flag is set. -/
theorem first_Shutdown_teardown_order (env : ShutdownEnv) (p : AcceptorPool)
    (hopen : p.closing_ = false)
    (hjoin : ∀ t, t ∈ p.threads_ → (env.join t).ok = true) :
    Shutdown env p = some
      { p with closing_ := true, threads_ := [],
               trace := p.trace ++
                 ([Event.CompareAndSwap false,
                   Event.SocketShutdown true true env.socket_shutdown] ++
                  (if env.socket_shutdown.ok then []
                   else [Event.Log Severity.WARNING
                     (LogMsg.CouldNotShutDownSocket p.bind_address_ env.socket_shutdown)]) ++
                  p.threads_.map fun t => Event.Join t Status.OK) } ∧
    (∀ q, Shutdown env p = some q →
      socketShutdowns q.trace = socketShutdowns p.trace + 1 ∧
      joined q.trace = joined p.trace ++ p.threads_) ∧
    (∀ (sys0 sys : System) (acts : List Action), sys0.pool = p →
      (∀ c, sys0.callers c = ShutdownPC.Start) → sys0.run acts = some sys →
      (∀ c, sys.callers c = ShutdownPC.SocketShutdown →
        sys.pool.closing_ = true ∧ sys.pool.threads_ = p.threads_ ∧
        socketShutdowns sys.pool.trace = socketShutdowns p.trace ∧
        joined sys.pool.trace = joined p.trace) ∧
      (∀ c i, sys.callers c = ShutdownPC.Joining i →
        sys.pool.closing_ = true ∧ sys.pool.threads_ = p.threads_ ∧
        socketShutdowns sys.pool.trace = socketShutdowns p.trace + 1 ∧
        joined sys.pool.trace = joined p.trace ++ p.threads_.take i) ∧
      (∀ c, sys.callers c = ShutdownPC.Returned true →
        sys.pool.closing_ = true ∧ sys.pool.threads_ = [] ∧
        socketShutdowns sys.pool.trace = socketShutdowns p.trace + 1 ∧
        joined sys.pool.trace = joined p.trace ++ p.threads_) ∧
      (socketShutdowns sys.pool.trace ≠ socketShutdowns p.trace →
        sys.pool.closing_ = true)) := by
  have hsd := Shutdown_open_of_ok env p hopen (fun t ht => hjoin t ht)
  refine ⟨?_, ?_, ?_⟩
  · rw [hsd]
    rfl
  · intro q hq
    rw [hsd] at hq
    injection hq with hq
    subst hq
    simp
  · intro sys0 sys acts hp hstart hrun
    subst hp
    have hinv0 : SingleTeardown sys0.pool sys0 := Or.inl ⟨hopen, hstart, rfl, rfl, rfl, rfl⟩
    have hinv := SingleTeardown_run sys0.pool sys0 sys acts hinv0 hrun
    rcases hinv with ⟨hc, hall, hth, hss, hj, _⟩ | ⟨hc, _, w, hothers, hT⟩
    · refine ⟨fun c h => ?_, fun c i h => ?_, fun c h => ?_, fun h => absurd hss h⟩
      · rw [hall c] at h
        cases h
      · rw [hall c] at h
        cases h
      · rw [hall c] at h
        cases h
    · have hw : ∀ c, (sys.callers c).performsTeardown = true → c = w := by
        intro c hperf
        by_contra hne
        rw [hothers c hne] at hperf
        cases hperf
      refine ⟨fun c h => ?_, fun c i h => ?_, fun c h => ?_, fun _ => hc⟩
      · have hcw := hw c (by rw [h]; rfl)
        subst hcw
        rcases hT with ⟨_, h2, h3, h4⟩ | ⟨i, h1, _⟩ | ⟨h1, _⟩
        · exact ⟨hc, h2, h3, h4⟩
        · rw [h] at h1
          cases h1
        · rw [h] at h1
          cases h1
      · have hcw := hw c (by rw [h]; rfl)
        subst hcw
        rcases hT with ⟨h1, _⟩ | ⟨i2, h1, _, h3, h4, h5, _⟩ | ⟨h1, _⟩
        · rw [h] at h1
          cases h1
        · rw [h] at h1
          injection h1 with h1
          subst h1
          exact ⟨hc, h3, h4, h5⟩
        · rw [h] at h1
          cases h1
      · have hcw := hw c (by rw [h]; rfl)
        subst hcw
        rcases hT with ⟨h1, _⟩ | ⟨i, h1, _⟩ | ⟨_, h2, h3, h4, _⟩
        · rw [h] at h1
          cases h1
        · rw [h] at h1
          cases h1
        · exact ⟨hc, h2, h3, h4⟩

/-- Instance of C17: the sample pool with handles 1 and 2. -/
theorem first_Shutdown_teardown_order_witness :
    ((samplePool [⟨1⟩, ⟨2⟩] false).closing_ = false ∧
      ∀ t, t ∈ (samplePool [⟨1⟩, ⟨2⟩] false).threads_ → (okShutdown.join t).ok = true) ∧
    Shutdown okShutdown (samplePool [⟨1⟩, ⟨2⟩] false) = some
      { samplePool [] true with
        trace := [Event.CompareAndSwap false, Event.SocketShutdown true true Status.OK,
          Event.Join ⟨1⟩ Status.OK, Event.Join ⟨2⟩ Status.OK] } :=
  ⟨⟨rfl, fun _ _ => rfl⟩,
    (first_Shutdown_teardown_order okShutdown (samplePool [⟨1⟩, ⟨2⟩] false) rfl
      (fun _ _ => rfl)).1⟩

/-! ## C18: a failed socket shutdown does not stop the teardown -/

/-- C18: when `socket_.Shutdown(true, true)` fails inside a `Shutdown` that found
the flag unset (the `Join` calls giving OK), `Shutdown` still returns: the
failure is logged as one warning and nothing else is done with it; every handle
is joined, one `Join` each in collection order, the collection is emptied and
the flag is set.  In the step-by-step run, the caller goes on to the join loop. -/
theorem Shutdown_continues_after_socket_failure (env : ShutdownEnv) (p : AcceptorPool)
    (hopen : p.closing_ = false)
    (hfail : env.socket_shutdown.ok = false)
    (hjoin : ∀ t, t ∈ p.threads_ → (env.join t).ok = true) :
    ∃ q, Shutdown env p = some q ∧
      q = { p with closing_ := true, threads_ := [],
                   trace := p.trace ++
                     ([Event.CompareAndSwap false,
                       Event.SocketShutdown true true env.socket_shutdown,
                       Event.Log Severity.WARNING
                         (LogMsg.CouldNotShutDownSocket p.bind_address_ env.socket_shutdown)] ++
                      p.threads_.map fun t => Event.Join t Status.OK) } ∧
      warnings q.trace = warnings p.trace ++
        [LogMsg.CouldNotShutDownSocket p.bind_address_ env.socket_shutdown] ∧
      joined q.trace = joined p.trace ++ p.threads_ ∧
      socketShutdowns q.trace = socketShutdowns p.trace + 1 ∧
      q.threads_ = [] ∧ q.closing_ = true ∧
      (∀ (sys : System) (c : Nat), sys.pool = p →
        sys.callers c = ShutdownPC.SocketShutdown →
        sys.step (Action.Caller c env.socket_shutdown) = some
          { sys with pool := { p with trace := p.trace ++
                       [Event.SocketShutdown true true env.socket_shutdown,
                        Event.Log Severity.WARNING
                          (LogMsg.CouldNotShutDownSocket p.bind_address_ env.socket_shutdown)] },
                     callers := Function.update sys.callers c (ShutdownPC.Joining 0) }) := by
  have hsd := Shutdown_open_of_ok env p hopen (fun t ht => hjoin t ht)
  refine ⟨_, hsd, ?_, ?_, ?_, ?_, rfl, rfl, ?_⟩
  · simp [teardownEvents, hfail, joinEvents]
  · simp [teardownEvents, hfail, warnings, joinEvents]
  · simp
  · simp
  · intro sys c hp hpc
    subst hp
    simp [System.step, hpc, socketShutdown_eq, hfail]

/-- Instance of C18: the sample pool with handles 1 and 2, the socket call
failing with "not connected". -/
theorem Shutdown_continues_after_socket_failure_witness :
    ((samplePool [⟨1⟩, ⟨2⟩] false).closing_ = false ∧
      badSocketShutdown.socket_shutdown.ok = false ∧
      ∀ t, t ∈ (samplePool [⟨1⟩, ⟨2⟩] false).threads_ →
        (badSocketShutdown.join t).ok = true) ∧
    Shutdown badSocketShutdown (samplePool [⟨1⟩, ⟨2⟩] false) = some sampleShutDownBadSocket ∧
    warnings sampleShutDownBadSocket.trace =
      [LogMsg.CouldNotShutDownSocket ⟨0, 7050⟩ (Status.Error 107 "not connected")] ∧
    joined sampleShutDownBadSocket.trace = [⟨1⟩, ⟨2⟩] := by
  obtain ⟨q, h1, h2, h3, h4, _⟩ :=
    Shutdown_continues_after_socket_failure badSocketShutdown (samplePool [⟨1⟩, ⟨2⟩] false) rfl
      rfl (fun _ _ => rfl)
  have hq : q = sampleShutDownBadSocket := by
    rw [h2]
    rfl
  subst hq
  exact ⟨⟨rfl, rfl, fun _ _ => rfl⟩, h1, h3, h4⟩

end rpc

namespace tools

/-! ## C15: the destination table of a copy -/

/-- C15: in `CopyTable`, the destination table name is the source table name
when the flag `dst_table` is empty and the flag's value otherwise, for every
source table name and flag value; every `StartCopy` the action makes is on a
scanner built with the `table_name` argument as source and that name as
destination, and the action makes one whenever its client creations give OK. -/
theorem CopyTable_destination_name (ext : External) (flags : Flags) (context : RunnerContext)
    (s : Status) (evs : List ToolEvent)
    (h : CopyTable ext flags context = some (s, evs)) :
    (∀ src, flags.dst_table = "" → CopyTable.dst_table_name flags src = src) ∧
    (∀ src, flags.dst_table ≠ "" → CopyTable.dst_table_name flags src = flags.dst_table) ∧
    (∀ sc st dc dt r, ToolEvent.StartCopy sc st dc dt r ∈ evs →
      FindOrDie context.required_args ext.kTableNameArg = some st ∧
      (flags.dst_table = "" → dt = st) ∧
      (flags.dst_table ≠ "" → dt = flags.dst_table)) ∧
    ((∀ arg, (ext.CreateKuduClient context arg).1.ok = true) →
      ∃ sc st dc dt, ToolEvent.StartCopy sc st dc dt s ∈ evs) := by
  have hname : ∀ src, (flags.dst_table = "" → CopyTable.dst_table_name flags src = src) ∧
      (flags.dst_table ≠ "" → CopyTable.dst_table_name flags src = flags.dst_table) := by
    intro src
    unfold CopyTable.dst_table_name
    by_cases he : flags.dst_table = ""
    · simp [he, String.isEmpty_iff]
    · have : ¬ flags.dst_table.isEmpty = true := fun hx =>
        he ((String.isEmpty_iff _).1 hx)
      simp [he, this]
  refine ⟨fun src => (hname src).1, fun src => (hname src).2, ?_, ?_⟩
  · intro sc st dc dt r hmem
    unfold CopyTable at h
    simp only at h
    split at h
    · injection h with h
      injection h with _ h2
      subst h2
      simp at hmem
    · split at h
      · rename_i src_table_name m d h1 h2 h3
        split at h
        · injection h with h
          injection h with _ h2
          subst h2
          simp at hmem
          obtain ⟨_, rfl, _, rfl, _⟩ := hmem
          exact ⟨h1, (hname _).1, (hname _).2⟩
        · split at h
          · injection h with h
            injection h with _ h2
            subst h2
            simp at hmem
          · injection h with h
            injection h with _ h2
            subst h2
            simp at hmem
            obtain ⟨_, rfl, _, rfl, _⟩ := hmem
            exact ⟨h1, (hname _).1, (hname _).2⟩
      · cases h
  · intro hok
    unfold CopyTable at h
    simp only [hok, Bool.not_true, Bool.false_eq_true, ↓reduceIte] at h
    split at h
    · split at h
      · injection h with h
        injection h with h1 h2
        subst h1 h2
        exact ⟨_, _, _, _, List.mem_append_right _ (List.mem_singleton_self _)⟩
      · injection h with h
        injection h with h1 h2
        subst h1 h2
        exact ⟨_, _, _, _, List.mem_append_right _ (List.mem_singleton_self _)⟩
    · cases h

/-- Instance of C15: a copy between two clusters with the flag left empty. -/
theorem CopyTable_destination_name_witness :
    CopyTable sampleExternal ⟨""⟩ (sampleContext []) = some (Status.OK,
      [ToolEvent.CreateKuduClient none Status.OK ⟨1⟩,
       ToolEvent.CreateKuduClient (some "dest_master_addresses") Status.OK ⟨2⟩,
       ToolEvent.StartCopy ⟨1⟩ "t1" ⟨2⟩ "t1" Status.OK]) ∧
    ((∀ src, (⟨""⟩ : Flags).dst_table = "" → CopyTable.dst_table_name ⟨""⟩ src = src) ∧
    (∀ src, (⟨""⟩ : Flags).dst_table ≠ "" →
      CopyTable.dst_table_name ⟨""⟩ src = (⟨""⟩ : Flags).dst_table) ∧
    (∀ sc st dc dt r, ToolEvent.StartCopy sc st dc dt r ∈
        [ToolEvent.CreateKuduClient none Status.OK ⟨1⟩,
         ToolEvent.CreateKuduClient (some "dest_master_addresses") Status.OK ⟨2⟩,
         ToolEvent.StartCopy ⟨1⟩ "t1" ⟨2⟩ "t1" Status.OK] →
      FindOrDie (sampleContext []).required_args sampleExternal.kTableNameArg = some st ∧
      ((⟨""⟩ : Flags).dst_table = "" → dt = st) ∧
      ((⟨""⟩ : Flags).dst_table ≠ "" → dt = (⟨""⟩ : Flags).dst_table)) ∧
    ((∀ arg, (sampleExternal.CreateKuduClient (sampleContext []) arg).1.ok = true) →
      ∃ sc st dc dt, ToolEvent.StartCopy sc st dc dt Status.OK ∈
        [ToolEvent.CreateKuduClient none Status.OK ⟨1⟩,
         ToolEvent.CreateKuduClient (some "dest_master_addresses") Status.OK ⟨2⟩,
         ToolEvent.StartCopy ⟨1⟩ "t1" ⟨2⟩ "t1" Status.OK])) :=
  ⟨by decide,
    CopyTable_destination_name sampleExternal ⟨""⟩ (sampleContext []) Status.OK _ (by decide)⟩

/-! ## C16: a default value must be an array of one value -/

/-- C16: for every column type, `DECIMAL` and the types the tool does not know
included, when the text parses and yields an array whose length is not 1,
`ParseValueOfType` returns `InvalidArgument` with the message telling how many
values it got, and stores no value. -/
theorem ParseValueOfType_rejects_other_lengths (ext : External) (default_value : String)
    (type : DataType)
    (hinit : (ext.JsonReaderInit default_value).ok = true)
    (harray : (ext.ExtractObjectArray default_value).1.ok = true)
    (hlen : (ext.ExtractObjectArray default_value).2.length ≠ 1) :
    ParseValueOfType ext default_value type =
      (Status.InvalidArgument ("We got " ++
        toString (ext.ExtractObjectArray default_value).2.length ++
        " value(s), you should provide one default value."), none) ∧
    (ParseValueOfType ext default_value type).1.IsInvalidArgument = true ∧
    (ParseValueOfType ext default_value type).1.ok = false ∧
    (ParseValueOfType ext default_value type).2 = none := by
  have hmain : ParseValueOfType ext default_value type =
      (Status.InvalidArgument ("We got " ++
        toString (ext.ExtractObjectArray default_value).2.length ++
        " value(s), you should provide one default value."), none) := by
    unfold ParseValueOfType
    simp only [hinit, harray, Bool.not_true, Bool.false_eq_true, ↓reduceIte]
    split
    · rename_i value0 hv
      rw [hv] at hlen
      exact absurd rfl hlen
    · rfl
  rw [hmain]
  exact ⟨rfl, rfl, rfl, rfl⟩

/-- Instance of C16: the text `[1, 2]` for a `DECIMAL` column. -/
theorem ParseValueOfType_rejects_other_lengths_witness :
    ((sampleExternal.JsonReaderInit "[1, 2]").ok = true ∧
      (sampleExternal.ExtractObjectArray "[1, 2]").1.ok = true ∧
      (sampleExternal.ExtractObjectArray "[1, 2]").2.length ≠ 1) ∧
    (ParseValueOfType sampleExternal "[1, 2]" DataType.DECIMAL =
      (Status.InvalidArgument ("We got " ++
        toString (sampleExternal.ExtractObjectArray "[1, 2]").2.length ++
        " value(s), you should provide one default value."), none) ∧
    (ParseValueOfType sampleExternal "[1, 2]" DataType.DECIMAL).1.IsInvalidArgument = true ∧
    (ParseValueOfType sampleExternal "[1, 2]" DataType.DECIMAL).1.ok = false ∧
    (ParseValueOfType sampleExternal "[1, 2]" DataType.DECIMAL).2 = none) :=
  ⟨⟨by decide, by decide, by decide⟩,
    ParseValueOfType_rejects_other_lengths sampleExternal "[1, 2]" DataType.DECIMAL
      (by decide) (by decide) (by decide)⟩

/-! ### Altering one column -/

theorem alterColumn_events (ext : External) (context : RunnerContext)
    (table_name column_name : String) (change : ColumnAlteration) :
    (alterColumn ext context table_name column_name change).2 ≠ [] ∧
    ((ext.CreateKuduClient context none).1.ok = false →
      alterColumn ext context table_name column_name change =
        ((ext.CreateKuduClient context none).1,
         [ToolEvent.CreateKuduClient none
           (ext.CreateKuduClient context none).1
           (ext.CreateKuduClient context none).2])) ∧
    ((ext.CreateKuduClient context none).1.ok = true →
      alterColumn ext context table_name column_name change =
        (ext.Alter (ext.CreateKuduClient context none).2 table_name
           [⟨column_name, change⟩],
         [ToolEvent.CreateKuduClient none
           (ext.CreateKuduClient context none).1
           (ext.CreateKuduClient context none).2,
          ToolEvent.Alter (ext.CreateKuduClient context none).2 table_name
           [⟨column_name, change⟩]
           (ext.Alter (ext.CreateKuduClient context none).2 table_name
             [⟨column_name, change⟩])])) ∧
    (∀ client t steps r,
      ToolEvent.Alter client t steps r ∈
        (alterColumn ext context table_name column_name change).2 →
      t = table_name ∧ steps = [⟨column_name, change⟩]) := by
  unfold alterColumn
  cases hok : (ext.CreateKuduClient context none).1.ok <;> simp [hok]
  intro client t steps r _ ht hsteps _
  exact ⟨ht, hsteps⟩

/-! ## C19: the block size must parse and be positive -/

/-- C19: `ColumnSetBlockSize`, its three arguments being present, returns
`InvalidArgument` without creating a client or altering anything when the
`block_size` text does not parse as a 32-bit integer, and when it parses to a
value `<= 0`; these are the only cases in which it does.  When the text parses
to `v > 0`, it creates the client and, the client created, sends one alter
request, for the given table and column, whose block size is `v`. -/
theorem ColumnSetBlockSize_accepts_positive_int32 (ext : External) (context : RunnerContext)
    (table_name column_name str_block_size : String)
    (h1 : FindOrDie context.required_args ext.kTableNameArg = some table_name)
    (h2 : FindOrDie context.required_args kColumnNameArg = some column_name)
    (h3 : FindOrDie context.required_args kBlockSizeArg = some str_block_size) :
    (ext.safe_strto32 str_block_size = none →
      ColumnSetBlockSize ext context = some (Status.InvalidArgument
        ("Unable to parse block_size value: " ++ str_block_size ++ "."), [])) ∧
    (∀ v, ext.safe_strto32 str_block_size = some v → v ≤ 0 →
      ColumnSetBlockSize ext context = some (Status.InvalidArgument
        ("Invalid block size: " ++ str_block_size ++ ", it should be set higher than 0."),
        [])) ∧
    (∀ v, ext.safe_strto32 str_block_size = some v → 0 < v →
      ColumnSetBlockSize ext context = some
        (alterColumn ext context table_name column_name (ColumnAlteration.BlockSize v)) ∧
      ((ext.CreateKuduClient context none).1.ok = true →
        ColumnSetBlockSize ext context = some
          (ext.Alter (ext.CreateKuduClient context none).2 table_name
             [⟨column_name, ColumnAlteration.BlockSize v⟩],
           [ToolEvent.CreateKuduClient none
             (ext.CreateKuduClient context none).1
             (ext.CreateKuduClient context none).2,
            ToolEvent.Alter (ext.CreateKuduClient context none).2
             table_name [⟨column_name, ColumnAlteration.BlockSize v⟩]
             (ext.Alter (ext.CreateKuduClient context none).2 table_name
               [⟨column_name, ColumnAlteration.BlockSize v⟩])]))) ∧
    (∀ s evs client t steps r, ColumnSetBlockSize ext context = some (s, evs) →
      ToolEvent.Alter client t steps r ∈ evs →
      ∃ v, ext.safe_strto32 str_block_size = some v ∧ 0 < v ∧ t = table_name ∧
        steps = [⟨column_name, ColumnAlteration.BlockSize v⟩]) ∧
    ((∃ s, ColumnSetBlockSize ext context = some (s, []) ∧ s.IsInvalidArgument = true) ↔
      ¬ ∃ v, ext.safe_strto32 str_block_size = some v ∧ 0 < v) := by
  have hnone : ext.safe_strto32 str_block_size = none →
      ColumnSetBlockSize ext context = some (Status.InvalidArgument
        ("Unable to parse block_size value: " ++ str_block_size ++ "."), []) := by
    intro hp
    simp [ColumnSetBlockSize, h1, h2, h3, hp]
  have hle : ∀ v, ext.safe_strto32 str_block_size = some v → v ≤ 0 →
      ColumnSetBlockSize ext context = some (Status.InvalidArgument
        ("Invalid block size: " ++ str_block_size ++ ", it should be set higher than 0."),
        []) := by
    intro v hp hv
    simp [ColumnSetBlockSize, h1, h2, h3, hp, hv]
  have hpos : ∀ v, ext.safe_strto32 str_block_size = some v → 0 < v →
      ColumnSetBlockSize ext context = some
        (alterColumn ext context table_name column_name (ColumnAlteration.BlockSize v)) := by
    intro v hp hv
    have : ¬ v ≤ 0 := by omega
    simp [ColumnSetBlockSize, h1, h2, h3, hp, this]
  refine ⟨hnone, hle, ?_, ?_, ?_⟩
  · intro v hp hv
    refine ⟨hpos v hp hv, fun hok => ?_⟩
    rw [hpos v hp hv, (alterColumn_events ext context table_name column_name _).2.2.1 hok]
  · intro s evs client t steps r hres hmem
    cases hp : ext.safe_strto32 str_block_size with
    | none =>
      rw [hnone hp] at hres
      injection hres with hres
      injection hres with _ hevs
      subst hevs
      cases hmem
    | some v =>
      by_cases hv : v ≤ 0
      · rw [hle v hp hv] at hres
        injection hres with hres
        injection hres with _ hevs
        subst hevs
        cases hmem
      · rw [hpos v hp (by omega)] at hres
        injection hres with hres
        have hevs : evs = (alterColumn ext context table_name column_name
            (ColumnAlteration.BlockSize v)).2 := by rw [hres]
        rw [hevs] at hmem
        obtain ⟨ht, hsteps⟩ :=
          (alterColumn_events ext context table_name column_name _).2.2.2 client t steps r hmem
        exact ⟨v, rfl, by omega, ht, hsteps⟩
  · constructor
    · rintro ⟨s, hres, _⟩ ⟨v, hp, hv⟩
      rw [hpos v hp hv] at hres
      injection hres with hres
      have := (alterColumn_events ext context table_name column_name
        (ColumnAlteration.BlockSize v)).1
      rw [hres] at this
      exact this rfl
    · intro hno
      cases hp : ext.safe_strto32 str_block_size with
      | none => exact ⟨_, hnone hp, rfl⟩
      | some v =>
        have hv : v ≤ 0 := by
          by_contra hgt
          exact hno ⟨v, hp, by omega⟩
        exact ⟨_, hle v hp hv, rfl⟩

/-- Instance of C19: the block sizes `0` and `4096`. -/
theorem ColumnSetBlockSize_accepts_positive_int32_witness :
    (FindOrDie (sampleContext [("block_size", "0")]).required_args
        sampleExternal.kTableNameArg = some "t1" ∧
      FindOrDie (sampleContext [("block_size", "0")]).required_args kColumnNameArg =
        some "c1" ∧
      FindOrDie (sampleContext [("block_size", "0")]).required_args kBlockSizeArg =
        some "0") ∧
    ColumnSetBlockSize sampleExternal (sampleContext [("block_size", "0")]) =
      some (Status.InvalidArgument "Invalid block size: 0, it should be set higher than 0.",
        []) ∧
    ColumnSetBlockSize sampleExternal (sampleContext [("block_size", "4096")]) =
      some (Status.OK,
        [ToolEvent.CreateKuduClient none Status.OK ⟨1⟩,
         ToolEvent.Alter ⟨1⟩ "t1" [⟨"c1", ColumnAlteration.BlockSize 4096⟩] Status.OK]) :=
  ⟨⟨by decide, by decide, by decide⟩,
    (ColumnSetBlockSize_accepts_positive_int32 sampleExternal
      (sampleContext [("block_size", "0")]) "t1" "c1" "0"
      (by decide) (by decide) (by decide)).2.1 0 (by decide) (by decide),
    ((ColumnSetBlockSize_accepts_positive_int32 sampleExternal
      (sampleContext [("block_size", "4096")]) "t1" "c1" "4096"
      (by decide) (by decide) (by decide)).2.2.1 4096 (by decide) (by decide)).2 (by decide)⟩

/-! ## C20: the compression type is matched on its upper-cased name -/

theorem FindOrNull_compression_type_map (uc : String) :
    (∀ t, FindOrNull compression_type_map uc = some t ↔ uc = t.name) ∧
    (FindOrNull compression_type_map uc = none ↔
      uc ∉ ["DEFAULT_COMPRESSION", "NO_COMPRESSION", "SNAPPY", "LZ4", "ZLIB"]) := by
  by_cases h1 : uc = "DEFAULT_COMPRESSION"
  · subst h1
    refine ⟨fun t => ?_, by decide⟩
    cases t <;> decide
  by_cases h2 : uc = "NO_COMPRESSION"
  · subst h2
    refine ⟨fun t => ?_, by decide⟩
    cases t <;> decide
  by_cases h3 : uc = "SNAPPY"
  · subst h3
    refine ⟨fun t => ?_, by decide⟩
    cases t <;> decide
  by_cases h4 : uc = "LZ4"
  · subst h4
    refine ⟨fun t => ?_, by decide⟩
    cases t <;> decide
  by_cases h5 : uc = "ZLIB"
  · subst h5
    refine ⟨fun t => ?_, by decide⟩
    cases t <;> decide
  have hnone : FindOrNull compression_type_map uc = none := by
    have e1 : (uc == "DEFAULT_COMPRESSION") = false := by simpa using h1
    have e2 : (uc == "NO_COMPRESSION") = false := by simpa using h2
    have e3 : (uc == "SNAPPY") = false := by simpa using h3
    have e4 : (uc == "LZ4") = false := by simpa using h4
    have e5 : (uc == "ZLIB") = false := by simpa using h5
    simp only [FindOrNull, compression_type_map, List.lookup, e1, e2, e3, e4, e5]
  refine ⟨fun t => ?_, ?_⟩
  · rw [hnone]
    cases t <;> simp [CompressionType.name, h1, h2, h3, h4, h5]
  · simp [hnone, h1, h2, h3, h4, h5]

/-- C20: `ColumnSetCompression`, its three arguments being present, looks the
upper-cased `compression_type` text up among exactly five names.  When that
text is the name of a compression type, it creates the client and, the client
created, sends one alter request, for the given table and column, setting that
compression type; when it is none of `DEFAULT_COMPRESSION`, `NO_COMPRESSION`,
`SNAPPY`, `LZ4`, `ZLIB`, it returns `InvalidArgument` without creating a client
or altering anything, and in no other case. -/
theorem ColumnSetCompression_matches_five_names (ext : External) (context : RunnerContext)
    (table_name column_name compression_type_arg : String)
    (h1 : FindOrDie context.required_args ext.kTableNameArg = some table_name)
    (h2 : FindOrDie context.required_args kColumnNameArg = some column_name)
    (h3 : FindOrDie context.required_args kCompressionTypeArg = some compression_type_arg) :
    (∀ s, (∃ t : CompressionType, s = t.name) ↔
      s ∈ ["DEFAULT_COMPRESSION", "NO_COMPRESSION", "SNAPPY", "LZ4", "ZLIB"]) ∧
    (∀ t : CompressionType, ext.ToUpperCase compression_type_arg = t.name →
      ColumnSetCompression ext context = some
        (alterColumn ext context table_name column_name (ColumnAlteration.Compression t)) ∧
      ((ext.CreateKuduClient context none).1.ok = true →
        ColumnSetCompression ext context = some
          (ext.Alter (ext.CreateKuduClient context none).2 table_name
             [⟨column_name, ColumnAlteration.Compression t⟩],
           [ToolEvent.CreateKuduClient none
             (ext.CreateKuduClient context none).1
             (ext.CreateKuduClient context none).2,
            ToolEvent.Alter (ext.CreateKuduClient context none).2
             table_name [⟨column_name, ColumnAlteration.Compression t⟩]
             (ext.Alter (ext.CreateKuduClient context none).2 table_name
               [⟨column_name, ColumnAlteration.Compression t⟩])]))) ∧
    (ext.ToUpperCase compression_type_arg ∉
        ["DEFAULT_COMPRESSION", "NO_COMPRESSION", "SNAPPY", "LZ4", "ZLIB"] →
      ColumnSetCompression ext context = some (Status.InvalidArgument
        ("Failed to parse compression type from " ++ compression_type_arg ++
          ", supported compression types are: " ++
          ext.JoinKeysIterator compression_type_map ", " ++ "."), [])) ∧
    (∀ s evs client t steps r, ColumnSetCompression ext context = some (s, evs) →
      ToolEvent.Alter client t steps r ∈ evs →
      ∃ c : CompressionType, ext.ToUpperCase compression_type_arg = c.name ∧
        t = table_name ∧ steps = [⟨column_name, ColumnAlteration.Compression c⟩]) ∧
    ((∃ s, ColumnSetCompression ext context = some (s, []) ∧ s.IsInvalidArgument = true) ↔
      ext.ToUpperCase compression_type_arg ∉
        ["DEFAULT_COMPRESSION", "NO_COMPRESSION", "SNAPPY", "LZ4", "ZLIB"]) := by
  obtain ⟨hsome, hnone⟩ := FindOrNull_compression_type_map (ext.ToUpperCase compression_type_arg)
  have hmatch : ∀ t : CompressionType, ext.ToUpperCase compression_type_arg = t.name →
      ColumnSetCompression ext context = some
        (alterColumn ext context table_name column_name (ColumnAlteration.Compression t)) := by
    intro t ht
    simp [ColumnSetCompression, h1, h2, h3, (hsome t).2 ht]
  have hreject : ext.ToUpperCase compression_type_arg ∉
        ["DEFAULT_COMPRESSION", "NO_COMPRESSION", "SNAPPY", "LZ4", "ZLIB"] →
      ColumnSetCompression ext context = some (Status.InvalidArgument
        ("Failed to parse compression type from " ++ compression_type_arg ++
          ", supported compression types are: " ++
          ext.JoinKeysIterator compression_type_map ", " ++ "."), []) := by
    intro hn
    simp [ColumnSetCompression, h1, h2, h3, hnone.2 hn]
  have hnames : ∀ s, (∃ t : CompressionType, s = t.name) ↔
      s ∈ ["DEFAULT_COMPRESSION", "NO_COMPRESSION", "SNAPPY", "LZ4", "ZLIB"] := by
    intro s
    constructor
    · rintro ⟨t, rfl⟩
      cases t <;> decide
    · intro hs
      simp only [List.mem_cons, List.mem_singleton, List.not_mem_nil, or_false] at hs
      rcases hs with rfl | rfl | rfl | rfl | rfl
      · exact ⟨CompressionType.DEFAULT_COMPRESSION, rfl⟩
      · exact ⟨CompressionType.NO_COMPRESSION, rfl⟩
      · exact ⟨CompressionType.SNAPPY, rfl⟩
      · exact ⟨CompressionType.LZ4, rfl⟩
      · exact ⟨CompressionType.ZLIB, rfl⟩
  have hcases : (∃ t : CompressionType, ext.ToUpperCase compression_type_arg = t.name) ∨
      ext.ToUpperCase compression_type_arg ∉
        ["DEFAULT_COMPRESSION", "NO_COMPRESSION", "SNAPPY", "LZ4", "ZLIB"] := by
    by_cases hin : ext.ToUpperCase compression_type_arg ∈
        ["DEFAULT_COMPRESSION", "NO_COMPRESSION", "SNAPPY", "LZ4", "ZLIB"]
    · exact Or.inl ((hnames _).2 hin)
    · exact Or.inr hin
  refine ⟨hnames, ?_, hreject, ?_, ?_⟩
  · intro t ht
    refine ⟨hmatch t ht, fun hok => ?_⟩
    rw [hmatch t ht, (alterColumn_events ext context table_name column_name _).2.2.1 hok]
  · intro s evs client t steps r hres hmem
    rcases hcases with ⟨c, hc⟩ | hn
    · rw [hmatch c hc] at hres
      injection hres with hres
      have hevs : evs = (alterColumn ext context table_name column_name
          (ColumnAlteration.Compression c)).2 := by rw [hres]
      rw [hevs] at hmem
      obtain ⟨ht, hsteps⟩ :=
        (alterColumn_events ext context table_name column_name _).2.2.2 client t steps r hmem
      exact ⟨c, hc, ht, hsteps⟩
    · rw [hreject hn] at hres
      injection hres with hres
      injection hres with _ hevs
      subst hevs
      cases hmem
  · constructor
    · rintro ⟨s, hres, _⟩ hin
      obtain ⟨c, hc⟩ := (hnames _).2 hin
      rw [hmatch c hc] at hres
      injection hres with hres
      have := (alterColumn_events ext context table_name column_name
        (ColumnAlteration.Compression c)).1
      rw [hres] at this
      exact this rfl
    · intro hn
      exact ⟨_, hreject hn, rfl⟩

/-- Instance of C20: the texts `snappy` and `gzip`. -/
theorem ColumnSetCompression_matches_five_names_witness :
    (FindOrDie (sampleContext [("compression_type", "snappy")]).required_args
        sampleExternal.kTableNameArg = some "t1" ∧
      FindOrDie (sampleContext [("compression_type", "snappy")]).required_args
        kColumnNameArg = some "c1" ∧
      FindOrDie (sampleContext [("compression_type", "snappy")]).required_args
        kCompressionTypeArg = some "snappy") ∧
    ColumnSetCompression sampleExternal (sampleContext [("compression_type", "snappy")]) =
      some (Status.OK,
        [ToolEvent.CreateKuduClient none Status.OK ⟨1⟩,
         ToolEvent.Alter ⟨1⟩ "t1" [⟨"c1", ColumnAlteration.Compression CompressionType.SNAPPY⟩]
           Status.OK]) ∧
    ColumnSetCompression sampleExternal (sampleContext [("compression_type", "gzip")]) =
      some (Status.InvalidArgument
        ("Failed to parse compression type from " ++ "gzip" ++
          ", supported compression types are: " ++
          sampleExternal.JoinKeysIterator compression_type_map ", " ++ "."), []) :=
  ⟨⟨by decide, by decide, by decide⟩,
    ((ColumnSetCompression_matches_five_names sampleExternal
      (sampleContext [("compression_type", "snappy")]) "t1" "c1" "snappy"
      (by decide) (by decide) (by decide)).2.1 CompressionType.SNAPPY (by decide)).2 (by decide),
    (ColumnSetCompression_matches_five_names sampleExternal
      (sampleContext [("compression_type", "gzip")]) "t1" "c1" "gzip"
      (by decide) (by decide) (by decide)).2.2.1 (by decide)⟩

end tools
end kudu
